import Mathlib

/-!
# mysql-audit: handler state machine and JSON formatter

A shallow embedding of `src/src/audit_handler.cc` and `src/include/audit_handler.h`.

* C strings and byte buffers are lists of byte values (`Bytes`); a `char *` that may be
  `NULL` is an `Option`.
* The class hierarchy `Audit_handler` / `Audit_io_handler` / `Audit_file_handler` /
  `Audit_socket_handler` is flattened into one record `Handler` with a `kind` tag; the
  virtual methods dispatch on the tag.
* Every call into the host or a library (`time`, `my_fopen`, `socket`, `vio_write`, yajl,
  pcre, `copy_and_convert`, ...) takes its outcome from an `Env` record: the outcomes of the
  external calls made during one operation.
* Every operation returns, next to the new state, the list of sink and formatter calls it
  made (`Call`), so that "performs no I/O" is the statement that this list is empty.
* Locks are not represented: the embedding is the sequential behaviour of one operation.
-/

namespace MysqlAudit

/-- A byte buffer; a C string is the bytes before its terminating NUL. -/
abbrev Bytes := List Nat

/-- The bytes of an ASCII string literal. -/
def cstr (s : String) : Bytes := s.toList.map Char.toNat

/-- C `strlen` on a buffer: the number of bytes before the first NUL. -/
def strlen (buf : Bytes) : Nat := (buf.takeWhile (fun b => b != 0)).length

/-- C `memset(new_str, 0, n)` on a fresh allocation. -/
def zeroed (n : Nat) : Bytes := List.replicate n 0

/-- C `memcpy(buf + pos, src, src.length)`: overwrite `buf` from offset `pos` on; the
buffer keeps its size (a write past its end is outside the embedding). -/
def memcpy_at (buf : Bytes) (pos : Nat) (src : Bytes) : Bytes :=
  (buf.take pos ++ src ++ buf.drop (pos + src.length)).take buf.length

/-- The `n` bytes of `str` from offset `off` on (a pointer and a length); a read past the
end of `str` is outside the embedding. -/
def slice (str : Bytes) (off n : Nat) : Bytes := (str.drop off).take n

/-- The width of `size_t`. -/
def SIZE_MOD : Nat := 2 ^ 64

/-- Conversion of an `int` to `size_t`. -/
def to_size_t (i : Int) : Nat := (i % (SIZE_MOD : Int)).toNat

/-- The source's `replace_in_string`: a fresh buffer of `str_len + strlen(replace) + 1`
zero bytes into which the front of `str`, `replace`, and the text after the clear text are
copied. Pointer and length arithmetic is `size_t` arithmetic. -/
def replace_in_string (str : Bytes) (str_len cleartext_start cleartext_len : Nat)
    (replace : Bytes) : Bytes :=
  let to_alloc := str_len + strlen replace + 1
  let new_str := zeroed to_alloc
  -- point to text after clear text
  let trailing := (cleartext_start + cleartext_len) % SIZE_MOD
  -- how much text after clear text to copy in
  let final_to_move := (str_len + SIZE_MOD - trailing) % SIZE_MOD
  let pos := 0
  let new_str := memcpy_at new_str pos (slice str 0 cleartext_start)
  let pos := pos + cleartext_start
  let new_str := memcpy_at new_str pos (slice replace 0 (strlen replace))
  let pos := pos + strlen replace
  memcpy_at new_str pos (slice str trailing final_to_move)

/-! ## yajl generator -/

/-- The calls made on a yajl generator, in order. -/
inductive GenCall where
  | map_open
  | map_close
  | array_open
  | array_close
  | string (s : Bytes)
  deriving DecidableEq, Repr

/-- Source: `yajl_add_string`. -/
def yajl_add_string (str : Bytes) : List GenCall := [GenCall.string str]

/-- Source: `yajl_add_string_val(gen, name, val)`: a `NULL` value adds nothing. -/
def yajl_add_string_val (name : Bytes) (val : Option Bytes) : List GenCall :=
  match val with
  | none => []
  | some v => yajl_add_string name ++ yajl_add_string v

/-- Source: `yajl_add_string_val(gen, name, val, val_len)`. -/
def yajl_add_string_val_len (name : Bytes) (val : Bytes) (val_len : Nat) : List GenCall :=
  yajl_add_string name ++ [GenCall.string (val.take val_len)]

/-- Decimal digits of a number, as `snprintf("%llu")` prints them. -/
def decimal (num : Nat) : Bytes := cstr (toString num)

/-- Source: `yajl_add_uint64`. -/
def yajl_add_uint64 (name : Bytes) (num : Nat) : List GenCall :=
  yajl_add_string_val name (some (decimal num))

/-- Source: `yajl_add_obj(gen, db, ptype, name)`. -/
def yajl_add_obj (db : Option Bytes) (ptype : Option Bytes) (name : Option Bytes) :
    List GenCall :=
  (match db with
    | some d => yajl_add_string_val (cstr "db") (some d)
    | none => []) ++
  (match name with
    | some n => yajl_add_string_val (cstr "name") (some n)
    | none => []) ++
  yajl_add_string_val (cstr "obj_type") ptype

/-! ## Session data -/

/-- Maximum number of query-cache table entries. -/
def MAX_NUM_QUERY_TABLE_ELEM : Int := 100

/-- The command code of a generic query. -/
def COM_QUERY : Int := 3

/-- Source: `QueryTableInf`; the three arrays are indexed by position. -/
structure QueryTableInf where
  num_of_elem : Int
  db : Nat → Option Bytes
  table_name : Nat → Option Bytes
  object_type : Nat → Option Bytes

/-- One node of a `TABLE_LIST` chain (`next_global` is the tail of the list). -/
structure TABLE_LIST where
  db : Option Bytes
  table_name : Option Bytes
  /-- Whether `view_tables != 0`. -/
  view_tables : Bool
  deriving DecidableEq, Repr

/-- The parts of the host's `THD` the audit code reads. -/
structure THD where
  /-- Result of `thd_get_thread_id`. -/
  thread_id : Nat
  /-- The thread id read through the configured offset. -/
  inst_thread_id : Nat
  query_id : Nat
  priv_user : Option Bytes
  host : Option Bytes
  ip : Option Bytes
  command : Int
  /-- The statement's `LEX`, when present, as its `query_tables` chain. -/
  lex : Option (List TABLE_LIST)
  /-- Result of `getQueryCacheTableList1`. -/
  query_cache : Option QueryTableInf
  db : Option Bytes
  /-- Result of `thd_query_str`: the query pointer (with its length) or `NULL`. -/
  query : Option Bytes
  /-- The `csname` of `Item::default_charset()`. -/
  csname : String

/-- Source: `ThdSesData::ObjectIterType`. -/
inductive ObjectIterType where
  | OBJ_NONE
  | OBJ_DB
  | OBJ_QUERY_CACHE
  | OBJ_TABLE_LIST
  deriving DecidableEq, Repr

/-- Source: `ThdSesData`. -/
structure ThdSesData where
  m_pThd : THD
  m_CmdName : Option Bytes
  m_UserName : Option Bytes
  m_isSqlCmd : Bool
  m_objIterType : ObjectIterType
  m_tables : List TABLE_LIST
  m_firstTable : Bool
  m_tableInf : Option QueryTableInf
  m_index : Int

/-- C `strcmp(cmd, s) == 0` on a command name that is not `NULL`. -/
def cmd_is (cmd : Bytes) (s : String) : Bool := cmd == cstr s

/-- Source: `ThdSesData::startGetObjects`. The result is `none` when the call passes a
`NULL` command name to `strcmp`, which is undefined behaviour. -/
def startGetObjects (d : ThdSesData) : Option (Bool × ThdSesData) :=
  -- reset vars as this may be called multiple times
  let d := { d with m_objIterType := ObjectIterType.OBJ_NONE, m_tables := [],
                    m_firstTable := true, m_index := 0,
                    m_tableInf := d.m_pThd.query_cache }
  let command := d.m_pThd.command
  let pLex := d.m_pThd.lex
  -- query cache case
  if pLex.isSome && command == COM_QUERY &&
      (match d.m_tableInf with
        | some inf => decide (inf.num_of_elem > 0)
        | none => false) then
    some (true, { d with m_objIterType := ObjectIterType.OBJ_QUERY_CACHE })
  else
    match d.m_CmdName with
    | none => none
    | some cmd =>
      -- commands which have single database object
      if cmd_is cmd "Init DB" || cmd_is cmd "SHOW TABLES" || cmd_is cmd "SHOW TABLE" then
        if d.m_pThd.db.isSome then
          some (true, { d with m_objIterType := ObjectIterType.OBJ_DB })
        else some (false, d)
      else
        -- only return query tabls if command is COM_QUERY
        match pLex with
        | some (t :: ts) =>
          if command == COM_QUERY then
            some (true, { d with m_tables := t :: ts,
                                 m_objIterType := ObjectIterType.OBJ_TABLE_LIST })
          else some (false, d)
        | _ => some (false, d)

/-- The three out-parameters of `getNextObject`. -/
structure ObjOut where
  db_name : Option Bytes
  obj_name : Option Bytes
  obj_type : Option Bytes
  deriving DecidableEq, Repr

/-- C `strstr(cmd, "_view") != NULL` on a command name that is not `NULL`. -/
def has_view_token (cmd : Bytes) : Bool := decide (List.IsInfix (cstr "_view") cmd)

/-- Source: `ThdSesData::getNextObject` called with a non-null `obj_type`; `out` holds the
values the out-parameters point to (unchanged when the call returns false). The result is
`none` when the call passes a `NULL` command name to `strstr`, which is undefined
behaviour; `&&` makes that call only when `m_firstTable` is set. -/
def getNextObject (d : ThdSesData) (out : ObjOut) : Option (Bool × ObjOut × ThdSesData) :=
  match d.m_objIterType with
  | ObjectIterType.OBJ_DB =>
    if d.m_firstTable then
      some (true,
        { db_name := d.m_pThd.db, obj_name := none, obj_type := some (cstr "DATABASE") },
        { d with m_firstTable := false })
    else some (false, out, d)
  | ObjectIterType.OBJ_QUERY_CACHE =>
    match d.m_tableInf with
    | some inf =>
      if d.m_index < inf.num_of_elem ∧ d.m_index < MAX_NUM_QUERY_TABLE_ELEM then
        some (true, { db_name := inf.db d.m_index.toNat,
                      obj_name := inf.table_name d.m_index.toNat,
                      obj_type := inf.object_type d.m_index.toNat },
          { d with m_index := d.m_index + 1 })
      else some (false, out, d)
    | none => some (false, out, d)
  | ObjectIterType.OBJ_TABLE_LIST =>
    match d.m_tables with
    | t :: rest =>
      -- object is a view if it view command (alter_view, drop_view ..)
      -- and first object or view field is populated
      match (if d.m_firstTable then d.m_CmdName.map has_view_token else some false) with
      | none => none
      | some view_cmd =>
        if view_cmd || t.view_tables then
          some (true,
            { db_name := t.db, obj_name := t.table_name, obj_type := some (cstr "VIEW") },
            { d with m_firstTable := false, m_tables := rest })
        else
          some (true,
            { db_name := t.db, obj_name := t.table_name, obj_type := some (cstr "TABLE") },
            { d with m_tables := rest })
    | [] => some (false, out, d)
  | ObjectIterType.OBJ_NONE => some (false, out, d)

/-- An upper bound on the number of objects `getNextObject` can still yield. -/
def objects_left (d : ThdSesData) : Nat :=
  match d.m_objIterType with
  | ObjectIterType.OBJ_DB => 1
  | ObjectIterType.OBJ_QUERY_CACHE => (MAX_NUM_QUERY_TABLE_ELEM - d.m_index).toNat
  | ObjectIterType.OBJ_TABLE_LIST => d.m_tables.length
  | ObjectIterType.OBJ_NONE => 0

/-- The `while (getNextObject(...))` loop of `event_format`, with at most `fuel` turns:
each object yielded adds one map to the generator. No call follows a `getNextObject` whose
behaviour is undefined. -/
def drain_objects : Nat → ThdSesData → ObjOut → List GenCall
  | 0, _, _ => []
  | fuel + 1, d, out =>
    match getNextObject d out with
    | some (true, out1, d1) =>
      [GenCall.map_open] ++ yajl_add_obj out1.db_name out1.obj_type out1.obj_name ++
        [GenCall.map_close] ++ drain_objects fuel d1 out1
    | _ => []

/-! ## External calls -/

/-- A compiled pattern (`pcre *`), as the two library calls the formatter makes on it. -/
structure Pcre where
  /-- The call `pcre_exec(preg, NULL, subject, len, 0, 0, matches, 90)`: the return code and
  the `int` found at each index from the start of `matches` (here `matchv`) afterwards.
  Indexes below 90 are the elements of the array; larger indexes are the memory that
  follows it. -/
  exec : Bytes → Int × (Nat → Int)
  /-- The call `pcre_get_stringtable_entries(preg, name, &first, &last)`: the entry size
  returned and the group numbers (the first two bytes of each entry) from `first` to
  `last`. -/
  stringtable_entries : Bytes → Int × List Nat

/-- The outcomes of the calls into the host and the libraries during one operation. -/
structure Env where
  /-- Value of `time(NULL)` in the retry test of `log_audit`. -/
  time_now : Int
  /-- Value stored by `time(&m_last_retry_sec_ts)` in `set_failed`. -/
  time_failed : Int
  /-- Value of `my_getsystime()`. -/
  systime : Nat
  audit_version : Option Bytes
  glob_hostname : Option Bytes
  server_version : Option Bytes
  my_progname : Option Bytes
  mysqld_unix_port : Option Bytes
  mysqld_port : Nat
  /-- The buffer yajl produced for a sequence of generator calls (`yajl_gen_get_buf`), or
  `none` when the closing `yajl_gen_map_close` did not return `yajl_gen_status_ok`. -/
  yajl_buf : List GenCall → Option Bytes
  /-- Result of `my_fopen`: the stream, or `NULL`. -/
  my_fopen : Option Nat
  /-- Result of `socket`. -/
  socket : Int
  /-- Result of `vio_new`. -/
  vio_new : Nat
  /-- Whether `my_connect` / `vio_socket_connect` returned non-zero. -/
  connect_failed : Bool
  /-- Results of the two `write` calls of `start_msg_format`. -/
  start_write : Int
  start_write_nl : Int
  /-- Results of the two `write` calls of `event_format`. -/
  event_write : Int
  event_write_nl : Int
  /-- Results of `fflush` and `my_sync`. -/
  fflush_res : Int
  my_sync_res : Int
  /-- The call `copy_and_convert` to UTF-8 from the named character set. -/
  copy_and_convert : String → Bytes → Bytes

/-- The calls an operation makes on the sink (`IWriter`), on the handle under it, and on
the formatter. -/
inductive Call where
  | io_open (io_dest : Bytes) (log_errors : Bool)
  | write (data : Bytes)
  | close
  /-- The calls `my_fclose` / `vio_delete` on a held handle. -/
  | release (handle : Nat)
  /-- The call `fflush`, followed by `my_sync` when it succeeded. -/
  | sync
  | start_msg_format
  | stop_msg_format
  | event_format
  deriving DecidableEq, Repr

/-! ## Formatter -/

/-- Source: `Audit_json_formatter` (the yajl `config` is part of `Env.yajl_buf`). -/
structure Audit_json_formatter where
  m_write_start_msg : Bool
  m_msg_delimiter : Option Bytes
  /-- The callback, or `NULL`. -/
  m_perform_password_masking : Option (Option Bytes → Bool)
  m_password_mask_regex_compiled : Bool
  m_password_mask_regex_preg : Option Pcre

/-- The generator calls of `start_msg_format` up to `yajl_gen_map_close`. -/
def start_msg_gen (env : Env) : List GenCall :=
  [GenCall.map_open] ++
  yajl_add_string_val (cstr "msg-type") (some (cstr "header")) ++
  yajl_add_uint64 (cstr "date") (env.systime / 10000) ++
  yajl_add_string_val (cstr "audit-version") env.audit_version ++
  yajl_add_string_val (cstr "audit-protocol-version") (some (cstr "1.0")) ++
  yajl_add_string_val (cstr "hostname") env.glob_hostname ++
  yajl_add_string_val (cstr "mysql-version") env.server_version ++
  yajl_add_string_val (cstr "mysql-program") env.my_progname ++
  yajl_add_string_val (cstr "mysql-socket") env.mysqld_unix_port ++
  yajl_add_uint64 (cstr "mysql-port") env.mysqld_port ++
  [GenCall.map_close]

/-- Source: `Audit_json_formatter::start_msg_format`: the result and the `write` calls made
on the writer. -/
def start_msg_format (fmt : Audit_json_formatter) (env : Env) : Int × List Call :=
  if !fmt.m_write_start_msg then (0, [])
  else
    match env.yajl_buf (start_msg_gen env) with
    | some text =>
      let res := env.start_write
      if res ≥ 0 then (env.start_write_nl, [Call.write text, Call.write (cstr "\n")])
      else (res, [Call.write text])
    | none => (-2, [])

/-- Source: `Audit_formatter::stop_msg_format` (not overridden by the JSON formatter). -/
def stop_msg_format (_fmt : Audit_json_formatter) : Int × List Call := (0, [])

/-- The mask token `"***"`. -/
def pass_replace : Bytes := cstr "***"

/-- The `for` loop of `event_format` over the name-table entries for `"psw"`: the first
group number `n` with `n > 0 && n < 90 && matches[n*2] >= 0`. -/
def first_psw_match (matchv : Nat → Int) : List Nat → Option Nat
  | [] => none
  | n :: rest =>
    if n > 0 ∧ n < 90 ∧ matchv (n * 2) ≥ 0 then some n
    else first_psw_match matchv rest

/-- The password-masking block of `event_format`: the new `query_text` and `query_len`. -/
def mask_query (preg : Pcre) (query_text : Bytes) (query_len : Nat) : Bytes × Nat :=
  let rc := (preg.exec (query_text.take query_len)).1
  let matchv := (preg.exec (query_text.take query_len)).2
  if rc ≥ 0 then
    -- search for the first substring that matches with the name psw
    let entrysize := (preg.stringtable_entries (cstr "psw")).1
    let entries := (preg.stringtable_entries (cstr "psw")).2
    if entrysize > 0 then
      match first_psw_match matchv entries with
      | some n =>
        let updated := replace_in_string query_text query_len
          (to_size_t (matchv (n * 2)))
          (to_size_t (matchv (n * 2 + 1) - matchv (n * 2))) pass_replace
        (updated, strlen updated)
      | none => (query_text, query_len)
    else (query_text, query_len)
  else (query_text, query_len)

/-- The part of `event_format` from `thd_query_str` to the `"query"` field: the text and
length passed to `yajl_add_string_val(gen, "query", ...)`. -/
def event_query (fmt : Audit_json_formatter) (env : Env) (d : ThdSesData) : Bytes × Nat :=
  let cmd := d.m_CmdName
  match d.m_pThd.query with
  | some (b :: bs) =>
    let query := b :: bs
    let qlen := query.length
    let query_text := query
    let query_len := qlen
    -- the converted text is assigned to `query` and `qlen`, which are not read again
    let _query_qlen : Bytes × Nat :=
      if d.m_pThd.csname ≠ "utf8" then
        let to_amount := qlen * 4 + 1
        let to_buf := (env.copy_and_convert d.m_pThd.csname query).take to_amount
        (to_buf, to_buf.length)
      else (query, qlen)
    match fmt.m_perform_password_masking, fmt.m_password_mask_regex_preg with
    | some perform, some preg =>
      if fmt.m_password_mask_regex_compiled && perform cmd then
        mask_query preg query_text query_len
      else (query_text, query_len)
    | _, _ => (query_text, query_len)
  | _ =>
    match cmd with
    | some c => if strlen c ≠ 0 then (c, strlen c) else (cstr "n/a", strlen (cstr "n/a"))
    | none => (cstr "n/a", strlen (cstr "n/a"))

/-- The generator calls of `event_format` up to `yajl_gen_map_close`. -/
def event_gen (fmt : Audit_json_formatter) (env : Env) (d : ThdSesData) : List GenCall :=
  let thd := d.m_pThd
  let head :=
    [GenCall.map_open] ++
    yajl_add_string_val (cstr "msg-type") (some (cstr "activity")) ++
    yajl_add_uint64 (cstr "date") (env.systime / 10000) ++
    yajl_add_uint64 (cstr "thread-id") thd.thread_id ++
    yajl_add_uint64 (cstr "query-id") thd.query_id ++
    yajl_add_string_val (cstr "user") d.m_UserName ++
    yajl_add_string_val (cstr "priv_user") thd.priv_user ++
    yajl_add_string_val (cstr "host") thd.host ++
    yajl_add_string_val (cstr "ip") thd.ip ++
    yajl_add_string_val (cstr "cmd") d.m_CmdName
  -- get objects
  -- (no generator call for the objects when `startGetObjects` is undefined)
  let objects :=
    match startGetObjects d with
    | some (true, d1) =>
      yajl_add_string (cstr "objects") ++ [GenCall.array_open] ++
        drain_objects (objects_left d1 + 1) d1
          { db_name := none, obj_name := none, obj_type := none } ++
        [GenCall.array_close]
    | _ => []
  let q := event_query fmt env d
  head ++ objects ++ yajl_add_string_val_len (cstr "query") q.1 q.2 ++ [GenCall.map_close]

/-- Source: `Audit_json_formatter::event_format`: the result and the `write` calls made on
the writer (`Audit_file_handler::write` and `Audit_socket_handler::write` return what
`my_fwrite` and `vio_write` return, here `Env.event_write` and `Env.event_write_nl`). -/
def event_format (fmt : Audit_json_formatter) (env : Env) (d : ThdSesData) :
    Int × List Call :=
  match env.yajl_buf (event_gen fmt env d) with
  | some text =>
    let res := env.event_write
    if res ≥ 0 then (env.event_write_nl, [Call.write text, Call.write (cstr "\n")])
    else (res, [Call.write text])
  | none => (-2, [])

/-! ## Handler -/

/-- The concrete handler class. -/
inductive HandlerKind where
  | file
  | socket
  deriving DecidableEq, Repr

/-- The fields of `Audit_handler`, `Audit_io_handler`, `Audit_file_handler` and
`Audit_socket_handler`. A handle (`FILE *`, `Vio *`) is `none` when `NULL`. -/
structure Handler where
  kind : HandlerKind
  m_initialized : Bool
  m_enabled : Bool
  m_failed : Bool
  m_log_io_errors : Bool
  m_last_retry_sec_ts : Int
  /-- An `unsigned int`. -/
  m_retry_interval : Nat
  m_print_offset_err : Bool
  m_io_dest : Option Bytes
  m_log_file : Option Nat
  /-- An `unsigned int`. -/
  m_sync_period : Nat
  /-- An `unsigned int`. -/
  m_sync_counter : Nat
  m_bufsize : Int
  m_vio : Option Nat
  m_connect_timeout : Nat
  deriving DecidableEq, Repr

/-- The handle the sink holds: `m_log_file` of a file handler, `m_vio` of a socket
handler. -/
def Handler.handle (h : Handler) : Option Nat :=
  match h.kind with
  | HandlerKind.file => h.m_log_file
  | HandlerKind.socket => h.m_vio

/-- The state after the constructors of a handler class. -/
def Handler.fresh (kind : HandlerKind) (ts : Int) (retry : Nat) : Handler :=
  { kind := kind, m_initialized := false, m_enabled := false, m_failed := false,
    m_log_io_errors := true, m_last_retry_sec_ts := ts, m_retry_interval := retry,
    m_print_offset_err := true, m_io_dest := none, m_log_file := none,
    m_sync_period := 0, m_sync_counter := 0, m_bufsize := 0, m_vio := none,
    m_connect_timeout := 1 }

/-- Source: `Audit_file_handler::close` and `Audit_socket_handler::close`. -/
def close (h : Handler) : Handler × List Call :=
  match h.kind with
  | HandlerKind.file =>
    match h.m_log_file with
    | some f => ({ h with m_log_file := none }, [Call.close, Call.release f])
    | none => ({ h with m_log_file := none }, [Call.close])
  | HandlerKind.socket =>
    match h.m_vio with
    | some v => ({ h with m_vio := none }, [Call.close, Call.release v])
    | none => ({ h with m_vio := none }, [Call.close])

/-- Source: `Audit_file_handler::open` and `Audit_socket_handler::open`. -/
def io_open (env : Env) (h : Handler) (io_dest : Bytes) (log_errors : Bool) :
    Int × Handler × List Call :=
  match h.kind with
  | HandlerKind.file =>
    let h := { h with m_log_file := env.my_fopen }
    match h.m_log_file with
    | none => (-1, h, [Call.io_open io_dest log_errors])
    | some _ => (0, h, [Call.io_open io_dest log_errors])
  | HandlerKind.socket =>
    -- open the socket
    let sock := env.socket
    if sock < 0 then (-1, h, [Call.io_open io_dest log_errors])
    else
      -- connect the socket
      let h := { h with m_vio := some env.vio_new }
      if env.connect_failed then
        let (h1, c) := close h
        (-2, h1, [Call.io_open io_dest log_errors] ++ c)
      else (0, h, [Call.io_open io_dest log_errors])

/-- Source: `Audit_handler::set_failed`. -/
def set_failed (env : Env) (h : Handler) : Handler :=
  { h with m_last_retry_sec_ts := env.time_failed, m_failed := true,
           m_log_io_errors := false }

/-- Source: `Audit_io_handler::handler_start_internal`. -/
def handler_start_internal (fmt : Audit_json_formatter) (env : Env) (h : Handler) :
    Bool × Handler × List Call :=
  match h.m_io_dest with
  | none => (false, h, [])
  | some dest =>
    if strlen dest == 0 then (false, h, [])
    else
      match io_open env h dest h.m_log_io_errors with
      | (r, h1, c1) =>
        if r ≠ 0 then
          -- open failed
          (false, h1, c1)
        else
          match start_msg_format fmt env with
          | (res, c2) =>
            if res < 0 then
              match close h1 with
              | (h2, c3) => (false, h2, c1 ++ [Call.start_msg_format] ++ c2 ++ c3)
            else (true, h1, c1 ++ [Call.start_msg_format] ++ c2)

/-- Source: `Audit_io_handler::handler_stop_internal`. -/
def handler_stop_internal (fmt : Audit_json_formatter) (h : Handler) :
    Handler × List Call :=
  let c1 := if !h.m_failed then [Call.stop_msg_format] ++ (stop_msg_format fmt).2 else []
  match close h with
  | (h1, c2) => (h1, c1 ++ c2)

/-- Source: `Audit_handler::handler_start_nolock`. -/
def handler_start_nolock (fmt : Audit_json_formatter) (env : Env) (h : Handler) :
    Bool × Handler × List Call :=
  match handler_start_internal fmt env h with
  | (res, h1, c) =>
    if res then (res, { h1 with m_failed := false }, c)
    else (res, set_failed env h1, c)

/-- Source: `Audit_handler::handler_start`. -/
def handler_start (fmt : Audit_json_formatter) (env : Env) (h : Handler) :
    Handler × List Call :=
  let h := { h with m_log_io_errors := true }
  match handler_start_nolock fmt env h with
  | (_, h1, c) => (h1, c)

/-- Source: `Audit_handler::handler_stop`. -/
def handler_stop (fmt : Audit_json_formatter) (h : Handler) : Handler × List Call :=
  handler_stop_internal fmt h

/-- The width of `unsigned int`. -/
def UINT_MOD : Nat := 2 ^ 32

/-- Source: `Audit_file_handler::handler_log_audit` and
`Audit_socket_handler::handler_log_audit`. -/
def handler_log_audit (fmt : Audit_json_formatter) (env : Env) (d : ThdSesData)
    (h : Handler) : Bool × Handler × List Call :=
  match event_format fmt env d with
  | (r, c) =>
    let res := decide (r ≥ 0)
    match h.kind with
    | HandlerKind.file =>
      if res && h.m_sync_period != 0 then
        let h := { h with m_sync_counter := (h.m_sync_counter + 1) % UINT_MOD }
        if h.m_sync_counter ≥ h.m_sync_period then
          let h := { h with m_sync_counter := 0 }
          let res := decide (env.fflush_res = 0)
          let res := if res then decide (env.my_sync_res = 0) else res
          (res, h, [Call.event_format] ++ c ++ [Call.sync])
        else (res, h, [Call.event_format] ++ c)
      else (res, h, [Call.event_format] ++ c)
    | HandlerKind.socket => (res, h, [Call.event_format] ++ c)

/-- Source: `Audit_handler::set_enable`. -/
def set_enable (fmt : Audit_json_formatter) (env : Env) (val : Bool) (h : Handler) :
    Handler × List Call :=
  if h.m_enabled == val then
    -- we are already enabled simply return
    (h, [])
  else
    let h := { h with m_enabled := val }
    if h.m_enabled then
      -- call the startup of the handler
      handler_start fmt env h
    else
      -- call the cleanup of the handler
      handler_stop fmt h

/-- Source: `Audit_handler::flush`. -/
def flush (fmt : Audit_json_formatter) (env : Env) (h : Handler) : Handler × List Call :=
  if !h.m_enabled then
    -- if not running we don't flush
    (h, [])
  else
    -- call the cleanup of the handler
    match handler_stop fmt h with
    | (h1, c1) =>
      -- call the startup of the handler
      match handler_start fmt env h1 with
      | (h2, c2) => (h2, c1 ++ c2)

/-- The `do_log` block of `log_audit`, from `bool do_log = true` to the test of `do_log`:
whether to write, and the state and calls of the reopen when one is made. Times are whole
seconds, on which `difftime` is the exact difference. -/
def log_audit_do_log (fmt : Audit_json_formatter) (env : Env) (h : Handler) :
    Bool × Handler × List Call :=
  -- check if failed
  if h.m_failed then
    let retry := decide (h.m_retry_interval > 0) &&
      decide (env.time_now - h.m_last_retry_sec_ts > (h.m_retry_interval : Int))
    if retry then handler_start_nolock fmt env h
    else (false, h, [])
  else (true, h, [])

/-- The `if(do_log)` block of `log_audit`: the write of the event and, when it fails,
`set_failed` and `handler_stop_internal`. -/
def log_audit_write (fmt : Audit_json_formatter) (env : Env) (d : ThdSesData)
    (h : Handler) : Handler × List Call :=
  match handler_log_audit fmt env d h with
  | (ok, h2, c2) =>
    if !ok then
      match handler_stop_internal fmt (set_failed env h2) with
      | (h3, c3) => (h3, c2 ++ c3)
    else (h2, c2)

/-- Source: `Audit_handler::log_audit`. -/
def log_audit (fmt : Audit_json_formatter) (env : Env) (d : ThdSesData) (h : Handler) :
    Handler × List Call :=
  if !h.m_enabled then (h, [])
  else
    let inst_thread_id := d.m_pThd.inst_thread_id
    let plug_thread_id := d.m_pThd.thread_id
    if inst_thread_id ≠ plug_thread_id then
      if h.m_print_offset_err then ({ h with m_print_offset_err := false }, [])
      else (h, [])
    else
      -- offsets are good
      let h := { h with m_print_offset_err := true }
      match log_audit_do_log fmt env h with
      | (do_log, h1, c1) =>
        if do_log then
          match log_audit_write fmt env d h1 with
          | (h2, c2) => (h2, c1 ++ c2)
        else (h1, c1)

/-! ## Reachable handler states and trace measures -/

/-- The handler states that arise from a constructed handler through `init`, the public
operations, and assignments to the public tunables (`m_io_dest`, `m_retry_interval`,
`m_sync_period`, `m_bufsize`, `m_connect_timeout`). -/
inductive Reachable : Handler → Prop where
  | fresh (kind : HandlerKind) (ts : Int) (retry : Nat) :
      Reachable (Handler.fresh kind ts retry)
  | init (h : Handler) : Reachable h → Reachable { h with m_initialized := true }
  | config (h : Handler) (dest : Option Bytes) (retry period : Nat) (bufsize : Int)
      (timeout : Nat) : Reachable h →
      Reachable { h with m_io_dest := dest, m_retry_interval := retry,
                         m_sync_period := period, m_bufsize := bufsize,
                         m_connect_timeout := timeout }
  | set_enable (fmt : Audit_json_formatter) (env : Env) (val : Bool) (h : Handler) :
      Reachable h → Reachable (set_enable fmt env val h).1
  | flush (fmt : Audit_json_formatter) (env : Env) (h : Handler) :
      Reachable h → Reachable (flush fmt env h).1
  | log_audit (fmt : Audit_json_formatter) (env : Env) (d : ThdSesData) (h : Handler) :
      Reachable h → Reachable (log_audit fmt env d h).1

/-- Whether a call is the sink's `open`. -/
def Call.is_open : Call → Bool
  | Call.io_open _ _ => true
  | _ => false

/-- Whether a call is the sink's `write`. -/
def Call.is_write : Call → Bool
  | Call.write _ => true
  | _ => false

/-- Whether a call is the sink's `close`. -/
def Call.is_close : Call → Bool
  | Call.close => true
  | _ => false

/-- The number of calls in a trace that satisfy a test. -/
def count_calls (p : Call → Bool) (calls : List Call) : Nat := (calls.filter p).length

/-! ## Example inputs -/

/-- A formatter as constructed: start message on, no masking. -/
def fmt0 : Audit_json_formatter :=
  { m_write_start_msg := true, m_msg_delimiter := none, m_perform_password_masking := none,
    m_password_mask_regex_compiled := false, m_password_mask_regex_preg := none }

/-- An environment in which every external call succeeds; the clock reads 110 and yajl
renders every record as an empty map. -/
def env0 : Env :=
  { time_now := 110, time_failed := 110, systime := 0, audit_version := none,
    glob_hostname := none, server_version := none, my_progname := none,
    mysqld_unix_port := none, mysqld_port := 3306,
    yajl_buf := fun _ => some (cstr "\x7b\x7d"),
    my_fopen := some 7, socket := 5, vio_new := 9, connect_failed := false,
    start_write := 2, start_write_nl := 1, event_write := 2, event_write_nl := 1,
    fflush_res := 0, my_sync_res := 0,
    copy_and_convert := fun _ b => b }

/-- A session whose thread ids agree, with the query `select 1`. -/
def thd0 : THD :=
  { thread_id := 1, inst_thread_id := 1, query_id := 1, priv_user := none, host := none,
    ip := none, command := COM_QUERY, lex := none, query_cache := none, db := none,
    query := some (cstr "select 1"), csname := "utf8" }

/-- The session data of `thd0` as constructed. -/
def ses0 : ThdSesData :=
  { m_pThd := thd0, m_CmdName := some (cstr "select"), m_UserName := some (cstr "root"),
    m_isSqlCmd := true, m_objIterType := ObjectIterType.OBJ_NONE, m_tables := [],
    m_firstTable := true, m_tableInf := none, m_index := 0 }

/-- A constructed file handler with destination `a` and retry interval 10. -/
def file0 : Handler :=
  { Handler.fresh HandlerKind.file 0 10 with m_io_dest := some (cstr "a") }

/-- The handler `file0`, enabled, after a write failure at time 100. -/
def failed0 : Handler :=
  { file0 with m_enabled := true, m_failed := true, m_log_io_errors := false,
               m_last_retry_sec_ts := 100 }

/-- An example `copy_and_convert` from latin1: a byte below 128 is kept, a byte `b` from 128
on becomes the two bytes `0xC0 | (b >> 6)`, `0x80 | (b & 0x3F)`. -/
def latin1_to_utf8 : Bytes → Bytes
  | [] => []
  | b :: rest =>
    if b < 128 then b :: latin1_to_utf8 rest
    else (192 + b / 64) :: (128 + b % 64) :: latin1_to_utf8 rest

/-- The environment `env0` with `copy_and_convert` converting from latin1. -/
def env_latin1 : Env :=
  { env0 with copy_and_convert := fun cs b => if cs = "latin1" then latin1_to_utf8 b else b }

/-- The query `select 'é'` in latin1 (`é` is the byte 233). -/
def query_latin1 : Bytes := cstr "select '" ++ [233] ++ cstr "'"

/-- A session on a latin1 connection with the query `query_latin1`. -/
def ses_latin1 : ThdSesData :=
  { ses0 with m_pThd := { thd0 with csname := "latin1", query := some query_latin1 } }

/-- The query `x='\0',p='pw'`: twelve bytes, the fourth of them NUL; `pw` is `[9, 11)`. -/
def query_nul : Bytes := cstr "x='" ++ [0] ++ cstr "',p='pw'"

/-- A session with the query `query_nul`. -/
def ses_nul : ThdSesData :=
  { ses0 with m_pThd := { thd0 with query := some query_nul } }

/-- A compiled pattern such as `p='(?<psw>[^']*)'`, whose group 1 is named `psw`; on every
subject `pcre_exec` reports the whole match as `[6, 12)` and group 1 as `[9, 11)`. -/
def preg_psw : Pcre :=
  { exec := fun _ => (2, fun i =>
      if i = 0 then 6 else if i = 1 then 12 else if i = 2 then 9 else if i = 3 then 11
      else 0),
    stringtable_entries := fun _ => (6, [1]) }

/-- A formatter that masks every command with the pattern `preg_psw`. -/
def fmt_mask : Audit_json_formatter :=
  { m_write_start_msg := true, m_msg_delimiter := none,
    m_perform_password_masking := some (fun _ => true),
    m_password_mask_regex_compiled := true, m_password_mask_regex_preg := some preg_psw }

/-! ## Pattern compilation -/

/-- Source: `Audit_json_formatter::regex_compile`; `pcre_compile` is the library call, which
returns the compiled pattern or `NULL`. -/
def regex_compile (pcre_compile : Bytes → Option Pcre) (str : Bytes) : Option Pcre :=
  pcre_compile str

/-- Source: `Audit_json_formatter::compile_password_masking_regex`: the result and the
formatter afterwards. `pcre_free` leaves the pointer `m_password_mask_regex_preg` as it
was. -/
def compile_password_masking_regex (pcre_compile : Bytes → Option Pcre)
    (fmt : Audit_json_formatter) (str : Option Bytes) : Int × Audit_json_formatter :=
  -- first free existing
  let fmt :=
    if fmt.m_password_mask_regex_compiled then
      { fmt with m_password_mask_regex_compiled := false }
    else fmt
  -- default is error (case of empty string)
  match str with
  | some s =>
    if strlen s ≠ 0 then
      let fmt := { fmt with m_password_mask_regex_preg := regex_compile pcre_compile s }
      match fmt.m_password_mask_regex_preg with
      | some _ => (0, { fmt with m_password_mask_regex_compiled := true })
      | none => (1, fmt)
    else (1, fmt)
  | none => (1, fmt)

/-! ## Further trace measures and example inputs -/

/-- Whether a call releases a handle (`my_fclose`, `vio_delete`). -/
def Call.is_release : Call → Bool
  | Call.release _ => true
  | _ => false

/-- The number of bytes handed to the sink's `write` by a list of calls. -/
def bytes_written : List Call → Nat
  | [] => 0
  | Call.write data :: rest => data.length + bytes_written rest
  | _ :: rest => bytes_written rest

/-- A session of the command `Quit`, which has no query text. -/
def ses_quit : ThdSesData :=
  { ses0 with m_pThd := { thd0 with query := none, command := 1 },
              m_CmdName := some (cstr "Quit") }

/-- The formatter `fmt0` with the message delimiter `;`. -/
def fmt_delim : Audit_json_formatter := { fmt0 with m_msg_delimiter := some (cstr ";") }

/-- An example `pcre_compile`: every pattern compiles to `preg_psw`, except the pattern `(`,
which does not compile. -/
def pcre_compile0 : Bytes → Option Pcre :=
  fun s => if s = cstr "(" then none else some preg_psw

/-! ## Runs of `handler_log_audit` -/

/-- The inputs of one `handler_log_audit` call: the formatter, the outcomes of the external
calls, and the session. -/
structure LogInput where
  fmt : Audit_json_formatter
  env : Env
  ses : ThdSesData

/-- Whether the event write of a call succeeds (`event_format` result `>= 0`). -/
def LogInput.event_ok (x : LogInput) : Bool :=
  decide ((event_format x.fmt x.env x.ses).1 ≥ 0)

/-- The handler after successive `handler_log_audit` calls, one per input. -/
def log_many : List LogInput → Handler → Handler
  | [], h => h
  | x :: xs, h => log_many xs (handler_log_audit x.fmt x.env x.ses h).2.1

/-- The number of inputs whose event write succeeds. -/
def successful_writes (ins : List LogInput) : Nat := (ins.filter LogInput.event_ok).length

/-- The inputs of a call in which everything succeeds. -/
def input0 : LogInput := { fmt := fmt0, env := env0, ses := ses0 }

/-- The file handler `file0`, enabled, with its file open (sync period 0). -/
def file_open0 : Handler := { file0 with m_enabled := true, m_log_file := some 7 }

/-- The handler `file_open0` with sync period 3. -/
def file_sync3 : Handler := { file_open0 with m_sync_period := 3 }

/-! ## Object iteration: successive calls and the sources as the specification names them -/

/-- The results of `n` successive `getNextObject` calls: for each call the tuple it yielded,
or `none` when it returned false. There is no list of results (`none`) when the behaviour
of one of the calls is undefined. -/
def next_calls : Nat → ThdSesData → ObjOut → Option (List (Option ObjOut))
  | 0, _, _ => some []
  | n + 1, d, out =>
    match getNextObject d out with
    | some (true, out1, d1) => (next_calls n d1 out1).map (fun l => some out1 :: l)
    | some (false, out1, d1) => (next_calls n d1 out1).map (fun l => none :: l)
    | none => none

/-- The session data and the out-parameters after `n` successive `getNextObject` calls. -/
def after_calls : Nat → ThdSesData → ObjOut → Option (ThdSesData × ObjOut)
  | 0, d, out => some (d, out)
  | n + 1, d, out =>
    match getNextObject d out with
    | some (_, out1, d1) => after_calls n d1 out1
    | none => none

/-- The tuples the `while (getNextObject(...))` loop of `event_format` sees, with at most
`fuel` turns. -/
def yield_objects : Nat → ThdSesData → ObjOut → Option (List ObjOut)
  | 0, _, _ => some []
  | fuel + 1, d, out =>
    match getNextObject d out with
    | some (true, out1, d1) => (yield_objects fuel d1 out1).map (fun l => out1 :: l)
    | some (false, _, _) => some []
    | none => none

/-- The three out-parameters as `event_format` initialises them, to `NULL`. -/
def out_null : ObjOut := { db_name := none, obj_name := none, obj_type := none }

/-- A call of `startGetObjects` followed by `n` calls of `getNextObject`, as in
`event_format`: what the first call returned and the results of the others. -/
def start_then_next (n : Nat) (d : ThdSesData) : Option (Bool × List (Option ObjOut)) :=
  match startGetObjects d with
  | some (b, d1) => (next_calls n d1 out_null).map (fun l => (b, l))
  | none => none

/-- The source chosen by a call of `startGetObjects` (the value of `m_objIterType` after
it). -/
def start_source (d : ThdSesData) : Option ObjectIterType :=
  (startGetObjects d).map (fun r => r.2.m_objIterType)

/-- The session data after a call of `startGetObjects` and `n` calls of `getNextObject`. -/
def start_then_after (n : Nat) (d : ThdSesData) : Option ThdSesData :=
  match startGetObjects d with
  | some (_, d1) => (after_calls n d1 out_null).map (fun a => a.1)
  | none => none

/-- Specification: whether the query-cache hit list of the snapshot is non-empty. -/
def has_query_cache_hits (thd : THD) : Bool :=
  match thd.query_cache with
  | some inf => decide (0 < inf.num_of_elem)
  | none => false

/-- Specification: whether the command named `cmd` is one of `Init DB`, `SHOW TABLES`,
`SHOW TABLE`. -/
def is_db_command (cmd : Bytes) : Bool :=
  cmd == cstr "Init DB" || cmd == cstr "SHOW TABLES" || cmd == cstr "SHOW TABLE"

/-- Specification: the entry `i` of the query-cache hit list as a tuple. -/
def query_cache_object (inf : QueryTableInf) (i : Nat) : ObjOut :=
  { db_name := inf.db i, obj_name := inf.table_name i, obj_type := inf.object_type i }

/-- Specification: the query-cache entries `0..n-1`, up to the 100-entry cap. -/
def query_cache_objects (inf : QueryTableInf) : List ObjOut :=
  (List.range (min inf.num_of_elem MAX_NUM_QUERY_TABLE_ELEM).toNat).map
    (query_cache_object inf)

/-- Specification: the tuple of the node at position `i` of the table list, for the command
named `cmd`: a `VIEW` when the node has the structural marker, or when it is the first node
and the command name contains `_view`; a `TABLE` otherwise. -/
def table_object (cmd : Bytes) (i : Nat) (t : TABLE_LIST) : ObjOut :=
  { db_name := t.db, obj_name := t.table_name,
    obj_type := some (if (i == 0 && decide (List.IsInfix (cstr "_view") cmd)) ||
                          t.view_tables then cstr "VIEW"
                      else cstr "TABLE") }

/-- Specification: the tuples of the nodes of a table list, from position `i` on. -/
def table_list_objects (cmd : Bytes) : Nat → List TABLE_LIST → List ObjOut
  | _, [] => []
  | i, t :: rest => table_object cmd i t :: table_list_objects cmd (i + 1) rest

/-- Specification: the tuples of a source of the snapshot whose command is named `cmd`, in
source order: the query-cache entries, the single `(db, no name, "DATABASE")` tuple of the
current database (nothing when there is no current database), or the nodes of the parsed
table list. -/
def objects_of (src : ObjectIterType) (cmd : Bytes) (d : ThdSesData) : List ObjOut :=
  match src with
  | ObjectIterType.OBJ_QUERY_CACHE =>
    (match d.m_pThd.query_cache with
      | some inf => query_cache_objects inf
      | none => [])
  | ObjectIterType.OBJ_DB =>
    (match d.m_pThd.db with
      | some db => [{ db_name := some db, obj_name := none,
                      obj_type := some (cstr "DATABASE") }]
      | none => [])
  | ObjectIterType.OBJ_TABLE_LIST =>
    (match d.m_pThd.lex with
      | some ts => table_list_objects cmd 0 ts
      | none => [])
  | ObjectIterType.OBJ_NONE => []

/-- Specification, in the words of the claims: the source by strict precedence: the
query-cache hit list when the command is the generic query command and that list is
non-empty; otherwise the current-database object for the commands `Init DB`,
`SHOW TABLES` and `SHOW TABLE`; otherwise the parsed table list of the statement. -/
def claimed_source (cmd : Bytes) (d : ThdSesData) : ObjectIterType :=
  if d.m_pThd.command == COM_QUERY && has_query_cache_hits d.m_pThd then
    ObjectIterType.OBJ_QUERY_CACHE
  else if is_db_command cmd then ObjectIterType.OBJ_DB
  else ObjectIterType.OBJ_TABLE_LIST

/-- Specification, in the words of the claims: the tuples of the claimed source. -/
def claimed_objects (cmd : Bytes) (d : ThdSesData) : List ObjOut :=
  objects_of (claimed_source cmd d) cmd d

/-- Specification, amended: a generic query snapshot is one whose statement (`LEX`) is
present and whose command is `COM_QUERY`. -/
def is_generic_query (thd : THD) : Bool := thd.lex.isSome && thd.command == COM_QUERY

/-- Specification, amended: the source by strict precedence for a snapshot whose command is
named `cmd`: the query-cache hit list for a generic query with a non-empty list; otherwise,
for the commands `Init DB`, `SHOW TABLES` and `SHOW TABLE`, the current database, and no
source when there is no current database; otherwise the parsed table list when the
snapshot is a generic query and the list is non-empty; otherwise no source. -/
def selected_source (cmd : Bytes) (d : ThdSesData) : ObjectIterType :=
  if is_generic_query d.m_pThd && has_query_cache_hits d.m_pThd then
    ObjectIterType.OBJ_QUERY_CACHE
  else if is_db_command cmd then
    (if d.m_pThd.db.isSome then ObjectIterType.OBJ_DB else ObjectIterType.OBJ_NONE)
  else if is_generic_query d.m_pThd &&
      (match d.m_pThd.lex with
        | some (_ :: _) => true
        | _ => false) then
    ObjectIterType.OBJ_TABLE_LIST
  else ObjectIterType.OBJ_NONE

/-- Specification, amended: the tuples of the selected source, in source order. -/
def source_objects (cmd : Bytes) (d : ThdSesData) : List ObjOut :=
  objects_of (selected_source cmd d) cmd d

/-- The results the specification gives for `n` successive calls: the tuples of a list one
per call, then `none` on every later call. -/
def expected_calls (objs : List ObjOut) (n : Nat) : List (Option ObjOut) :=
  (objs.map some).take n ++ List.replicate (n - objs.length) none

/-- A query-cache hit list of two entries, `db1.t1` and `db1.t2`. -/
def cache2 : QueryTableInf :=
  { num_of_elem := 2,
    db := fun _ => some (cstr "db1"),
    table_name := fun i => if i = 0 then some (cstr "t1") else some (cstr "t2"),
    object_type := fun _ => some (cstr "TABLE") }

/-- A generic query session with the query-cache hit list `cache2` and a parsed table list
of one node, `db9.t9`. -/
def ses_cache : ThdSesData :=
  { ses0 with m_pThd := { thd0 with
      lex := some [{ db := some (cstr "db9"), table_name := some (cstr "t9"),
                     view_tables := false }],
      query_cache := some cache2 } }

/-- A session of the command `Init DB` with the current database `test`. -/
def ses_db : ThdSesData :=
  { ses0 with m_pThd := { thd0 with command := 2, db := some (cstr "test"), query := none },
              m_CmdName := some (cstr "Init DB") }

/-- The command `COM_FIELD_LIST`. -/
def COM_FIELD_LIST : Int := 4

/-- The command `COM_STMT_PREPARE`. -/
def COM_STMT_PREPARE : Int := 22

/-- A session of the command `Field List` (`COM_FIELD_LIST`) whose statement has a parsed
table list of one node, `db9.t9`. -/
def ses_field_list : ThdSesData :=
  { ses0 with m_pThd := { thd0 with
      command := COM_FIELD_LIST, query := none,
      lex := some [{ db := some (cstr "db9"), table_name := some (cstr "t9"),
                     view_tables := false }] },
              m_CmdName := some (cstr "Field List") }

/-- A session of the command `Prepare` (`COM_STMT_PREPARE`) whose statement has a parsed
table list of two nodes, `db1.t1` and `db1.t2`. -/
def ses_prepare : ThdSesData :=
  { ses0 with m_pThd := { thd0 with
      command := COM_STMT_PREPARE,
      lex := some [{ db := some (cstr "db1"), table_name := some (cstr "t1"),
                     view_tables := false },
                   { db := some (cstr "db1"), table_name := some (cstr "t2"),
                     view_tables := false }] },
              m_CmdName := some (cstr "Prepare") }

/-- The session `ses_db` with a `NULL` command name. -/
def ses_no_name : ThdSesData := { ses_db with m_CmdName := none }

/-! ## Locks -/

/-- The lock calls of `Audit_handler`: `rw_rdlock`, `rw_wrlock` and `rw_unlock` on the
reader-writer lock `LOCK_audit` (`lock_shared`, `lock_exclusive`, `unlock`), and
`pthread_mutex_lock`, `pthread_mutex_unlock` on the mutex `LOCK_io`. -/
inductive LockCall where
  | rw_rdlock
  | rw_wrlock
  | rw_unlock
  | mutex_lock
  | mutex_unlock
  deriving DecidableEq, Repr

/-- One step of an operation: a lock call, or a call on the sink or the formatter. -/
inductive Step where
  | lock (l : LockCall)
  | call (c : Call)
  deriving DecidableEq, Repr

/-- Source: `Audit_handler::handler_start`, as its steps in order. -/
def handler_start_steps (fmt : Audit_json_formatter) (env : Env) (h : Handler) :
    List Step :=
  [Step.lock LockCall.mutex_lock] ++ (handler_start fmt env h).2.map Step.call ++
    [Step.lock LockCall.mutex_unlock]

/-- Source: `Audit_handler::handler_stop`, as its steps in order. -/
def handler_stop_steps (fmt : Audit_json_formatter) (h : Handler) : List Step :=
  [Step.lock LockCall.mutex_lock] ++ (handler_stop fmt h).2.map Step.call ++
    [Step.lock LockCall.mutex_unlock]

/-- Source: `Audit_handler::set_enable`, as its steps in order. -/
def set_enable_steps (fmt : Audit_json_formatter) (env : Env) (val : Bool) (h : Handler) :
    List Step :=
  [Step.lock LockCall.rw_wrlock] ++
  (if h.m_enabled == val then
    -- we are already enabled simply return
    [Step.lock LockCall.rw_unlock]
  else
    let h := { h with m_enabled := val }
    (if h.m_enabled then handler_start_steps fmt env h else handler_stop_steps fmt h) ++
      [Step.lock LockCall.rw_unlock])

/-- Source: `Audit_handler::flush`, as its steps in order. -/
def flush_steps (fmt : Audit_json_formatter) (env : Env) (h : Handler) : List Step :=
  [Step.lock LockCall.rw_wrlock] ++
  (if !h.m_enabled then
    -- if not running we don't flush
    [Step.lock LockCall.rw_unlock]
  else
    handler_stop_steps fmt h ++ handler_start_steps fmt env (handler_stop fmt h).1 ++
      [Step.lock LockCall.rw_unlock])

/-- Source: `Audit_handler::log_audit`, as its steps in order: every call on the sink and
the formatter is made between `pthread_mutex_lock` and `pthread_mutex_unlock`. -/
def log_audit_steps (fmt : Audit_json_formatter) (env : Env) (d : ThdSesData)
    (h : Handler) : List Step :=
  [Step.lock LockCall.rw_rdlock] ++
  (if !h.m_enabled then [Step.lock LockCall.rw_unlock]
  else if d.m_pThd.inst_thread_id ≠ d.m_pThd.thread_id then [Step.lock LockCall.rw_unlock]
  else
    -- offsets are good
    [Step.lock LockCall.mutex_lock] ++ (log_audit fmt env d h).2.map Step.call ++
      [Step.lock LockCall.mutex_unlock, Step.lock LockCall.rw_unlock])

/-- The calls on the sink and the formatter among the steps. -/
def steps_calls : List Step → List Call
  | [] => []
  | Step.call c :: rest => c :: steps_calls rest
  | Step.lock _ :: rest => steps_calls rest

/-- Which of the two locks the running operation holds. -/
structure LockState where
  rw_held : Bool
  io_held : Bool
  deriving DecidableEq, Repr

/-- The lock discipline, one step at a time: the reader-writer lock is acquired only when
the operation holds neither lock; the IO mutex is acquired only while the reader-writer
lock is held; the IO mutex is released only when held; the reader-writer lock is released
only when held and the IO mutex is not (the IO mutex goes first). A step that breaks the
discipline has no successor state. -/
def lock_step (s : LockState) : Step → Option LockState
  | Step.lock LockCall.rw_rdlock =>
    if !s.rw_held && !s.io_held then some { s with rw_held := true } else none
  | Step.lock LockCall.rw_wrlock =>
    if !s.rw_held && !s.io_held then some { s with rw_held := true } else none
  | Step.lock LockCall.rw_unlock =>
    if s.rw_held && !s.io_held then some { s with rw_held := false } else none
  | Step.lock LockCall.mutex_lock =>
    if s.rw_held && !s.io_held then some { s with io_held := true } else none
  | Step.lock LockCall.mutex_unlock =>
    if s.io_held then some { s with io_held := false } else none
  | Step.call _ => some s

/-- The lock state after a list of steps, or `none` when a step breaks the discipline. -/
def lock_run : LockState → List Step → Option LockState
  | s, [] => some s
  | s, x :: rest =>
    match lock_step s x with
    | some s1 => lock_run s1 rest
    | none => none

/-- An operation keeps the lock discipline when, started holding no lock, every step is
allowed and it ends holding no lock. -/
def keeps_lock_discipline (steps : List Step) : Bool :=
  lock_run { rw_held := false, io_held := false } steps
    == some { rw_held := false, io_held := false }

/-- Whether every call on the sink or the formatter is made while the IO mutex is held. -/
def calls_under_mutex : LockState → List Step → Bool
  | _, [] => true
  | s, Step.call c :: rest =>
    s.io_held && (match lock_step s (Step.call c) with
      | some s1 => calls_under_mutex s1 rest
      | none => false)
  | s, Step.lock l :: rest =>
    match lock_step s (Step.lock l) with
    | some s1 => calls_under_mutex s1 rest
    | none => false

/-! ## Sequences of operations -/

/-- One call of a public operation with its inputs, an assignment to the public tunables
between two calls, or `init`. -/
inductive Op where
  | set_enable (fmt : Audit_json_formatter) (env : Env) (val : Bool)
  | flush (fmt : Audit_json_formatter) (env : Env)
  | log_audit (fmt : Audit_json_formatter) (env : Env) (d : ThdSesData)
  | config (dest : Option Bytes) (retry period : Nat) (bufsize : Int) (timeout : Nat)
  | init

/-- The handler after one operation. -/
def Op.apply : Op → Handler → Handler
  | Op.set_enable fmt env val, h => (MysqlAudit.set_enable fmt env val h).1
  | Op.flush fmt env, h => (MysqlAudit.flush fmt env h).1
  | Op.log_audit fmt env d, h => (MysqlAudit.log_audit fmt env d h).1
  | Op.config dest retry period bufsize timeout, h =>
    { h with m_io_dest := dest, m_retry_interval := retry, m_sync_period := period,
             m_bufsize := bufsize, m_connect_timeout := timeout }
  | Op.init, h => { h with m_initialized := true }

/-- The handler after a sequence of operations, each completed before the next. -/
def run_ops : List Op → Handler → Handler
  | [], h => h
  | op :: rest, h => run_ops rest (op.apply h)

/-! ## The match vector of the redaction loop -/

/-- The element count of `int matches[90]` (`array_elements(matches)`). -/
def matches_elements : Nat := 90

/-- The indexes of `matches` that `event_format` reads for the group number `n`:
`matches[n*2]` in the guard of the loop and in the call of `replace_in_string`, and
`matches[(n*2) + 1]` in that call. -/
def psw_reads (n : Nat) : List Nat := [n * 2, n * 2 + 1]

/-- The indexes of `matches` read by the guard `n > 0 && n < 90 && matches[n*2] >= 0` over
the name-table entries, in order: `&&` reads `matches[n*2]` only once `n > 0 && n < 90`
holds, and the loop ends at the first entry that passes the guard. -/
def first_psw_match_reads (matchv : Nat → Int) : List Nat → List Nat
  | [] => []
  | n :: rest =>
    if n > 0 ∧ n < 90 then
      if matchv (n * 2) ≥ 0 then [n * 2]
      else n * 2 :: first_psw_match_reads matchv rest
    else first_psw_match_reads matchv rest

/-- The indexes of `matches` read by the password-masking block of `event_format` after
`pcre_exec`: those of the guard, then those of the call of `replace_in_string`. -/
def mask_query_reads (preg : Pcre) (query_text : Bytes) (query_len : Nat) : List Nat :=
  let rc := (preg.exec (query_text.take query_len)).1
  let matchv := (preg.exec (query_text.take query_len)).2
  if rc ≥ 0 then
    let entrysize := (preg.stringtable_entries (cstr "psw")).1
    let entries := (preg.stringtable_entries (cstr "psw")).2
    if entrysize > 0 then
      first_psw_match_reads matchv entries ++
        (match first_psw_match matchv entries with
        | some n => psw_reads n
        | none => [])
    else []
  else []

/-- A compiled pattern with 45 capture groups of which the last is named `psw`;
`pcre_exec` returns 0 (the vector is too small for all groups), reports the whole match as
`[0, 8)`, and the two `int`s that follow the array in memory are 3 and 5. -/
def preg45 : Pcre :=
  { exec := fun _ => (0, fun i =>
      if i = 0 then 0 else if i = 1 then 8 else if i = 90 then 3 else if i = 91 then 5
      else -1),
    stringtable_entries := fun _ => (6, [45]) }

/-- A formatter that masks every command with the pattern `preg45`. -/
def fmt45 : Audit_json_formatter := { fmt_mask with m_password_mask_regex_preg := some preg45 }

/-! ## The success test of a write -/

/-- The test `m_sync_period && ++m_sync_counter >= m_sync_period` of
`Audit_file_handler::handler_log_audit`: whether the write of this event is followed by
`fflush` and `my_sync`. `Audit_socket_handler::handler_log_audit` has no such step. -/
def sync_due (h : Handler) : Bool :=
  h.kind == HandlerKind.file && h.m_sync_period != 0 &&
    decide ((h.m_sync_counter + 1) % UINT_MOD ≥ h.m_sync_period)

/-- Specification: a write succeeds when `event_format` returns a non-negative value and,
when a sync is due at this write, `fflush` and `my_sync` both return 0. -/
def write_succeeds (fmt : Audit_json_formatter) (env : Env) (d : ThdSesData)
    (h : Handler) : Bool :=
  decide ((event_format fmt env d).1 ≥ 0) &&
    (!sync_due h || (decide (env.fflush_res = 0) && decide (env.my_sync_res = 0)))

/-- The environment `env0` in which `fflush` fails. -/
def env_fflush_fails : Env := { env0 with fflush_res := -1 }

/-- A file handler constructed, configured with destination `a` and sync period 1, and
enabled with every call succeeding. -/
def file_open_sync1 : Handler :=
  run_ops [Op.config (some (cstr "a")) 10 1 0 1, Op.set_enable fmt0 env0 true]
    (Handler.fresh HandlerKind.file 0 10)

/-- Whether a start attempt on `h` succeeds: a non-empty destination is configured, the
sink's `open` returns 0 and `start_msg_format` does not return a negative value. -/
def start_ok (fmt : Audit_json_formatter) (env : Env) (h : Handler) : Prop :=
  ∃ dest, h.m_io_dest = some dest ∧ strlen dest ≠ 0 ∧
    (io_open env h dest h.m_log_io_errors).1 = 0 ∧ (start_msg_format fmt env).1 ≥ 0

/-- The sink holds a handle exactly when the handler is enabled and not failed. -/
def Inv (h : Handler) : Prop := h.handle.isSome = (h.m_enabled && !h.m_failed)

/-! ## Lemmas on the sink and on the start and stop steps -/

theorem count_calls_append (p : Call → Bool) (a b : List Call) :
    count_calls p (a ++ b) = count_calls p a + count_calls p b := by
  simp [count_calls]

theorem count_calls_nil (p : Call → Bool) : count_calls p [] = 0 := rfl

theorem count_calls_cons (p : Call → Bool) (c : Call) (l : List Call) :
    count_calls p (c :: l) = (if p c then 1 else 0) + count_calls p l := by
  unfold count_calls
  by_cases hp : p c = true
  · simp [List.filter_cons, hp]
    omega
  · simp [List.filter_cons, hp]

theorem close_handle (h : Handler) : (close h).1.handle = none := by
  rcases h with ⟨k, _, _, _, _, _, _, _, _, lf, _, _, _, v, _⟩
  cases k <;> cases lf <;> cases v <;> simp [close, Handler.handle]

theorem close_frame (h : Handler) :
    (close h).1.kind = h.kind ∧ (close h).1.m_enabled = h.m_enabled ∧
    (close h).1.m_failed = h.m_failed ∧
    (close h).1.m_last_retry_sec_ts = h.m_last_retry_sec_ts := by
  rcases h with ⟨k, _, _, _, _, _, _, _, _, lf, _, _, _, v, _⟩
  cases k <;> cases lf <;> cases v <;> simp [close]

theorem close_calls (h : Handler) :
    count_calls Call.is_close (close h).2 = 1 ∧
    count_calls Call.is_open (close h).2 = 0 ∧
    count_calls Call.is_write (close h).2 = 0 ∧
    count_calls (fun c => c == Call.start_msg_format) (close h).2 = 0 ∧
    count_calls (fun c => c == Call.stop_msg_format) (close h).2 = 0 := by
  rcases h with ⟨k, _, _, _, _, _, _, _, _, lf, _, _, _, v, _⟩
  cases k <;> cases lf <;> cases v <;>
    simp [close, count_calls, Call.is_close, Call.is_open, Call.is_write]

theorem io_open_spec (env : Env) (h : Handler) (dest : Bytes) (le : Bool) :
    ((io_open env h dest le).1 = 0 → (io_open env h dest le).2.1.handle.isSome = true) ∧
    ((io_open env h dest le).1 ≠ 0 → h.handle = none →
      (io_open env h dest le).2.1.handle = none) ∧
    (io_open env h dest le).2.1.kind = h.kind ∧
    (io_open env h dest le).2.1.m_enabled = h.m_enabled ∧
    (io_open env h dest le).2.1.m_failed = h.m_failed ∧
    (io_open env h dest le).2.1.m_last_retry_sec_ts = h.m_last_retry_sec_ts := by
  rcases h with ⟨k, _, _, _, _, _, _, _, _, lf, _, _, _, v, _⟩
  cases k
  · cases hf : env.my_fopen <;> simp [io_open, Handler.handle, hf]
  · by_cases hs : env.socket < 0
    · simp [io_open, Handler.handle, hs]
    · cases hc : env.connect_failed <;> simp [io_open, Handler.handle, hs, hc, close]

theorem io_open_calls (env : Env) (h : Handler) (dest : Bytes) (le : Bool) :
    count_calls Call.is_open (io_open env h dest le).2.2 = 1 ∧
    count_calls Call.is_write (io_open env h dest le).2.2 = 0 ∧
    count_calls (fun c => c == Call.start_msg_format) (io_open env h dest le).2.2 = 0 := by
  rcases h with ⟨k, _, _, _, _, _, _, _, _, lf, _, _, _, v, _⟩
  cases k
  · cases hf : env.my_fopen <;>
      simp [io_open, hf, count_calls, Call.is_open, Call.is_write]
  · by_cases hs : env.socket < 0
    · simp [io_open, hs, count_calls, Call.is_open, Call.is_write]
    · cases hc : env.connect_failed <;>
        simp [io_open, hs, hc, close, count_calls, Call.is_open, Call.is_write]

theorem start_msg_format_calls (fmt : Audit_json_formatter) (env : Env) :
    count_calls Call.is_open (start_msg_format fmt env).2 = 0 ∧
    count_calls Call.is_write (start_msg_format fmt env).2 ≤ 2 ∧
    count_calls (fun c => c == Call.start_msg_format) (start_msg_format fmt env).2 = 0 := by
  unfold start_msg_format
  cases fmt.m_write_start_msg
  · simp [count_calls]
  · cases env.yajl_buf (start_msg_gen env)
    · simp [count_calls]
    · by_cases hw : env.start_write ≥ 0 <;>
        simp [hw, count_calls, Call.is_open, Call.is_write]

theorem handler_start_internal_spec (fmt : Audit_json_formatter) (env : Env) (h : Handler) :
    ((handler_start_internal fmt env h).1 = true ↔ start_ok fmt env h) ∧
    ((handler_start_internal fmt env h).1 = true →
      (handler_start_internal fmt env h).2.1.handle.isSome = true) ∧
    ((handler_start_internal fmt env h).1 = false → h.handle = none →
      (handler_start_internal fmt env h).2.1.handle = none) ∧
    (handler_start_internal fmt env h).2.1.kind = h.kind ∧
    (handler_start_internal fmt env h).2.1.m_enabled = h.m_enabled ∧
    (handler_start_internal fmt env h).2.1.m_failed = h.m_failed ∧
    (handler_start_internal fmt env h).2.1.m_last_retry_sec_ts = h.m_last_retry_sec_ts := by
  have ho := io_open_spec env h
  have hc := close_handle
  have hcf := close_frame
  unfold handler_start_internal start_ok
  cases hd : h.m_io_dest with
  | none => simp
  | some dest =>
    by_cases hl : strlen dest = 0
    · simp [hl]
    · obtain ⟨o1, o2, o3, o4, o5, o6⟩ := ho dest h.m_log_io_errors
      by_cases hr : (io_open env h dest h.m_log_io_errors).1 = 0
      · by_cases hs : (start_msg_format fmt env).1 < 0
        · simp [hl, hr, hs, hc, hcf, o3, o4, o5, o6]
        · have hs2 : 0 ≤ (start_msg_format fmt env).1 := by omega
          simp [hl, hr, hs, hs2, o1 hr, o3, o4, o5, o6]
      · simp [hl, hr, o2 hr, o3, o4, o5, o6]
        intro hn
        exact o2 hr hn

theorem handler_start_internal_calls (fmt : Audit_json_formatter) (env : Env)
    (h : Handler) :
    count_calls Call.is_open (handler_start_internal fmt env h).2.2 ≤ 1 ∧
    ((∃ dest, h.m_io_dest = some dest ∧ strlen dest ≠ 0) →
      count_calls Call.is_open (handler_start_internal fmt env h).2.2 = 1) ∧
    count_calls Call.is_write (handler_start_internal fmt env h).2.2 ≤ 2 ∧
    count_calls (fun c => c == Call.start_msg_format)
      (handler_start_internal fmt env h).2.2 ≤ 1 := by
  have hs := start_msg_format_calls fmt env
  unfold handler_start_internal
  cases hd : h.m_io_dest with
  | none => simp [count_calls]
  | some dest =>
    by_cases hl : strlen dest = 0
    · simp [hl, count_calls]
    · obtain ⟨o1, o2, o3⟩ := io_open_calls env h dest h.m_log_io_errors
      obtain ⟨s1, s2, s3⟩ := hs
      by_cases hr : (io_open env h dest h.m_log_io_errors).1 = 0
      · obtain ⟨c1, c2, c3, c4, c5⟩ :=
          close_calls (io_open env h dest h.m_log_io_errors).2.1
        by_cases hs : (start_msg_format fmt env).1 < 0
        · simp [hl, hr, hs, count_calls_append, count_calls_cons, count_calls_nil,
            Call.is_open, Call.is_write, o1, o2, o3, s1, s3, c2, c3, c4]
          exact s2
        · simp [hl, hr, hs, count_calls_append, count_calls_cons, count_calls_nil,
            Call.is_open, Call.is_write, o1, o2, o3, s1, s3]
          exact s2
      · simp [hl, hr, o1, o2, o3]

theorem handler_start_nolock_spec (fmt : Audit_json_formatter) (env : Env) (h : Handler) :
    ((handler_start_nolock fmt env h).1 = true ↔ start_ok fmt env h) ∧
    ((handler_start_nolock fmt env h).1 = true →
      (handler_start_nolock fmt env h).2.1.handle.isSome = true ∧
      (handler_start_nolock fmt env h).2.1.m_failed = false ∧
      (handler_start_nolock fmt env h).2.1.m_last_retry_sec_ts = h.m_last_retry_sec_ts) ∧
    ((handler_start_nolock fmt env h).1 = false →
      (handler_start_nolock fmt env h).2.1.m_failed = true ∧
      (handler_start_nolock fmt env h).2.1.m_last_retry_sec_ts = env.time_failed ∧
      (h.handle = none → (handler_start_nolock fmt env h).2.1.handle = none)) ∧
    (handler_start_nolock fmt env h).2.1.kind = h.kind ∧
    (handler_start_nolock fmt env h).2.1.m_enabled = h.m_enabled ∧
    (handler_start_nolock fmt env h).2.2 = (handler_start_internal fmt env h).2.2 := by
  obtain ⟨i1, i2, i3, i4, i5, _, i7⟩ := handler_start_internal_spec fmt env h
  unfold handler_start_nolock
  cases hr : (handler_start_internal fmt env h).1
  · simp [hr] at i1 i3
    simp [hr, set_failed, Handler.handle, i4, i5]
    refine ⟨by simpa [start_ok] using i1, ?_⟩
    intro hn
    have := i3 hn
    simpa [Handler.handle, i4] using this
  · simp [hr] at i1 i2
    simp [hr, Handler.handle, i4, i5, i7, i1]
    simpa [Handler.handle, i4] using i2

theorem handler_stop_internal_spec (fmt : Audit_json_formatter) (h : Handler) :
    (handler_stop_internal fmt h).1.handle = none ∧
    (handler_stop_internal fmt h).1.kind = h.kind ∧
    (handler_stop_internal fmt h).1.m_enabled = h.m_enabled ∧
    (handler_stop_internal fmt h).1.m_failed = h.m_failed ∧
    (handler_stop_internal fmt h).1.m_last_retry_sec_ts = h.m_last_retry_sec_ts ∧
    count_calls Call.is_close (handler_stop_internal fmt h).2 = 1 ∧
    count_calls (fun c => c == Call.stop_msg_format) (handler_stop_internal fmt h).2
      = (if h.m_failed then 0 else 1) ∧
    count_calls Call.is_open (handler_stop_internal fmt h).2 = 0 := by
  obtain ⟨c1, c2, _, _, c5⟩ := close_calls h
  obtain ⟨f1, f2, f3, f4⟩ := close_frame h
  unfold handler_stop_internal
  cases hf : h.m_failed <;>
    simp [close_handle, f1, f2, f3, f4, hf, stop_msg_format, count_calls_append,
      count_calls_cons, count_calls_nil, Call.is_close, Call.is_open, c1, c2, c5]

theorem event_format_calls (fmt : Audit_json_formatter) (env : Env) (d : ThdSesData) :
    count_calls (fun c => c == Call.stop_msg_format) (event_format fmt env d).2 = 0 ∧
    count_calls Call.is_open (event_format fmt env d).2 = 0 := by
  unfold event_format
  cases env.yajl_buf (event_gen fmt env d)
  · simp [count_calls]
  · by_cases hw : env.event_write ≥ 0 <;> simp [hw, count_calls, Call.is_open]

theorem handler_log_audit_spec (fmt : Audit_json_formatter) (env : Env) (d : ThdSesData)
    (h : Handler) :
    (handler_log_audit fmt env d h).2.1.handle = h.handle ∧
    (handler_log_audit fmt env d h).2.1.kind = h.kind ∧
    (handler_log_audit fmt env d h).2.1.m_enabled = h.m_enabled ∧
    (handler_log_audit fmt env d h).2.1.m_failed = h.m_failed ∧
    (handler_log_audit fmt env d h).2.1.m_last_retry_sec_ts = h.m_last_retry_sec_ts ∧
    ((handler_log_audit fmt env d h).1 = true → (event_format fmt env d).1 ≥ 0) ∧
    count_calls (fun c => c == Call.stop_msg_format)
      (handler_log_audit fmt env d h).2.2 = 0 ∧
    count_calls Call.is_open (handler_log_audit fmt env d h).2.2 = 0 := by
  obtain ⟨he, he2⟩ := event_format_calls fmt env d
  rcases h with ⟨k, _, _, _, _, _, _, _, _, lf, sp, sc, _, v, _⟩
  cases k
  · unfold handler_log_audit
    simp only []
    split
    · rename_i hc
      simp at hc
      split
      · simp [Handler.handle, count_calls_append, count_calls_cons, count_calls_nil, he,
          he2, Call.is_open]
        intro _ _
        exact hc.1
      · simp [Handler.handle, count_calls_append, count_calls_cons, count_calls_nil, he,
          he2, Call.is_open]
    · simp [Handler.handle, count_calls_append, count_calls_cons, count_calls_nil, he,
        he2, Call.is_open]
  · simp [handler_log_audit, Handler.handle, count_calls_append, count_calls_cons,
      count_calls_nil, he, he2, Call.is_open]

theorem log_audit_write_spec (fmt : Audit_json_formatter) (env : Env) (d : ThdSesData)
    (h : Handler) :
    ((handler_log_audit fmt env d h).1 = true →
      (log_audit_write fmt env d h).1.handle = h.handle ∧
      (log_audit_write fmt env d h).1.m_failed = h.m_failed ∧
      (log_audit_write fmt env d h).1.m_last_retry_sec_ts = h.m_last_retry_sec_ts) ∧
    ((handler_log_audit fmt env d h).1 = false →
      (log_audit_write fmt env d h).1.handle = none ∧
      (log_audit_write fmt env d h).1.m_failed = true ∧
      (log_audit_write fmt env d h).1.m_last_retry_sec_ts = env.time_failed) ∧
    (log_audit_write fmt env d h).1.m_enabled = h.m_enabled ∧
    (log_audit_write fmt env d h).1.kind = h.kind ∧
    count_calls (fun c => c == Call.stop_msg_format) (log_audit_write fmt env d h).2 = 0 ∧
    count_calls Call.is_open (log_audit_write fmt env d h).2 = 0 := by
  obtain ⟨l1, l2, l3, l4, l5, _, l7, l8⟩ := handler_log_audit_spec fmt env d h
  obtain ⟨s1, s2, s3, s4, s5, _, s7, s8⟩ :=
    handler_stop_internal_spec fmt (set_failed env (handler_log_audit fmt env d h).2.1)
  unfold log_audit_write
  generalize handler_log_audit fmt env d h = r at *
  obtain ⟨ok, h2, c2⟩ := r
  simp only at *
  generalize handler_stop_internal fmt (set_failed env h2) = r2 at *
  obtain ⟨h3, c3⟩ := r2
  have e1 : (set_failed env h2).kind = h2.kind := rfl
  have e2 : (set_failed env h2).m_enabled = h2.m_enabled := rfl
  have e3 : (set_failed env h2).m_failed = true := rfl
  have e4 : (set_failed env h2).m_last_retry_sec_ts = env.time_failed := rfl
  rw [e1] at s2
  rw [e2] at s3
  rw [e3] at s4 s7
  rw [e4] at s5
  cases ok
  · simp only at *
    simp [s1, s2, s3, s4, s5, s7, s8, l2, l3, l7, l8, count_calls_append]
  · simp [l1, l2, l3, l4, l5, l7, l8]

theorem log_audit_enabled_eq (fmt : Audit_json_formatter) (env : Env) (d : ThdSesData)
    (h : Handler) (hen : h.m_enabled = true)
    (hid : d.m_pThd.inst_thread_id = d.m_pThd.thread_id) :
    log_audit fmt env d h =
      if (log_audit_do_log fmt env { h with m_print_offset_err := true }).1 then
        ((log_audit_write fmt env d
            (log_audit_do_log fmt env { h with m_print_offset_err := true }).2.1).1,
          (log_audit_do_log fmt env { h with m_print_offset_err := true }).2.2 ++
          (log_audit_write fmt env d
            (log_audit_do_log fmt env { h with m_print_offset_err := true }).2.1).2)
      else (log_audit_do_log fmt env { h with m_print_offset_err := true }).2 := by
  unfold log_audit
  simp only [hen, hid, Bool.not_true, Bool.false_eq_true, if_false, ne_eq, not_true_eq_false]

/-! ## The sink is open exactly while the handler is enabled and not failed -/

theorem handler_start_nolock_inv (fmt : Audit_json_formatter) (env : Env) (h : Handler)
    (hn : h.handle = none) (hen : h.m_enabled = true) :
    Inv (handler_start_nolock fmt env h).2.1 := by
  obtain ⟨_, n2, n3, _, n5, _⟩ := handler_start_nolock_spec fmt env h
  unfold Inv
  cases hr : (handler_start_nolock fmt env h).1
  · obtain ⟨a, _, c⟩ := n3 hr
    simp [n5, a, c hn, hen]
  · obtain ⟨a, b, _⟩ := n2 hr
    simp [n5, a, b, hen]

theorem handler_start_inv (fmt : Audit_json_formatter) (env : Env) (h : Handler)
    (hn : h.handle = none) (hen : h.m_enabled = true) :
    Inv (handler_start fmt env h).1 :=
  handler_start_nolock_inv fmt env { h with m_log_io_errors := true } hn hen

theorem set_enable_inv (fmt : Audit_json_formatter) (env : Env) (val : Bool) (h : Handler)
    (hi : Inv h) : Inv (set_enable fmt env val h).1 := by
  unfold set_enable
  by_cases hv : h.m_enabled = val
  · simpa [hv] using hi
  · cases val
    · obtain ⟨s1, _, s3, _⟩ := handler_stop_internal_spec fmt { h with m_enabled := false }
      simp [hv, handler_stop, Inv, s1, s3]
    · have hd : h.m_enabled = false := by simpa using hv
      have hn : h.handle = none := by
        unfold Inv at hi
        simpa [hd] using hi
      simpa [hd] using handler_start_inv fmt env { h with m_enabled := true } hn rfl

theorem flush_inv (fmt : Audit_json_formatter) (env : Env) (h : Handler)
    (hi : Inv h) : Inv (flush fmt env h).1 := by
  unfold flush
  cases hen : h.m_enabled
  · simpa [hen] using hi
  · obtain ⟨s1, _, s3, _⟩ := handler_stop_internal_spec fmt h
    simpa [handler_stop] using
      handler_start_inv fmt env (handler_stop_internal fmt h).1 s1 (by rw [s3, hen])

theorem log_audit_do_log_spec (fmt : Audit_json_formatter) (env : Env) (h : Handler)
    (hi : Inv h) (hen : h.m_enabled = true) :
    Inv (log_audit_do_log fmt env h).2.1 ∧
    (log_audit_do_log fmt env h).2.1.m_enabled = true ∧
    ((log_audit_do_log fmt env h).1 = true →
      (log_audit_do_log fmt env h).2.1.m_failed = false) ∧
    ((log_audit_do_log fmt env h).1 = false →
      (log_audit_do_log fmt env h).2.1.m_failed = true) := by
  unfold log_audit_do_log
  cases hf : h.m_failed
  · simp [hi, hen, hf]
  · have hn : h.handle = none := by
      unfold Inv at hi
      simpa [hf] using hi
    obtain ⟨_, n2, n3, _, n5, _⟩ := handler_start_nolock_spec fmt env h
    by_cases hr : (decide (h.m_retry_interval > 0) &&
      decide (env.time_now - h.m_last_retry_sec_ts > (h.m_retry_interval : Int))) = true
    · simp only [hr, if_true]
      refine ⟨handler_start_nolock_inv fmt env h hn hen, by rw [n5, hen], ?_, ?_⟩
      · intro h1
        exact (n2 h1).2.1
      · intro h1
        exact (n3 h1).1
    · simp only [hr]
      simp [hi, hen, hf]

theorem log_audit_write_inv (fmt : Audit_json_formatter) (env : Env) (d : ThdSesData)
    (h : Handler) (hi : Inv h) : Inv (log_audit_write fmt env d h).1 := by
  obtain ⟨w1, w2, w3, _⟩ := log_audit_write_spec fmt env d h
  unfold Inv at *
  cases hok : (handler_log_audit fmt env d h).1
  · obtain ⟨a, b, _⟩ := w2 hok
    simp [a, b]
  · obtain ⟨a, b, _⟩ := w1 hok
    rw [a, b, w3, hi]

theorem log_audit_inv (fmt : Audit_json_formatter) (env : Env) (d : ThdSesData)
    (h : Handler) (hi : Inv h) : Inv (log_audit fmt env d h).1 := by
  by_cases hen : h.m_enabled = true
  · by_cases hid : d.m_pThd.inst_thread_id = d.m_pThd.thread_id
    · rw [log_audit_enabled_eq fmt env d h hen hid]
      have hi1 : Inv { h with m_print_offset_err := true } := hi
      obtain ⟨d1, _⟩ :=
        log_audit_do_log_spec fmt env { h with m_print_offset_err := true } hi1 hen
      split
      · exact log_audit_write_inv fmt env d _ d1
      · exact d1
    · unfold log_audit
      simp only [hen, hid, Bool.not_true, Bool.false_eq_true, if_false, ne_eq,
        not_false_eq_true, if_true]
      split
      · unfold Inv Handler.handle at *
        simpa [hen] using hi
      · exact hi
  · unfold log_audit
    simpa [hen] using hi

theorem reachable_inv (h : Handler) (hr : Reachable h) : Inv h := by
  induction hr with
  | fresh kind ts retry => cases kind <;> simp [Inv, Handler.fresh, Handler.handle]
  | init h _ ih => exact ih
  | config h dest retry period bufsize timeout _ ih => exact ih
  | set_enable fmt env val h _ ih => exact set_enable_inv fmt env val h ih
  | flush fmt env h _ ih => exact flush_inv fmt env h ih
  | log_audit fmt env d h _ ih => exact log_audit_inv fmt env d h ih

theorem io_open_code_kind (env : Env) (h h2 : Handler) (dest : Bytes) (le le2 : Bool)
    (hk : h.kind = h2.kind) :
    (io_open env h dest le).1 = (io_open env h2 dest le2).1 := by
  rcases h with ⟨k, _, _, _, _, _, _, _, _, lf, _, _, _, v, _⟩
  rcases h2 with ⟨k2, _, _, _, _, _, _, _, _, lf2, _, _, _, v2, _⟩
  simp only at hk
  subst hk
  cases k
  · cases hf : env.my_fopen <;> simp [io_open, hf]
  · by_cases hs : env.socket < 0
    · simp [io_open, hs]
    · cases hc : env.connect_failed <;> simp [io_open, hs, hc, close]

theorem handler_start_internal_no_stop (fmt : Audit_json_formatter) (env : Env)
    (h : Handler) :
    count_calls (fun c => c == Call.stop_msg_format)
      (handler_start_internal fmt env h).2.2 = 0 := by
  have hs : count_calls (fun c => c == Call.stop_msg_format)
      (start_msg_format fmt env).2 = 0 := by
    unfold start_msg_format
    cases fmt.m_write_start_msg
    · simp [count_calls]
    · cases env.yajl_buf (start_msg_gen env)
      · simp [count_calls]
      · by_cases hw : env.start_write ≥ 0 <;> simp [hw, count_calls]
  have ho : ∀ dest le, count_calls (fun c => c == Call.stop_msg_format)
      (io_open env h dest le).2.2 = 0 := by
    intro dest le
    rcases h with ⟨k, _, _, _, _, _, _, _, _, lf, _, _, _, v, _⟩
    cases k
    · cases hf : env.my_fopen <;> simp [io_open, hf, count_calls]
    · by_cases hs : env.socket < 0
      · simp [io_open, hs, count_calls]
      · cases hc : env.connect_failed <;> simp [io_open, hs, hc, close, count_calls]
  unfold handler_start_internal
  cases hd : h.m_io_dest with
  | none => simp [count_calls]
  | some dest =>
    by_cases hl : strlen dest = 0
    · simp [hl, count_calls]
    · by_cases hr : (io_open env h dest h.m_log_io_errors).1 = 0
      · obtain ⟨_, _, _, _, c5⟩ := close_calls (io_open env h dest h.m_log_io_errors).2.1
        by_cases hs2 : (start_msg_format fmt env).1 < 0
        · simp [hl, hr, hs2, count_calls_append, count_calls_cons, count_calls_nil, ho, hs,
            c5]
        · simp [hl, hr, hs2, count_calls_append, count_calls_cons, count_calls_nil, ho, hs]
      · simp [hl, hr, ho]

/-! ## Claims on the handler state machine -/

/-- C1: on an enabled handler that is failed with last failure at time `T` and retry
interval `R`, a `log_audit` call at a time `t` with `T < t < T + R` makes no call at all (in
particular neither the sink's `open` nor its `write`) and leaves `m_failed`, the failure
timestamp and the sink's handle unchanged. -/
theorem log_audit_failed_within_interval (fmt : Audit_json_formatter) (env : Env)
    (d : ThdSesData) (h : Handler) (hen : h.m_enabled = true) (hf : h.m_failed = true)
    (ht : h.m_last_retry_sec_ts < env.time_now ∧
      env.time_now < h.m_last_retry_sec_ts + h.m_retry_interval) :
    (log_audit fmt env d h).2 = [] ∧
    (log_audit fmt env d h).1.m_failed = true ∧
    (log_audit fmt env d h).1.m_last_retry_sec_ts = h.m_last_retry_sec_ts ∧
    (log_audit fmt env d h).1.handle = h.handle ∧
    (log_audit fmt env d h).1.m_log_file = h.m_log_file ∧
    (log_audit fmt env d h).1.m_vio = h.m_vio := by
  have hr : ¬ (env.time_now - h.m_last_retry_sec_ts > (h.m_retry_interval : Int)) := by
    omega
  unfold log_audit log_audit_do_log
  simp only [hen, hf]
  by_cases hid : d.m_pThd.inst_thread_id = d.m_pThd.thread_id
  · simp [hid, hr, hf, Handler.handle]
  · by_cases hp : h.m_print_offset_err = true <;> simp [hid, hp, hf, Handler.handle]

theorem log_audit_failed_within_interval_witness :
    (log_audit fmt0 { env0 with time_now := 105 } ses0 failed0).2 = [] ∧
    (log_audit fmt0 { env0 with time_now := 105 } ses0 failed0).1.m_failed = true ∧
    (log_audit fmt0 { env0 with time_now := 105 } ses0 failed0).1.m_last_retry_sec_ts
      = failed0.m_last_retry_sec_ts ∧
    (log_audit fmt0 { env0 with time_now := 105 } ses0 failed0).1.handle = failed0.handle ∧
    (log_audit fmt0 { env0 with time_now := 105 } ses0 failed0).1.m_log_file
      = failed0.m_log_file ∧
    (log_audit fmt0 { env0 with time_now := 105 } ses0 failed0).1.m_vio = failed0.m_vio :=
  log_audit_failed_within_interval fmt0 { env0 with time_now := 105 } ses0 failed0
    (by decide) (by decide) (by decide)

theorem handler_start_internal_no_dest (fmt : Audit_json_formatter) (env : Env)
    (g : Handler)
    (hno : g.m_io_dest = none ∨ ∃ dest, g.m_io_dest = some dest ∧ strlen dest = 0) :
    handler_start_internal fmt env g = (false, g, []) := by
  unfold handler_start_internal
  rcases hno with hn | ⟨dest, hd, hl⟩
  · simp [hn]
  · simp [hd, hl]

theorem handler_start_nolock_no_dest (fmt : Audit_json_formatter) (env : Env)
    (g : Handler)
    (hno : g.m_io_dest = none ∨ ∃ dest, g.m_io_dest = some dest ∧ strlen dest = 0) :
    handler_start_nolock fmt env g = (false, set_failed env g, []) := by
  unfold handler_start_nolock
  rw [handler_start_internal_no_dest fmt env g hno]
  rfl

/-- C2, as stated, fails: on the enabled handler `failed0` (failed at time 100, retry
interval 10, destination set) a `log_audit` call at time 110 = 100 + 10 makes no `open`
call; with retry interval 0 a call at time 110 makes none either; with retry interval 10
and no destination a call at time 111 makes none; and a call at time 111 whose thread-id
check fails makes none. -/
theorem log_audit_no_retry_at_interval_end :
    (failed0.m_enabled = true ∧ failed0.m_failed = true ∧
      env0.time_now = failed0.m_last_retry_sec_ts + failed0.m_retry_interval ∧
      count_calls Call.is_open (log_audit fmt0 env0 ses0 failed0).2 = 0) ∧
    count_calls Call.is_open
      (log_audit fmt0 env0 ses0 { failed0 with m_retry_interval := 0 }).2 = 0 ∧
    count_calls Call.is_open
      (log_audit fmt0 { env0 with time_now := 111 } ses0
        { failed0 with m_io_dest := none }).2 = 0 ∧
    count_calls Call.is_open
      (log_audit fmt0 { env0 with time_now := 111 }
        { ses0 with m_pThd := { thd0 with inst_thread_id := 2 } } failed0).2 = 0 := by
  decide

/-- C2, amended: on an enabled handler that is failed with last failure at time `T` and
retry interval `R`, a `log_audit` call at a time `t` makes no call at all when `R = 0` or
`t ≤ T + R`; when `R > 0`, `t > T + R` and the thread-id check passes, it runs
`handler_start_nolock` exactly once (the result is that of the one start attempt, followed
by the write when it succeeded), and the attempt calls the sink's `open` at most once:
exactly once when a non-empty destination is configured, and not at all (the call list of
`log_audit` is then empty) when the destination is null or empty. -/
theorem log_audit_retry_after_interval (fmt : Audit_json_formatter) (env : Env)
    (d : ThdSesData) (h : Handler) (hen : h.m_enabled = true) (hf : h.m_failed = true) :
    ((h.m_retry_interval = 0 ∨
        env.time_now ≤ h.m_last_retry_sec_ts + h.m_retry_interval) →
      (log_audit fmt env d h).2 = []) ∧
    (0 < h.m_retry_interval →
      h.m_last_retry_sec_ts + h.m_retry_interval < env.time_now →
      d.m_pThd.inst_thread_id = d.m_pThd.thread_id →
      log_audit fmt env d h =
        (if (handler_start_nolock fmt env { h with m_print_offset_err := true }).1 then
          ((log_audit_write fmt env d
              (handler_start_nolock fmt env { h with m_print_offset_err := true }).2.1).1,
            (handler_start_nolock fmt env { h with m_print_offset_err := true }).2.2 ++
            (log_audit_write fmt env d
              (handler_start_nolock fmt env { h with m_print_offset_err := true }).2.1).2)
        else (handler_start_nolock fmt env { h with m_print_offset_err := true }).2) ∧
      count_calls Call.is_open (log_audit fmt env d h).2 ≤ 1 ∧
      ((∃ dest, h.m_io_dest = some dest ∧ strlen dest ≠ 0) →
        count_calls Call.is_open (log_audit fmt env d h).2 = 1) ∧
      ((h.m_io_dest = none ∨ ∃ dest, h.m_io_dest = some dest ∧ strlen dest = 0) →
        count_calls Call.is_open (log_audit fmt env d h).2 = 0 ∧
        (log_audit fmt env d h).2 = [])) := by
  constructor
  · intro hno
    have hr : (decide (h.m_retry_interval > 0) &&
        decide (env.time_now - h.m_last_retry_sec_ts > (h.m_retry_interval : Int)))
        = false := by
      rcases hno with h0 | hle
      · simp [h0]
      · have : ¬ (env.time_now - h.m_last_retry_sec_ts > (h.m_retry_interval : Int)) := by
          omega
        simp [this]
    unfold log_audit log_audit_do_log
    simp only [hen, hf]
    by_cases hid : d.m_pThd.inst_thread_id = d.m_pThd.thread_id
    · simp [hid, hr]
    · by_cases hp : h.m_print_offset_err = true <;> simp [hid, hp]
  · intro hR ht hid
    have hdo : log_audit_do_log fmt env { h with m_print_offset_err := true } =
        handler_start_nolock fmt env { h with m_print_offset_err := true } := by
      have hr : env.time_now - h.m_last_retry_sec_ts > (h.m_retry_interval : Int) := by
        omega
      unfold log_audit_do_log
      simp [hf, hR, hr]
    have heq := log_audit_enabled_eq fmt env d h hen hid
    rw [hdo] at heq
    refine ⟨heq, ?_⟩
    obtain ⟨_, _, _, _, _, n6⟩ :=
      handler_start_nolock_spec fmt env { h with m_print_offset_err := true }
    obtain ⟨i1, i2, _, _⟩ :=
      handler_start_internal_calls fmt env { h with m_print_offset_err := true }
    rw [← n6] at i1 i2
    have hnone : (h.m_io_dest = none ∨ ∃ dest, h.m_io_dest = some dest ∧ strlen dest = 0) →
        count_calls Call.is_open (log_audit fmt env d h).2 = 0 ∧
        (log_audit fmt env d h).2 = [] := by
      intro hno
      have hs := handler_start_nolock_no_dest fmt env
        { h with m_print_offset_err := true } hno
      have hl : (log_audit fmt env d h).2 = [] := by
        rw [heq, hs]
        rfl
      rw [hl]
      exact ⟨rfl, rfl⟩
    refine ⟨?_, ?_, hnone⟩
    · rw [heq]
      split
      · obtain ⟨_, _, _, _, _, w6⟩ := log_audit_write_spec fmt env d
          (handler_start_nolock fmt env { h with m_print_offset_err := true }).2.1
        simp only [count_calls_append, w6, Nat.add_zero]
        exact i1
      · exact i1
    · rw [heq]
      split
      · obtain ⟨_, _, _, _, _, w6⟩ := log_audit_write_spec fmt env d
          (handler_start_nolock fmt env { h with m_print_offset_err := true }).2.1
        simp only [count_calls_append, w6, Nat.add_zero]
        exact i2
      · exact i2

theorem log_audit_retry_after_interval_witness :
    (log_audit fmt0 env0 ses0 failed0).2 = [] ∧
    count_calls Call.is_open
      (log_audit fmt0 { env0 with time_now := 111 } ses0 failed0).2 = 1 ∧
    count_calls Call.is_open
      (log_audit fmt0 { env0 with time_now := 111 } ses0
        { failed0 with m_io_dest := some (cstr "") }).2 = 0 :=
  ⟨(log_audit_retry_after_interval fmt0 env0 ses0 failed0 (by decide) (by decide)).1
      (Or.inr (by decide)),
    ((log_audit_retry_after_interval fmt0 { env0 with time_now := 111 } ses0 failed0
      (by decide) (by decide)).2 (by decide) (by decide) (by decide)).2.2.1
      ⟨cstr "a", by decide, by decide⟩,
    (((log_audit_retry_after_interval fmt0 { env0 with time_now := 111 } ses0
      { failed0 with m_io_dest := some (cstr "") }
      (by decide) (by decide)).2 (by decide) (by decide) (by decide)).2.2.2
      (Or.inr ⟨cstr "", by decide, by decide⟩)).1⟩

theorem log_audit_do_log_eligible (fmt : Audit_json_formatter) (env : Env) (g : Handler)
    (helig : g.m_failed = false ∨
      (g.m_failed = true ∧ 0 < g.m_retry_interval ∧
        g.m_last_retry_sec_ts + g.m_retry_interval < env.time_now ∧
        (handler_start_nolock fmt env g).1 = true)) :
    (log_audit_do_log fmt env g).1 = true := by
  unfold log_audit_do_log
  rcases helig with hnf | ⟨hf, hR, ht, hs⟩
  · simp [hnf]
  · have hgt : env.time_now - g.m_last_retry_sec_ts > (g.m_retry_interval : Int) := by
      omega
    simp [hf, hR, hgt, hs]

theorem log_audit_do_log_no_stop (fmt : Audit_json_formatter) (env : Env) (g : Handler) :
    count_calls (fun c => c == Call.stop_msg_format) (log_audit_do_log fmt env g).2.2 = 0 := by
  unfold log_audit_do_log
  split
  · simp only []
    split
    · rw [(handler_start_nolock_spec fmt env g).2.2.2.2.2]
      exact handler_start_internal_no_stop fmt env g
    · rfl
  · rfl

theorem handler_log_audit_result (fmt : Audit_json_formatter) (env : Env) (d : ThdSesData)
    (h : Handler) :
    (handler_log_audit fmt env d h).1 = write_succeeds fmt env d h := by
  rcases h with ⟨k, _, _, _, _, _, _, _, _, lf, sp, sc, _, v, _⟩
  cases k
  · unfold handler_log_audit write_succeeds sync_due
    simp only []
    by_cases h1 : (event_format fmt env d).1 ≥ 0
    · by_cases h2 : sp = 0
      · simp [h1, h2]
      · by_cases h3 : (sc + 1) % UINT_MOD ≥ sp
        · by_cases h4 : env.fflush_res = 0 <;> simp [h1, h2, h3, h4]
        · simp [h1, h2, h3]
    · simp [h1]
  · simp [handler_log_audit, write_succeeds, sync_due]

theorem handler_start_nolock_sync_due (fmt : Audit_json_formatter) (env : Env)
    (h : Handler) :
    sync_due (handler_start_nolock fmt env h).2.1 = sync_due h := by
  rcases h with ⟨k, _, _, _, _, _, _, _, dest, lf, sp, sc, _, v, _⟩
  unfold handler_start_nolock handler_start_internal
  cases dest with
  | none => rfl
  | some dd =>
    simp only []
    by_cases hl : strlen dd = 0
    · simp [hl, sync_due, set_failed]
    · cases k
      · cases hf : env.my_fopen <;>
          by_cases hs : (start_msg_format fmt env).1 < 0 <;>
          simp [hl, io_open, hf, hs, close, sync_due, set_failed]
      · by_cases hso : env.socket < 0
        · simp [hl, io_open, hso, close, sync_due, set_failed]
        · cases hc : env.connect_failed <;>
            by_cases hs : (start_msg_format fmt env).1 < 0 <;>
            simp [hl, io_open, hso, hc, hs, close, sync_due, set_failed]

theorem log_audit_do_log_sync_due (fmt : Audit_json_formatter) (env : Env) (h : Handler) :
    sync_due (log_audit_do_log fmt env h).2.1 = sync_due h := by
  unfold log_audit_do_log
  split
  · simp only []
    split
    · exact handler_start_nolock_sync_due fmt env h
    · rfl
  · rfl

/-- C3, as stated, fails: on a reachable file handler with sync period 1, enabled, not failed
and with its file open, `event_format` returns 1 (success) for the event, but `fflush`
fails in the sync that follows the write, `handler_log_audit` returns false, and the
handler ends failed with its file closed. -/
theorem log_audit_sync_failure_after_event_format :
    Reachable file_open_sync1 ∧
    (file_open_sync1.m_enabled = true ∧ file_open_sync1.m_failed = false ∧
      file_open_sync1.handle = some 7 ∧ file_open_sync1.m_sync_period = 1) ∧
    ses0.m_pThd.inst_thread_id = ses0.m_pThd.thread_id ∧
    (event_format fmt0 env_fflush_fails ses0).1 = 1 ∧
    (log_audit fmt0 env_fflush_fails ses0 file_open_sync1).1.m_failed = true ∧
    (log_audit fmt0 env_fflush_fails ses0 file_open_sync1).1.handle = none ∧
    (log_audit fmt0 env_fflush_fails ses0 file_open_sync1).2 =
      [Call.event_format, Call.write (cstr "\x7b\x7d"), Call.write (cstr "\n"), Call.sync,
        Call.close, Call.release 7] := by
  refine ⟨?_, by decide, by decide, by decide, by decide, by decide, by decide⟩
  exact Reachable.set_enable fmt0 env0 true _
    (Reachable.config (Handler.fresh HandlerKind.file 0 10) (some (cstr "a")) 10 1 0 1
      (Reachable.fresh HandlerKind.file 0 10))

/-- C3, amended: on a reachable enabled handler whose thread-id check passes and that is
eligible to write (not failed, or failed with the retry due and the reopen by
`handler_start_nolock` successful), `handler_log_audit` reports success exactly when
`event_format` returns a non-negative value and, on a file handler whose sync is due at
this write, `fflush` and `my_sync` both succeed. When it reports success, `m_failed` is
false afterwards and the sink holds its handle; when it reports failure, `m_failed` is
set, the failure timestamp is the time read by `set_failed`, the sink's handle is null and
the call made no `stop_msg_format`. -/
theorem log_audit_write_outcome (fmt : Audit_json_formatter) (env : Env) (d : ThdSesData)
    (h : Handler) (hr : Reachable h) (hen : h.m_enabled = true)
    (hid : d.m_pThd.inst_thread_id = d.m_pThd.thread_id)
    (helig : h.m_failed = false ∨
      (h.m_failed = true ∧ 0 < h.m_retry_interval ∧
        h.m_last_retry_sec_ts + h.m_retry_interval < env.time_now ∧
        (handler_start_nolock fmt env { h with m_print_offset_err := true }).1 = true)) :
    (handler_log_audit fmt env d
        (log_audit_do_log fmt env { h with m_print_offset_err := true }).2.1).1
      = write_succeeds fmt env d h ∧
    (write_succeeds fmt env d h = true →
      (log_audit fmt env d h).1.m_failed = false ∧
      (log_audit fmt env d h).1.handle.isSome = true ∧
      (event_format fmt env d).1 ≥ 0) ∧
    (write_succeeds fmt env d h = false →
      (log_audit fmt env d h).1.m_failed = true ∧
      (log_audit fmt env d h).1.m_last_retry_sec_ts = env.time_failed ∧
      (log_audit fmt env d h).1.handle = none ∧
      count_calls (fun c => c == Call.stop_msg_format) (log_audit fmt env d h).2 = 0) := by
  have hi : Inv { h with m_print_offset_err := true } := reachable_inv h hr
  have hdo : (log_audit_do_log fmt env { h with m_print_offset_err := true }).1 = true :=
    log_audit_do_log_eligible fmt env { h with m_print_offset_err := true } helig
  have hstop := log_audit_do_log_no_stop fmt env { h with m_print_offset_err := true }
  obtain ⟨d1, _, d3, _⟩ :=
    log_audit_do_log_spec fmt env { h with m_print_offset_err := true } hi hen
  have hfalse := d3 hdo
  have hopen : (log_audit_do_log fmt env
      { h with m_print_offset_err := true }).2.1.handle.isSome = true := by
    unfold Inv at d1
    rw [d1, hfalse]
    simpa using (log_audit_do_log_spec fmt env
      { h with m_print_offset_err := true } hi hen).2.1
  obtain ⟨w1, w2, _, _, w5, _⟩ := log_audit_write_spec fmt env d
    (log_audit_do_log fmt env { h with m_print_offset_err := true }).2.1
  obtain ⟨_, _, _, _, _, l6, _⟩ := handler_log_audit_spec fmt env d
    (log_audit_do_log fmt env { h with m_print_offset_err := true }).2.1
  have hres : (handler_log_audit fmt env d
      (log_audit_do_log fmt env { h with m_print_offset_err := true }).2.1).1
      = write_succeeds fmt env d h := by
    rw [handler_log_audit_result]
    have e1 := log_audit_do_log_sync_due fmt env { h with m_print_offset_err := true }
    have e2 : sync_due { h with m_print_offset_err := true } = sync_due h := rfl
    unfold write_succeeds
    rw [e1, e2]
  refine ⟨hres, ?_⟩
  rw [← hres]
  rw [log_audit_enabled_eq fmt env d h hen hid]
  simp only [hdo, if_true]
  constructor
  · intro hok
    obtain ⟨a, b, _⟩ := w1 hok
    exact ⟨by rw [b, hfalse], by rw [a, hopen], l6 hok⟩
  · intro hok
    obtain ⟨a, b, c⟩ := w2 hok
    refine ⟨b, c, a, ?_⟩
    rw [count_calls_append, hstop, w5]

/-- A reachable state: `file0` after `set_enable(true)` with every call succeeding. -/
theorem reachable_open0 : Reachable (set_enable fmt0 env0 true file0).1 :=
  Reachable.set_enable fmt0 env0 true file0
    (Reachable.config (Handler.fresh HandlerKind.file 0 10) (some (cstr "a")) 10 0 0 1
      (Reachable.fresh HandlerKind.file 0 10))

theorem log_audit_write_outcome_witness :
    ((log_audit fmt0 env0 ses0 (set_enable fmt0 env0 true file0).1).1.m_failed = false ∧
      (log_audit fmt0 env0 ses0 (set_enable fmt0 env0 true file0).1).1.handle.isSome = true ∧
      (event_format fmt0 env0 ses0).1 ≥ 0) ∧
    ((log_audit fmt0 env_fflush_fails ses0 file_open_sync1).1.m_failed = true ∧
      (log_audit fmt0 env_fflush_fails ses0 file_open_sync1).1.m_last_retry_sec_ts
        = env_fflush_fails.time_failed ∧
      (log_audit fmt0 env_fflush_fails ses0 file_open_sync1).1.handle = none ∧
      count_calls (fun c => c == Call.stop_msg_format)
        (log_audit fmt0 env_fflush_fails ses0 file_open_sync1).2 = 0) :=
  ⟨(log_audit_write_outcome fmt0 env0 ses0 (set_enable fmt0 env0 true file0).1
      reachable_open0 (by decide) (by decide) (Or.inl (by decide))).2.1 (by decide),
    (log_audit_write_outcome fmt0 env_fflush_fails ses0 file_open_sync1
      (Reachable.set_enable fmt0 env0 true _
        (Reachable.config (Handler.fresh HandlerKind.file 0 10) (some (cstr "a")) 10 1 0 1
          (Reachable.fresh HandlerKind.file 0 10)))
      (by decide) (by decide) (Or.inl (by decide))).2.2 (by decide)⟩

theorem set_enable_noop (fmt : Audit_json_formatter) (env : Env) (v : Bool) (g : Handler)
    (hv : g.m_enabled = v) : set_enable fmt env v g = (g, []) := by
  unfold set_enable
  simp [hv]

theorem set_enable_true_eq (fmt : Audit_json_formatter) (env : Env) (g : Handler)
    (hdis : g.m_enabled = false) :
    set_enable fmt env true g = handler_start fmt env { g with m_enabled := true } := by
  unfold set_enable
  simp [hdis]

theorem set_enable_false_eq (fmt : Audit_json_formatter) (env : Env) (g : Handler)
    (hen : g.m_enabled = true) :
    set_enable fmt env false g = handler_stop_internal fmt { g with m_enabled := false } := by
  unfold set_enable
  simp [hen, handler_stop]

theorem handler_start_spec (fmt : Audit_json_formatter) (env : Env) (h : Handler) :
    (handler_start fmt env h).1.m_enabled = h.m_enabled ∧
    (handler_start fmt env h).1.kind = h.kind ∧
    count_calls Call.is_open (handler_start fmt env h).2 ≤ 1 ∧
    ((∃ dest, h.m_io_dest = some dest ∧ strlen dest ≠ 0) →
      count_calls Call.is_open (handler_start fmt env h).2 = 1) ∧
    count_calls Call.is_write (handler_start fmt env h).2 ≤ 2 ∧
    count_calls (fun c => c == Call.start_msg_format) (handler_start fmt env h).2 ≤ 1 ∧
    ((∃ dest, h.m_io_dest = some dest ∧ strlen dest ≠ 0 ∧
        (io_open env h dest true).1 = 0 ∧ (start_msg_format fmt env).1 ≥ 0) →
      (handler_start fmt env h).1.handle.isSome = true ∧
      (handler_start fmt env h).1.m_failed = false) ∧
    ((¬ ∃ dest, h.m_io_dest = some dest ∧ strlen dest ≠ 0 ∧
        (io_open env h dest true).1 = 0 ∧ (start_msg_format fmt env).1 ≥ 0) →
      (handler_start fmt env h).1.m_failed = true ∧
      (handler_start fmt env h).1.m_last_retry_sec_ts = env.time_failed ∧
      (h.handle = none → (handler_start fmt env h).1.handle = none)) := by
  obtain ⟨n1, n2, n3, n4, n5, n6⟩ :=
    handler_start_nolock_spec fmt env { h with m_log_io_errors := true }
  obtain ⟨i1, i2, i3, i4⟩ :=
    handler_start_internal_calls fmt env { h with m_log_io_errors := true }
  rw [← n6] at i1 i2 i3 i4
  have hok : start_ok fmt env { h with m_log_io_errors := true } ↔
      ∃ dest, h.m_io_dest = some dest ∧ strlen dest ≠ 0 ∧
        (io_open env h dest true).1 = 0 ∧ (start_msg_format fmt env).1 ≥ 0 := by
    unfold start_ok
    constructor
    · rintro ⟨dest, a, b, c, e⟩
      refine ⟨dest, a, b, ?_, e⟩
      rw [← c]
      exact io_open_code_kind env _ _ dest _ _ rfl
    · rintro ⟨dest, a, b, c, e⟩
      refine ⟨dest, a, b, ?_, e⟩
      rw [← c]
      exact io_open_code_kind env _ _ dest _ _ rfl
  refine ⟨n5, n4, i1, i2, i3, i4, ?_, ?_⟩
  · intro hs
    have := n2 (n1.2 (hok.2 hs))
    exact ⟨this.1, this.2.1⟩
  · intro hs
    have hne : (handler_start_nolock fmt env { h with m_log_io_errors := true }).1 = false := by
      cases hb : (handler_start_nolock fmt env { h with m_log_io_errors := true }).1
      · rfl
      · exact absurd (hok.1 (n1.1 hb)) hs
    exact n3 hne

/-- C4, as stated, fails: on a freshly constructed file handler (disabled, no destination
configured) two consecutive `set_enable(true)` calls make no `open` call on the sink. -/
theorem set_enable_twice_without_destination :
    (Handler.fresh HandlerKind.file 0 10).m_enabled = false ∧
    count_calls Call.is_open
      ((set_enable fmt0 env0 true (Handler.fresh HandlerKind.file 0 10)).2 ++
        (set_enable fmt0 env0 true
          (set_enable fmt0 env0 true (Handler.fresh HandlerKind.file 0 10)).1).2) = 0 := by
  decide

/-- C4, amended: for every handler state and every boolean `v` equal to the current
`m_enabled`, `set_enable(v)` makes no call and leaves every field unchanged; consequently two
consecutive `set_enable(true)` calls on a disabled handler call the sink's `open` at most
once, exactly once when a non-empty destination is configured, and make at most one
`start_msg_format` call with at most the two writes of one header record. -/
theorem set_enable_same_is_noop (fmt : Audit_json_formatter) (env : Env) (h : Handler) :
    (∀ v : Bool, v = h.m_enabled → set_enable fmt env v h = (h, [])) ∧
    (h.m_enabled = false → ∀ (fmt2 : Audit_json_formatter) (env2 : Env),
      set_enable fmt2 env2 true (set_enable fmt env true h).1
        = ((set_enable fmt env true h).1, []) ∧
      count_calls Call.is_open ((set_enable fmt env true h).2 ++
        (set_enable fmt2 env2 true (set_enable fmt env true h).1).2) ≤ 1 ∧
      ((∃ dest, h.m_io_dest = some dest ∧ strlen dest ≠ 0) →
        count_calls Call.is_open ((set_enable fmt env true h).2 ++
          (set_enable fmt2 env2 true (set_enable fmt env true h).1).2) = 1) ∧
      count_calls (fun c => c == Call.start_msg_format) ((set_enable fmt env true h).2 ++
        (set_enable fmt2 env2 true (set_enable fmt env true h).1).2) ≤ 1 ∧
      count_calls Call.is_write ((set_enable fmt env true h).2 ++
        (set_enable fmt2 env2 true (set_enable fmt env true h).1).2) ≤ 2) := by
  constructor
  · intro v hv
    exact set_enable_noop fmt env v h hv.symm
  · intro hdis fmt2 env2
    have h1 := set_enable_true_eq fmt env h hdis
    obtain ⟨s1, _, s3, s4, s5, s6, _⟩ := handler_start_spec fmt env { h with m_enabled := true }
    have h2 : set_enable fmt2 env2 true (set_enable fmt env true h).1
        = ((set_enable fmt env true h).1, []) := by
      have he : (set_enable fmt env true h).1.m_enabled = true := by
        rw [h1, s1]
      exact set_enable_noop fmt2 env2 true _ he
    rw [h2, h1]
    simp only [List.append_nil]
    exact ⟨trivial, s3, s4, s6, s5⟩

theorem set_enable_same_is_noop_witness :
    set_enable fmt0 env0 false file0 = (file0, []) ∧
    count_calls Call.is_open ((set_enable fmt0 env0 true file0).2 ++
      (set_enable fmt0 env0 true (set_enable fmt0 env0 true file0).1).2) = 1 :=
  ⟨(set_enable_same_is_noop fmt0 env0 file0).1 false (by decide),
    ((set_enable_same_is_noop fmt0 env0 file0).2 (by decide) fmt0 env0).2.2.1
      ⟨cstr "a", by decide, by decide⟩⟩

/-- C5: on a handler with `m_enabled == false`, `log_audit` returns the handler unchanged
and makes no call: none on the formatter and no `open`, `write` or `close` on the sink. -/
theorem log_audit_disabled (fmt : Audit_json_formatter) (env : Env) (d : ThdSesData)
    (h : Handler) (hdis : h.m_enabled = false) :
    log_audit fmt env d h = (h, []) := by
  simp [log_audit, hdis]

theorem log_audit_disabled_witness : log_audit fmt0 env0 ses0 file0 = (file0, []) :=
  log_audit_disabled fmt0 env0 ses0 file0 (by decide)

/-- C6: on a reachable disabled handler, `set_enable(true)` sets `m_enabled` and is exactly
one run of `handler_start` (at most one `open` call): when a non-empty destination is
configured, the sink's `open` returns 0 and `start_msg_format` returns no negative value,
the sink holds a handle and `m_failed` is false afterwards; in every other case `m_failed`
is set, the failure timestamp is the time read by `set_failed`, and the sink's handle is
null. -/
theorem set_enable_true_from_disabled (fmt : Audit_json_formatter) (env : Env)
    (h : Handler) (hr : Reachable h) (hdis : h.m_enabled = false) :
    (set_enable fmt env true h).1.m_enabled = true ∧
    set_enable fmt env true h = handler_start fmt env { h with m_enabled := true } ∧
    count_calls Call.is_open (set_enable fmt env true h).2 ≤ 1 ∧
    ((∃ dest, h.m_io_dest = some dest ∧ strlen dest ≠ 0 ∧
        (io_open env h dest true).1 = 0 ∧ (start_msg_format fmt env).1 ≥ 0) →
      (set_enable fmt env true h).1.handle.isSome = true ∧
      (set_enable fmt env true h).1.m_failed = false) ∧
    ((¬ ∃ dest, h.m_io_dest = some dest ∧ strlen dest ≠ 0 ∧
        (io_open env h dest true).1 = 0 ∧ (start_msg_format fmt env).1 ≥ 0) →
      (set_enable fmt env true h).1.m_failed = true ∧
      (set_enable fmt env true h).1.m_last_retry_sec_ts = env.time_failed ∧
      (set_enable fmt env true h).1.handle = none) := by
  have hn : h.handle = none := by
    have hi := reachable_inv h hr
    unfold Inv at hi
    simpa [hdis] using hi
  have h1 := set_enable_true_eq fmt env h hdis
  obtain ⟨s1, _, s3, _, _, _, s7, s8⟩ := handler_start_spec fmt env { h with m_enabled := true }
  have hc : ∀ dest, (io_open env { h with m_enabled := true } dest true).1
      = (io_open env h dest true).1 :=
    fun dest => io_open_code_kind env _ _ dest _ _ rfl
  simp only [hc] at s7 s8
  rw [h1]
  refine ⟨s1, rfl, s3, s7, ?_⟩
  intro hs
  obtain ⟨a, b, c⟩ := s8 hs
  exact ⟨a, b, c hn⟩

theorem set_enable_true_from_disabled_witness :
    (set_enable fmt0 env0 true file0).1.handle.isSome = true ∧
    (set_enable fmt0 env0 true file0).1.m_failed = false :=
  (set_enable_true_from_disabled fmt0 env0 file0
    (Reachable.config (Handler.fresh HandlerKind.file 0 10) (some (cstr "a")) 10 0 0 1
      (Reachable.fresh HandlerKind.file 0 10)) (by decide)).2.2.2.1
    ⟨cstr "a", by decide, by decide, by decide, by decide⟩

/-- C7: on an enabled handler, `set_enable(false)` clears `m_enabled`, calls the formatter's
`stop_msg_format` once when `m_failed` is false and not at all when it is true, calls the
sink's `close` exactly once, and leaves the sink's handle null. -/
theorem set_enable_false_from_enabled (fmt : Audit_json_formatter) (env : Env) (h : Handler)
    (hen : h.m_enabled = true) :
    (set_enable fmt env false h).1.m_enabled = false ∧
    count_calls (fun c => c == Call.stop_msg_format) (set_enable fmt env false h).2
      = (if h.m_failed then 0 else 1) ∧
    count_calls Call.is_close (set_enable fmt env false h).2 = 1 ∧
    (set_enable fmt env false h).1.handle = none := by
  obtain ⟨s1, _, s3, _, _, s6, s7, _⟩ :=
    handler_stop_internal_spec fmt { h with m_enabled := false }
  have h1 := set_enable_false_eq fmt env h hen
  rw [h1]
  exact ⟨s3, s7, s6, s1⟩

theorem set_enable_false_from_enabled_witness :
    (set_enable fmt0 env0 false failed0).1.m_enabled = false ∧
    count_calls (fun c => c == Call.stop_msg_format) (set_enable fmt0 env0 false failed0).2
      = (if failed0.m_failed then 0 else 1) ∧
    count_calls Call.is_close (set_enable fmt0 env0 false failed0).2 = 1 ∧
    (set_enable fmt0 env0 false failed0).1.handle = none :=
  set_enable_false_from_enabled fmt0 env0 failed0 (by decide)

theorem io_open_call_list (env : Env) (g : Handler) (dest : Bytes) (le : Bool) :
    Call.io_open dest le ∈ (io_open env g dest le).2.2 ∧
    ((io_open env g dest le).1 = 0 → (io_open env g dest le).2.2 = [Call.io_open dest le]) := by
  rcases g with ⟨k, _, _, _, _, _, _, _, _, lf, _, _, _, v, _⟩
  cases k
  · cases hf : env.my_fopen <;> simp [io_open, hf]
  · by_cases hs : env.socket < 0
    · simp [io_open, hs]
    · cases hc : env.connect_failed <;> simp [io_open, hs, hc, close]

theorem handler_start_internal_open_ok (fmt : Audit_json_formatter) (env : Env)
    (g : Handler) (dest : Bytes) (hd : g.m_io_dest = some dest) (hl : strlen dest ≠ 0)
    (ho : (io_open env g dest g.m_log_io_errors).1 = 0) :
    count_calls (fun c => c == Call.start_msg_format)
      (handler_start_internal fmt env g).2.2 = 1 ∧
    List.IsPrefix ([Call.io_open dest g.m_log_io_errors, Call.start_msg_format] ++
      (start_msg_format fmt env).2) (handler_start_internal fmt env g).2.2 ∧
    ((start_msg_format fmt env).1 ≥ 0 →
      (handler_start_internal fmt env g).2.2 =
        [Call.io_open dest g.m_log_io_errors, Call.start_msg_format] ++
          (start_msg_format fmt env).2) := by
  obtain ⟨_, o2⟩ := io_open_call_list env g dest g.m_log_io_errors
  have o3 := o2 ho
  obtain ⟨_, _, s3⟩ := start_msg_format_calls fmt env
  obtain ⟨_, _, _, c4, _⟩ := close_calls (io_open env g dest g.m_log_io_errors).2.1
  unfold handler_start_internal
  by_cases hs : (start_msg_format fmt env).1 < 0
  · have hs2 : ¬ (start_msg_format fmt env).1 ≥ 0 := by omega
    simp [hd, hl, ho, hs, o3, count_calls_append, count_calls_cons, count_calls_nil, s3,
      c4, hs2]
  · have hs2 : (start_msg_format fmt env).1 ≥ 0 := by omega
    simp [hd, hl, ho, hs, o3, count_calls_append, count_calls_cons, count_calls_nil, s3]

theorem io_open_calls_head (env : Env) (g : Handler) (dest : Bytes) (le : Bool) :
    ∃ tail, (io_open env g dest le).2.2 = Call.io_open dest le :: tail ∧
      count_calls Call.is_open tail = 0 ∧
      count_calls (fun c => c == Call.start_msg_format) tail = 0 := by
  rcases g with ⟨k, _, _, _, _, _, _, _, _, lf, _, _, _, v, _⟩
  cases k
  · cases hf : env.my_fopen <;> simp [io_open, hf, count_calls]
  · by_cases hs : env.socket < 0
    · simp [io_open, hs, count_calls]
    · cases hc : env.connect_failed <;>
        simp [io_open, hs, hc, close, count_calls, Call.is_open]

theorem handler_start_internal_open_failed (fmt : Audit_json_formatter) (env : Env)
    (g : Handler) (dest : Bytes) (hd : g.m_io_dest = some dest) (hl : strlen dest ≠ 0)
    (ho : (io_open env g dest g.m_log_io_errors).1 ≠ 0) :
    (handler_start_internal fmt env g).2.2 = (io_open env g dest g.m_log_io_errors).2.2 := by
  unfold handler_start_internal
  simp [hd, hl, ho]

theorem handler_start_calls_eq (fmt : Audit_json_formatter) (env : Env) (x : Handler) :
    (handler_start fmt env x).2
      = (handler_start_internal fmt env { x with m_log_io_errors := true }).2.2 := by
  unfold handler_start
  exact (handler_start_nolock_spec fmt env { x with m_log_io_errors := true }).2.2.2.2.2

theorem close_keeps_dest (h : Handler) : (close h).1.m_io_dest = h.m_io_dest := by
  rcases h with ⟨k, _, _, _, _, _, _, _, _, lf, _, _, _, v, _⟩
  cases k <;> cases lf <;> cases v <;> simp [close]

theorem handler_stop_internal_calls_eq (fmt : Audit_json_formatter) (h : Handler) :
    (handler_stop_internal fmt h).2
      = (if h.m_failed then [] else [Call.stop_msg_format]) ++ (close h).2 ∧
    (handler_stop_internal fmt h).1 = (close h).1 := by
  unfold handler_stop_internal
  cases h.m_failed <;> simp [stop_msg_format]

theorem flush_enabled_eq (fmt : Audit_json_formatter) (env : Env) (h : Handler)
    (hen : h.m_enabled = true) :
    flush fmt env h = ((handler_start fmt env (handler_stop_internal fmt h).1).1,
      (handler_stop_internal fmt h).2 ++
        (handler_start fmt env (handler_stop_internal fmt h).1).2) := by
  simp [flush, hen, handler_stop]

/-- C8: `flush` on a disabled handler makes no call and changes no field. On an enabled
handler it yields the state and the calls of `set_enable(false)` followed by
`set_enable(true)`, with `m_enabled` true afterwards. Its calls are those of the stop step
(`stop_msg_format` unless the handler is failed, then the sink's `close`, exactly once,
and no `open`) followed by those of the start step: nothing more when the destination is
null or empty (the handler ends failed); otherwise the sink's `open` on the destination,
exactly once, right after the close; when `open` returns 0, `start_msg_format` next, exactly
once, with the writes of the header record it makes (none when `m_write_start_msg` is
false, the write of the rendered header when it is true); when the header did not fail, nothing more, and the sink is open and the handler
not failed; when `open` or the header failed, the handler is failed and the sink closed. -/
theorem flush_is_stop_then_start (fmt : Audit_json_formatter) (env : Env) (h : Handler) :
    (h.m_enabled = false → flush fmt env h = (h, [])) ∧
    (h.m_enabled = true →
      flush fmt env h =
        ((set_enable fmt env true (set_enable fmt env false h).1).1,
          (set_enable fmt env false h).2 ++
            (set_enable fmt env true (set_enable fmt env false h).1).2) ∧
      (flush fmt env h).1.m_enabled = true ∧
      count_calls Call.is_close (set_enable fmt env false h).2 = 1 ∧
      count_calls Call.is_open (set_enable fmt env false h).2 = 0 ∧
      (set_enable fmt env false h).2
        = (if h.m_failed then [] else [Call.stop_msg_format]) ++ (close h).2 ∧
      ((h.m_io_dest = none ∨ ∃ dest, h.m_io_dest = some dest ∧ strlen dest = 0) →
        (flush fmt env h).2 = (set_enable fmt env false h).2 ∧
        (flush fmt env h).1.m_failed = true ∧ (flush fmt env h).1.handle = none) ∧
      (∀ dest, h.m_io_dest = some dest → strlen dest ≠ 0 →
        count_calls Call.is_open (flush fmt env h).2 = 1 ∧
        (∃ tail, (flush fmt env h).2
            = (set_enable fmt env false h).2 ++ Call.io_open dest true :: tail ∧
          count_calls Call.is_open tail = 0) ∧
        ((io_open env h dest true).1 ≠ 0 →
          count_calls (fun c => c == Call.start_msg_format) (flush fmt env h).2 = 0 ∧
          (flush fmt env h).1.m_failed = true ∧ (flush fmt env h).1.handle = none) ∧
        ((io_open env h dest true).1 = 0 →
          count_calls (fun c => c == Call.start_msg_format) (flush fmt env h).2 = 1 ∧
          (∃ tail, (flush fmt env h).2
              = (set_enable fmt env false h).2 ++
                ([Call.io_open dest true, Call.start_msg_format] ++
                  (start_msg_format fmt env).2) ++ tail ∧
            ((start_msg_format fmt env).1 ≥ 0 → tail = [])) ∧
          ((start_msg_format fmt env).1 ≥ 0 →
            (flush fmt env h).1.handle.isSome = true ∧
            (flush fmt env h).1.m_failed = false) ∧
          ((start_msg_format fmt env).1 < 0 →
            (flush fmt env h).1.m_failed = true ∧ (flush fmt env h).1.handle = none) ∧
          (fmt.m_write_start_msg = false → (start_msg_format fmt env).2 = []) ∧
          (fmt.m_write_start_msg = true →
            ∀ text, env.yajl_buf (start_msg_gen env) = some text →
              Call.write text ∈ (flush fmt env h).2)))) := by
  constructor
  · intro hdis
    simp [flush, hdis]
  · intro hen
    obtain ⟨s1, s2, s3, _, _, s6, _, s8⟩ :=
      handler_stop_internal_spec fmt { h with m_enabled := false }
    obtain ⟨t1, _, _, _, _, _, _, t8⟩ := handler_stop_internal_spec fmt h
    have h1 := set_enable_false_eq fmt env h hen
    have h2 : set_enable fmt env true (set_enable fmt env false h).1
        = handler_start fmt env { (set_enable fmt env false h).1 with m_enabled := true } := by
      have hd : (set_enable fmt env false h).1.m_enabled = false := by rw [h1, s3]
      exact set_enable_true_eq fmt env _ hd
    have h3 : flush fmt env h =
        ((set_enable fmt env true (set_enable fmt env false h).1).1,
          (set_enable fmt env false h).2 ++
            (set_enable fmt env true (set_enable fmt env false h).1).2) := by
      rw [h2, h1]
      rcases h with ⟨k, _, en, fl, _, _, _, _, _, lf, _, _, _, v, _⟩
      simp only at hen
      subst hen
      cases k <;> cases lf <;> cases v <;> cases fl <;>
        simp [flush, handler_stop, handler_stop_internal, stop_msg_format, close,
          handler_start]
    -- the stop step, as called by `flush` and by `set_enable(false)`
    have hstop : (set_enable fmt env false h).2 = (handler_stop_internal fmt h).2 := by
      rw [h1]
      rcases h with ⟨k, _, en, fl, _, _, _, _, _, lf, _, _, _, v, _⟩
      cases k <;> cases lf <;> cases v <;> cases fl <;>
        simp [handler_stop_internal, stop_msg_format, close]
    have hfl := flush_enabled_eq fmt env h hen
    have hcalls : (flush fmt env h).2 = (set_enable fmt env false h).2 ++
        (handler_start_internal fmt env
          { (handler_stop_internal fmt h).1 with m_log_io_errors := true }).2.2 := by
      rw [hfl, hstop, handler_start_calls_eq]
    have hstate : (flush fmt env h).1
        = (handler_start fmt env (handler_stop_internal fmt h).1).1 := by rw [hfl]
    -- the handler on which the start step runs
    have gd : ({ (handler_stop_internal fmt h).1 with m_log_io_errors := true } :
        Handler).m_io_dest = h.m_io_dest := by
      show (handler_stop_internal fmt h).1.m_io_dest = h.m_io_dest
      rw [(handler_stop_internal_calls_eq fmt h).2]
      exact close_keeps_dest h
    have gd2 : (handler_stop_internal fmt h).1.m_io_dest = h.m_io_dest := gd
    obtain ⟨q1, _, q3, q4, _, _, q7, q8⟩ :=
      handler_start_spec fmt env (handler_stop_internal fmt h).1
    have hc : ∀ dest, (io_open env (handler_stop_internal fmt h).1 dest true).1
        = (io_open env h dest true).1 :=
      fun dest => io_open_code_kind env _ _ dest _ _
        (handler_stop_internal_spec fmt h).2.1
    have hc2 : ∀ dest, (io_open env
        { (handler_stop_internal fmt h).1 with m_log_io_errors := true } dest true).1
        = (io_open env h dest true).1 :=
      fun dest => io_open_code_kind env _ _ dest _ _
        (handler_stop_internal_spec fmt h).2.1
    simp only [hc, gd2] at q7 q8
    refine ⟨h3, ?_, ?_, ?_, ?_, ?_, ?_⟩
    · rw [h3, h2]
      exact (handler_start_spec fmt env _).1
    · rw [h1]
      exact s6
    · rw [h1]
      exact s8
    · rw [hstop]
      exact (handler_stop_internal_calls_eq fmt h).1
    · intro hno
      have hi := handler_start_internal_no_dest fmt env
        { (handler_stop_internal fmt h).1 with m_log_io_errors := true } (by rw [gd]; exact hno)
      have hnot : ¬ ∃ dest, h.m_io_dest = some dest ∧ strlen dest ≠ 0 ∧
          (io_open env h dest true).1 = 0 ∧ (start_msg_format fmt env).1 ≥ 0 := by
        rintro ⟨dest, a, b, _⟩
        rcases hno with hn | ⟨d2, hd2, hl2⟩
        · rw [hn] at a
          cases a
        · rw [hd2] at a
          cases a
          exact b hl2
      obtain ⟨a, _, c⟩ := q8 hnot
      refine ⟨?_, ?_, ?_⟩
      · rw [hcalls, hi]
        simp
      · rw [hstate]
        exact a
      · rw [hstate]
        exact c t1
    · intro dest hd hl
      have hopen1 : count_calls Call.is_open (flush fmt env h).2 = 1 := by
        rw [hfl]
        simp only [count_calls_append, t8, Nat.zero_add]
        exact q4 ⟨dest, by rw [gd2]; exact hd, hl⟩
      refine ⟨hopen1, ?_, ?_, ?_⟩
      · obtain ⟨tail, e1, e2, _⟩ := io_open_calls_head env
          { (handler_stop_internal fmt h).1 with m_log_io_errors := true } dest true
        by_cases ho : (io_open env h dest true).1 = 0
        · obtain ⟨_, ⟨tl, htl⟩, _⟩ := handler_start_internal_open_ok fmt env
            { (handler_stop_internal fmt h).1 with m_log_io_errors := true } dest
            (by rw [gd]; exact hd) hl (by rw [hc2]; exact ho)
          have hsi : (handler_start_internal fmt env
              { (handler_stop_internal fmt h).1 with m_log_io_errors := true }).2.2
              = Call.io_open dest true ::
                (Call.start_msg_format :: ((start_msg_format fmt env).2 ++ tl)) := by
            rw [← htl]
            simp
          refine ⟨_, by rw [hcalls, hsi], ?_⟩
          have hcount := hopen1
          rw [hcalls, hsi, count_calls_append, count_calls_cons] at hcount
          have hz : count_calls Call.is_open (set_enable fmt env false h).2 = 0 := by
            rw [h1]
            exact s8
          rw [hz] at hcount
          simpa [Call.is_open] using hcount
        · have hsi := handler_start_internal_open_failed fmt env
            { (handler_stop_internal fmt h).1 with m_log_io_errors := true } dest
            (by rw [gd]; exact hd) hl (by rw [hc2]; exact ho)
          exact ⟨tail, by rw [hcalls, hsi, e1], e2⟩
      · intro ho
        have hsi := handler_start_internal_open_failed fmt env
          { (handler_stop_internal fmt h).1 with m_log_io_errors := true } dest
          (by rw [gd]; exact hd) hl (by rw [hc2]; exact ho)
        obtain ⟨tail, e1, _, e3⟩ := io_open_calls_head env
          { (handler_stop_internal fmt h).1 with m_log_io_errors := true } dest true
        have hnot : ¬ ∃ dest, h.m_io_dest = some dest ∧ strlen dest ≠ 0 ∧
            (io_open env h dest true).1 = 0 ∧ (start_msg_format fmt env).1 ≥ 0 := by
          rintro ⟨d2, a, _, c, _⟩
          rw [hd] at a
          cases a
          exact ho c
        obtain ⟨a, _, c⟩ := q8 hnot
        refine ⟨?_, by rw [hstate]; exact a, by rw [hstate]; exact c t1⟩
        rw [hcalls, hsi, e1, hstop]
        have hz : count_calls (fun c => c == Call.start_msg_format)
            (handler_stop_internal fmt h).2 = 0 := by
          rw [(handler_stop_internal_calls_eq fmt h).1]
          obtain ⟨_, _, _, c4, _⟩ := close_calls h
          cases h.m_failed <;> simp [count_calls_append, count_calls_cons, count_calls_nil, c4]
        simp [count_calls_append, count_calls_cons, hz, e3]
      · intro ho
        obtain ⟨k1, k2, k3⟩ := handler_start_internal_open_ok fmt env
          { (handler_stop_internal fmt h).1 with m_log_io_errors := true } dest
          (by rw [gd]; exact hd) hl (by rw [hc2]; exact ho)
        have hz : count_calls (fun c => c == Call.start_msg_format)
            (handler_stop_internal fmt h).2 = 0 := by
          rw [(handler_stop_internal_calls_eq fmt h).1]
          obtain ⟨_, _, _, c4, _⟩ := close_calls h
          cases h.m_failed <;> simp [count_calls_append, count_calls_cons, count_calls_nil, c4]
        refine ⟨?_, ?_, ?_, ?_, ?_, ?_⟩
        · rw [hcalls, hstop, count_calls_append, hz, k1]
        · obtain ⟨tail, htail⟩ := k2
          refine ⟨tail, ?_, ?_⟩
          · rw [hcalls, ← htail]
            simp
          · intro hok
            have := k3 hok
            rw [← htail] at this
            simpa using this
        · intro hok
          have := q7 ⟨dest, hd, hl, ho, hok⟩
          rw [hstate]
          exact this
        · intro hbad
          have hnot : ¬ ∃ dest, h.m_io_dest = some dest ∧ strlen dest ≠ 0 ∧
              (io_open env h dest true).1 = 0 ∧ (start_msg_format fmt env).1 ≥ 0 := by
            rintro ⟨d2, _, _, _, c⟩
            omega
          obtain ⟨a, _, c⟩ := q8 hnot
          exact ⟨by rw [hstate]; exact a, by rw [hstate]; exact c t1⟩
        · intro hw
          simp [start_msg_format, hw]
        · intro hw text htext
          obtain ⟨tail, htail⟩ := k2
          rw [hcalls, ← htail]
          have hm : Call.write text ∈ (start_msg_format fmt env).2 := by
            unfold start_msg_format
            by_cases hsw : env.start_write ≥ 0 <;> simp [hw, htext, hsw]
          simp [hm]

theorem flush_is_stop_then_start_witness :
    flush fmt0 env0 file0 = (file0, []) ∧
    (flush fmt0 env0 (set_enable fmt0 env0 true file0).1).1.m_enabled = true ∧
    (count_calls Call.is_open (flush fmt0 env0 (set_enable fmt0 env0 true file0).1).2 = 1 ∧
      count_calls (fun c => c == Call.start_msg_format)
        (flush fmt0 env0 (set_enable fmt0 env0 true file0).1).2 = 1) :=
  ⟨(flush_is_stop_then_start fmt0 env0 file0).1 (by decide),
    ((flush_is_stop_then_start fmt0 env0 (set_enable fmt0 env0 true file0).1).2
      (by decide)).2.1,
    ⟨(((flush_is_stop_then_start fmt0 env0 (set_enable fmt0 env0 true file0).1).2
      (by decide)).2.2.2.2.2.2 (cstr "a") (by decide) (by decide)).1,
      (((((flush_is_stop_then_start fmt0 env0 (set_enable fmt0 env0 true file0).1).2
        (by decide)).2.2.2.2.2.2 (cstr "a") (by decide) (by decide)).2.2.2)
        (by decide)).1⟩⟩

/-! ## Lemmas on buffers and on `replace_in_string` -/

theorem memcpy_at_zeroed (pre src : Bytes) (n : Nat) (hn : src.length ≤ n) :
    memcpy_at (pre ++ zeroed n) pre.length src = pre ++ src ++ zeroed (n - src.length) := by
  unfold memcpy_at zeroed
  have h1 : List.take pre.length (pre ++ List.replicate n 0) = pre := by simp
  have h2 : List.drop (pre.length + src.length) (pre ++ List.replicate n 0)
      = List.replicate (n - src.length) 0 := by
    rw [List.drop_append]
    simp
  rw [h1, h2]
  apply List.take_of_length_le
  simp
  omega

theorem strlen_append_zeroed (a : Bytes) (k : Nat) (ha : ∀ b ∈ a, b ≠ 0) :
    strlen (a ++ zeroed (k + 1)) = a.length ∧
    (a ++ zeroed (k + 1)).take (strlen (a ++ zeroed (k + 1))) = a := by
  have h : (a ++ zeroed (k + 1)).takeWhile (fun b => b != 0) = a := by
    induction a with
    | nil => simp [zeroed, List.replicate_succ]
    | cons x xs ih =>
      have hx : x ≠ 0 := ha x (by simp)
      have := ih (fun b hb => ha b (by simp [hb]))
      simp [List.takeWhile_cons, hx, this]
  unfold strlen
  rw [h]
  simp

theorem to_size_t_natCast (n : Nat) (hn : n < SIZE_MOD) : to_size_t (n : Int) = n := by
  unfold to_size_t
  rw [Int.emod_eq_of_lt (by omega) (by exact_mod_cast hn)]
  simp

theorem replace_in_string_splice (q : Bytes) (s e : Nat) (hse : s ≤ e)
    (heL : e ≤ q.length) (hL : q.length < SIZE_MOD) :
    replace_in_string q q.length s (e - s) pass_replace
      = q.take s ++ pass_replace ++ q.drop e ++ zeroed (e - s + 1) := by
  have h3 : strlen pass_replace = 3 := by decide
  have hp : pass_replace.length = 3 := by decide
  have htr : (s + (e - s)) % SIZE_MOD = e := by
    rw [Nat.add_sub_cancel' hse]
    exact Nat.mod_eq_of_lt (by omega)
  have hfin : (q.length + SIZE_MOD - e) % SIZE_MOD = q.length - e := by
    have : q.length + SIZE_MOD - e = (q.length - e) + SIZE_MOD := by omega
    rw [this, Nat.add_mod_right]
    exact Nat.mod_eq_of_lt (by omega)
  unfold replace_in_string
  simp only [htr, hfin, h3, Nat.zero_add]
  have hs1 : slice q 0 s = q.take s := by simp [slice]
  have hs2 : slice pass_replace 0 3 = pass_replace := by decide
  have hs3 : slice q e (q.length - e) = q.drop e := by
    unfold slice
    apply List.take_of_length_le
    simp
  rw [hs1, hs2, hs3]
  have hl1 : (q.take s).length = s := by
    simp
    omega
  have m1 := memcpy_at_zeroed [] (q.take s) (q.length + 3 + 1) (by rw [hl1]; omega)
  simp only [List.nil_append, List.length_nil] at m1
  rw [m1, hl1]
  have m2 := memcpy_at_zeroed (q.take s) pass_replace (q.length + 3 + 1 - s)
    (by rw [hp]; omega)
  rw [hl1] at m2
  rw [m2, hp]
  have hl2 : (q.take s ++ pass_replace).length = s + 3 := by simp [hl1, hp]
  have m3 := memcpy_at_zeroed (q.take s ++ pass_replace) (q.drop e)
    (q.length + 3 + 1 - s - 3) (by simp; omega)
  rw [hl2] at m3
  rw [m3]
  congr 2
  simp
  omega

/-- Where masking applies and `pcre_exec` reports the first set `psw` group `n` as the span
`[s, e)` of the query `q` (`s ≤ e ≤ q.length`), and no byte of `q` outside the span is NUL,
the text and length `mask_query` yields are `q[0..s)`, `***`, `q[e..)` and
`q.length - (e - s) + 3`. -/
theorem mask_query_splice (preg : Pcre) (q : Bytes) (n s e : Nat)
    (hrc : (preg.exec q).1 ≥ 0) (hent : (preg.stringtable_entries (cstr "psw")).1 > 0)
    (hfirst : first_psw_match (preg.exec q).2
      (preg.stringtable_entries (cstr "psw")).2 = some n)
    (hs : (preg.exec q).2 (n * 2) = (s : Int)) (he : (preg.exec q).2 (n * 2 + 1) = (e : Int))
    (hse : s ≤ e) (heL : e ≤ q.length) (hL : q.length < SIZE_MOD)
    (hnul : ∀ b ∈ q.take s ++ q.drop e, b ≠ 0) :
    (mask_query preg q q.length).1.take (mask_query preg q q.length).2
      = q.take s ++ pass_replace ++ q.drop e ∧
    (mask_query preg q q.length).2 = q.length - (e - s) + 3 := by
  have hz : ∀ b ∈ q.take s ++ pass_replace ++ q.drop e, b ≠ 0 := by
    intro b hb
    simp only [List.mem_append] at hb hnul
    rcases hb with (hb | hb) | hb
    · exact hnul b (Or.inl hb)
    · have : b = 42 := by
        have hpr : pass_replace = [42, 42, 42] := by decide
        rw [hpr] at hb
        simpa using hb
      omega
    · exact hnul b (Or.inr hb)
  have hsz : to_size_t (s : Int) = s := to_size_t_natCast s (by omega)
  have hez : to_size_t ((e : Int) - (s : Int)) = e - s := by
    have : ((e : Int) - (s : Int)) = ((e - s : Nat) : Int) := by omega
    rw [this]
    exact to_size_t_natCast (e - s) (by omega)
  have hmq : mask_query preg q q.length =
      (q.take s ++ pass_replace ++ q.drop e ++ zeroed (e - s + 1),
        strlen (q.take s ++ pass_replace ++ q.drop e ++ zeroed (e - s + 1))) := by
    unfold mask_query
    simp only [List.take_length]
    simp only [hrc, hent, hfirst, hs, he, hsz, hez, if_true,
      replace_in_string_splice q s e hse heL hL]
  obtain ⟨z1, z2⟩ := strlen_append_zeroed (q.take s ++ pass_replace ++ q.drop e) (e - s) hz
  rw [hmq]
  simp only
  refine ⟨z2, ?_⟩
  rw [z1]
  have hp : pass_replace.length = 3 := by decide
  simp [hp]
  omega

theorem mask_query_splice_witness :
    (mask_query preg_psw (cstr "x='a',p='pw'") (cstr "x='a',p='pw'").length).1.take
        (mask_query preg_psw (cstr "x='a',p='pw'") (cstr "x='a',p='pw'").length).2
      = (cstr "x='a',p='pw'").take 9 ++ pass_replace ++ (cstr "x='a',p='pw'").drop 11 ∧
    (mask_query preg_psw (cstr "x='a',p='pw'") (cstr "x='a',p='pw'").length).2
      = (cstr "x='a',p='pw'").length - (11 - 9) + 3 :=
  mask_query_splice preg_psw (cstr "x='a',p='pw'") 1 9 11 (by decide) (by decide)
    (by decide) (by decide) (by decide) (by decide) (by decide) (by decide) (by decide)

/-! ## Claims on the query text of `event_format` -/

/-- The last generator calls of `event_format` before the buffer is fetched: the key
`"query"`, the first `query_len` bytes of `query_text`, and the closing of the map. -/
theorem event_gen_query_suffix (fmt : Audit_json_formatter) (env : Env) (d : ThdSesData) :
    List.IsSuffix
      [GenCall.string (cstr "query"),
        GenCall.string ((event_query fmt env d).1.take (event_query fmt env d).2),
        GenCall.map_close]
      (event_gen fmt env d) := by
  unfold event_gen yajl_add_string_val_len yajl_add_string
  simp only [List.append_assoc]
  repeat
    first
    | exact List.suffix_refl _
    | apply List.IsSuffix.trans _ (List.suffix_append _ _)

/-- The text and length `event_format` passes on as the `"query"` field do not depend on
what `copy_and_convert` returns. -/
theorem event_query_ignores_conversion (fmt : Audit_json_formatter) (env : Env)
    (d : ThdSesData) (conv : String → Bytes → Bytes) :
    event_query fmt { env with copy_and_convert := conv } d = event_query fmt env d := rfl

/-- Where the predicate, the compiled flag and the pattern are set and the predicate
accepts the command, the `"query"` text of a non-empty query is that of `mask_query` on the
query bytes as `thd_query_str` returned them. -/
theorem event_query_masking (fmt : Audit_json_formatter) (env : Env) (d : ThdSesData)
    (perform : Option Bytes → Bool) (preg : Pcre) (q : Bytes)
    (hq : d.m_pThd.query = some q) (hne : q ≠ [])
    (hp : fmt.m_perform_password_masking = some perform)
    (hc : fmt.m_password_mask_regex_compiled = true)
    (hg : fmt.m_password_mask_regex_preg = some preg)
    (ha : perform d.m_CmdName = true) :
    event_query fmt env d = mask_query preg q q.length := by
  cases q with
  | nil => exact absurd rfl hne
  | cons b bs =>
    unfold event_query
    simp [hq, hp, hc, hg, ha]

theorem event_query_masking_witness :
    event_query fmt_mask env0 ses_nul = mask_query preg_psw query_nul query_nul.length :=
  event_query_masking fmt_mask env0 ses_nul (fun _ => true) preg_psw query_nul
    rfl (by decide) rfl rfl rfl rfl

/-- C9: on a latin1 connection with the query `select 'é'` (ten bytes, `é` the byte 233),
where `copy_and_convert` yields the eleven UTF-8 bytes with `é` as 195, 169, `event_format`
passes the ten raw bytes on as the `"query"` field and the converted text nowhere. -/
theorem event_format_latin1_emits_raw_bytes :
    ses_latin1.m_pThd.csname ≠ "utf8" ∧
    env_latin1.copy_and_convert "latin1" query_latin1
      = cstr "select '" ++ [195, 169] ++ cstr "'" ∧
    event_query fmt0 env_latin1 ses_latin1 = (cstr "select '" ++ [233] ++ cstr "'", 10) ∧
    List.IsSuffix
      [GenCall.string (cstr "query"), GenCall.string (cstr "select '" ++ [233] ++ cstr "'"),
        GenCall.map_close]
      (event_gen fmt0 env_latin1 ses_latin1) ∧
    GenCall.string (cstr "select '" ++ [195, 169] ++ cstr "'")
      ∉ event_gen fmt0 env_latin1 ses_latin1 := by
  decide

/-- C10: with masking on and the `psw` group reported as the span `[9, 11)` of the
twelve-byte query `x='\0',p='pw'`, `replace_in_string` builds `x='\0',p='***'` (thirteen
bytes), but `event_format` takes the length with `strlen` and passes on the three bytes
`x='` as the `"query"` field. -/
theorem event_format_mask_truncates_at_nul :
    query_nul.length = 12 ∧
    query_nul.take 9 ++ pass_replace ++ query_nul.drop 11
      = cstr "x='" ++ [0] ++ cstr "',p='***'" ∧
    query_nul.length - (11 - 9) + 3 = 13 ∧
    event_query fmt_mask env0 ses_nul
      = (cstr "x='" ++ [0] ++ cstr "',p='***'" ++ [0, 0, 0], 3) ∧
    List.IsSuffix
      [GenCall.string (cstr "query"), GenCall.string (cstr "x='"), GenCall.map_close]
      (event_gen fmt_mask env0 ses_nul) := by
  decide

/-! ## Claims on the formatter's results and its configuration -/

theorem event_query_unmasked (fmt : Audit_json_formatter) (env : Env) (d : ThdSesData)
    (q : Bytes) (hq : d.m_pThd.query = some q) (hne : q ≠ [])
    (hoff : fmt.m_perform_password_masking = none ∨
      (∃ perform, fmt.m_perform_password_masking = some perform ∧
        perform d.m_CmdName = false) ∨
      fmt.m_password_mask_regex_compiled = false ∨
      fmt.m_password_mask_regex_preg = none) :
    event_query fmt env d = (q, q.length) := by
  cases q with
  | nil => exact absurd rfl hne
  | cons b bs =>
    unfold event_query
    simp only [hq]
    rcases hoff with h1 | ⟨perform, h1, h2⟩ | h1 | h1
    · simp [h1]
    · cases hg : fmt.m_password_mask_regex_preg <;> simp [h1, h2, hg]
    · cases hp : fmt.m_perform_password_masking <;>
        cases hg : fmt.m_password_mask_regex_preg <;> simp [h1, hp, hg]
    · cases hp : fmt.m_perform_password_masking <;> simp [h1, hp]

theorem event_query_no_text (fmt : Audit_json_formatter) (env : Env) (d : ThdSesData)
    (hq : d.m_pThd.query = none ∨ d.m_pThd.query = some []) :
    event_query fmt env d =
      match d.m_CmdName with
      | some c => if strlen c ≠ 0 then (c, strlen c) else (cstr "n/a", strlen (cstr "n/a"))
      | none => (cstr "n/a", strlen (cstr "n/a")) := by
  unfold event_query
  rcases hq with h | h <;> simp [h]

/-- C11, as stated, fails: for the command `Quit`, which has no query text, with no masking
predicate set, the `"query"` field `event_format` emits is the command name `Quit` (four
bytes), not the (absent) input query text. -/
theorem event_format_query_field_without_text :
    ses_quit.m_pThd.query = none ∧ fmt0.m_perform_password_masking.isNone = true ∧
    event_query fmt0 env0 ses_quit = (cstr "Quit", 4) ∧
    List.IsSuffix
      [GenCall.string (cstr "query"), GenCall.string (cstr "Quit"), GenCall.map_close]
      (event_gen fmt0 env0 ses_quit) := by
  decide

/-- C11, amended: for an event with a non-empty query text `q`, `event_format` emits `q`
itself with its length as the `"query"` field whenever no masking predicate is set, the
predicate returns false for the command, the compiled flag is false or no pattern is
present; so the field differs from `q` only when the predicate is set and returns true for
the command and a compiled pattern exists. For an event without query text the field is the
command name, or `n/a`, whatever the masking configuration. -/
theorem event_format_masks_only_when_configured (fmt : Audit_json_formatter) (env : Env)
    (d : ThdSesData) :
    (∀ q, d.m_pThd.query = some q → q ≠ [] →
      ((fmt.m_perform_password_masking = none ∨
          (∃ perform, fmt.m_perform_password_masking = some perform ∧
            perform d.m_CmdName = false) ∨
          fmt.m_password_mask_regex_compiled = false ∨
          fmt.m_password_mask_regex_preg = none) →
        event_query fmt env d = (q, q.length) ∧
        (event_query fmt env d).1.take (event_query fmt env d).2 = q) ∧
      (event_query fmt env d ≠ (q, q.length) →
        ∃ perform preg, fmt.m_perform_password_masking = some perform ∧
          perform d.m_CmdName = true ∧ fmt.m_password_mask_regex_compiled = true ∧
          fmt.m_password_mask_regex_preg = some preg)) ∧
    ((d.m_pThd.query = none ∨ d.m_pThd.query = some []) →
      event_query fmt env d =
        match d.m_CmdName with
        | some c =>
          if strlen c ≠ 0 then (c, strlen c) else (cstr "n/a", strlen (cstr "n/a"))
        | none => (cstr "n/a", strlen (cstr "n/a"))) := by
  constructor
  · intro q hq hne
    constructor
    · intro hoff
      have h := event_query_unmasked fmt env d q hq hne hoff
      rw [h]
      exact ⟨rfl, List.take_length q⟩
    · intro hdiff
      by_contra hcon
      apply hdiff
      apply event_query_unmasked fmt env d q hq hne
      cases hp : fmt.m_perform_password_masking with
      | none => exact Or.inl rfl
      | some perform =>
        cases hg : fmt.m_password_mask_regex_preg with
        | none => exact Or.inr (Or.inr (Or.inr rfl))
        | some preg =>
          cases hc : fmt.m_password_mask_regex_compiled with
          | false => exact Or.inr (Or.inr (Or.inl rfl))
          | true =>
            cases ha : perform d.m_CmdName with
            | false => exact Or.inr (Or.inl ⟨perform, rfl, ha⟩)
            | true => exact absurd ⟨perform, preg, hp, ha, hc, hg⟩ hcon
  · intro hq
    exact event_query_no_text fmt env d hq

theorem event_format_masks_only_when_configured_witness :
    event_query fmt0 env0 ses0 = (cstr "select 1", (cstr "select 1").length) ∧
    (event_query fmt0 env0 ses0).1.take (event_query fmt0 env0 ses0).2 = cstr "select 1" :=
  ((event_format_masks_only_when_configured fmt0 env0 ses0).1 (cstr "select 1") rfl
    (by decide)).1 (Or.inl rfl)

/-- C12: `compile_password_masking_regex(str)` returns 0 exactly when `str` is non-null and
non-empty and `pcre_compile` returns a pattern; then the compiled flag is true and that
pattern is stored. In every other case it returns non-zero and the compiled flag is false,
and `event_format` then behaves as with no masking predicate at all: a non-empty query text
is emitted as it is. -/
theorem compile_password_masking_regex_result (pcre_compile : Bytes → Option Pcre)
    (fmt : Audit_json_formatter) (str : Option Bytes) :
    ((compile_password_masking_regex pcre_compile fmt str).1 = 0 ↔
      ∃ s re, str = some s ∧ strlen s ≠ 0 ∧ pcre_compile s = some re) ∧
    (∀ s re, str = some s → strlen s ≠ 0 → pcre_compile s = some re →
      (compile_password_masking_regex pcre_compile fmt str).2.m_password_mask_regex_compiled
        = true ∧
      (compile_password_masking_regex pcre_compile fmt str).2.m_password_mask_regex_preg
        = some re) ∧
    ((compile_password_masking_regex pcre_compile fmt str).1 ≠ 0 →
      (compile_password_masking_regex pcre_compile fmt str).2.m_password_mask_regex_compiled
        = false ∧
      (∀ env d, event_format (compile_password_masking_regex pcre_compile fmt str).2 env d
        = event_format { (compile_password_masking_regex pcre_compile fmt str).2 with
            m_perform_password_masking := none } env d) ∧
      (∀ env d q, d.m_pThd.query = some q → q ≠ [] →
        event_query (compile_password_masking_regex pcre_compile fmt str).2 env d
          = (q, q.length))) := by
  have hoff : ∀ f : Audit_json_formatter, f.m_password_mask_regex_compiled = false →
      (∀ env d, event_format f env d
        = event_format { f with m_perform_password_masking := none } env d) ∧
      (∀ env d q, d.m_pThd.query = some q → q ≠ [] → event_query f env d = (q, q.length)) := by
    intro f hf
    have hq : ∀ env d, event_query f env d
        = event_query { f with m_perform_password_masking := none } env d := by
      intro env d
      unfold event_query
      cases d.m_pThd.query with
      | none => rfl
      | some q =>
        cases q with
        | nil => rfl
        | cons b bs =>
          cases hp : f.m_perform_password_masking <;>
            cases hg : f.m_password_mask_regex_preg <;> simp [hf, hp, hg]
    constructor
    · intro env d
      unfold event_format event_gen
      rw [hq env d]
    · intro env d q h1 h2
      exact event_query_unmasked f env d q h1 h2 (Or.inr (Or.inr (Or.inl hf)))
  have hflag : (if fmt.m_password_mask_regex_compiled = true then
      { fmt with m_password_mask_regex_compiled := false } else fmt
        ).m_password_mask_regex_compiled = false := by
    cases hc : fmt.m_password_mask_regex_compiled <;> simp [hc]
  unfold compile_password_masking_regex regex_compile
  simp only []
  generalize (if fmt.m_password_mask_regex_compiled = true then
      { fmt with m_password_mask_regex_compiled := false } else fmt) = f1 at hflag ⊢
  cases str with
  | none =>
    refine ⟨by simp, ?_, fun _ => ⟨hflag, hoff f1 hflag⟩⟩
    intro s re h
    cases h
  | some s =>
    by_cases hl : strlen s = 0
    · simp only [hl, ne_eq, not_true_eq_false, if_false]
      refine ⟨by simp [hl], ?_, fun _ => ⟨hflag, hoff f1 hflag⟩⟩
      intro s2 re h h2
      cases h
      exact absurd hl h2
    · cases hre : pcre_compile s with
      | none =>
        simp only [hl, ne_eq, not_false_eq_true, if_true, hre]
        refine ⟨by simp [hre], ?_,
          fun _ => ⟨hflag, hoff { f1 with m_password_mask_regex_preg := none } hflag⟩⟩
        intro s2 re h _ h3
        cases h
        rw [hre] at h3
        cases h3
      | some re =>
        simp only [hl, ne_eq, not_false_eq_true, if_true, hre]
        refine ⟨by simp [hl, hre], ?_, fun h => absurd trivial h⟩
        intro s2 re2 h _ h3
        cases h
        rw [hre] at h3
        cases h3
        simp

theorem compile_password_masking_regex_result_witness :
    (compile_password_masking_regex pcre_compile0 fmt_mask
      (some (cstr "p"))).2.m_password_mask_regex_compiled = true ∧
    (compile_password_masking_regex pcre_compile0 fmt_mask
      (some (cstr "("))).2.m_password_mask_regex_compiled = false :=
  ⟨((compile_password_masking_regex_result pcre_compile0 fmt_mask (some (cstr "p"))).2.1
      (cstr "p") preg_psw rfl (by decide) rfl).1,
    ((compile_password_masking_regex_result pcre_compile0 fmt_mask (some (cstr "("))).2.2
      (by decide)).1⟩

/-- C13, as stated, fails: with every call succeeding, `event_format` hands the two bytes of
the record and the one byte of the newline to the sink (each `write` returning the number
of bytes it was given) and returns 1, the result of the last `write`, not 3. -/
theorem event_format_returns_last_write :
    (event_format fmt0 env0 ses0).2 = [Call.write (cstr "\x7b\x7d"), Call.write (cstr "\n")] ∧
    env0.event_write = 2 ∧ env0.event_write_nl = 1 ∧
    bytes_written (event_format fmt0 env0 ses0).2 = 3 ∧
    (event_format fmt0 env0 ses0).1 = 1 := by
  decide

/-- C13, amended: `event_format` returns a negative value whenever the JSON serialization
fails (then -2, with no `write`) or a `write` it makes returns a negative value (then that
value); otherwise it returns the non-negative result of its last `write`, the one of the
newline. -/
theorem event_format_result (fmt : Audit_json_formatter) (env : Env) (d : ThdSesData) :
    (env.yajl_buf (event_gen fmt env d) = none →
      event_format fmt env d = (-2, [])) ∧
    (∀ text, env.yajl_buf (event_gen fmt env d) = some text →
      (env.event_write < 0 →
        event_format fmt env d = (env.event_write, [Call.write text])) ∧
      (0 ≤ env.event_write →
        event_format fmt env d
          = (env.event_write_nl, [Call.write text, Call.write (cstr "\n")]))) ∧
    ((event_format fmt env d).1 < 0 ↔
      (env.yajl_buf (event_gen fmt env d) = none ∨ env.event_write < 0 ∨
        (0 ≤ env.event_write ∧ env.event_write_nl < 0))) := by
  unfold event_format
  cases hy : env.yajl_buf (event_gen fmt env d) with
  | none => simp
  | some text =>
    by_cases hw : 0 ≤ env.event_write
    · have hw2 : ¬ env.event_write < 0 := by omega
      simp [hw, hw2]
    · have hw2 : env.event_write < 0 := by omega
      simp [hw, hw2]

theorem event_format_result_witness :
    event_format fmt0 env0 ses0
      = (env0.event_write_nl, [Call.write (cstr "\x7b\x7d"), Call.write (cstr "\n")]) :=
  ((event_format_result fmt0 env0 ses0).2.1 (cstr "\x7b\x7d") rfl).2 (by decide)

/-- Neither `start_msg_format` nor `event_format` reads `m_msg_delimiter`. -/
theorem formats_ignore_delimiter (fmt : Audit_json_formatter) (env : Env) (d : ThdSesData)
    (delim : Option Bytes) :
    start_msg_format { fmt with m_msg_delimiter := delim } env = start_msg_format fmt env ∧
    event_format { fmt with m_msg_delimiter := delim } env d = event_format fmt env d :=
  ⟨rfl, rfl⟩

/-- C14: with the message delimiter configured as `;`, both `start_msg_format` and
`event_format` write the record and then a newline; the configured delimiter is written
nowhere. -/
theorem formats_write_newline_not_delimiter :
    fmt_delim.m_msg_delimiter = some (cstr ";") ∧
    (start_msg_format fmt_delim env0).2
      = [Call.write (cstr "\x7b\x7d"), Call.write (cstr "\n")] ∧
    (event_format fmt_delim env0 ses0).2
      = [Call.write (cstr "\x7b\x7d"), Call.write (cstr "\n")] ∧
    Call.write (cstr ";") ∉ (start_msg_format fmt_delim env0).2 ∧
    Call.write (cstr ";") ∉ (event_format fmt_delim env0 ses0).2 := by
  decide

/-- C19: when `m_write_start_msg` is false, `start_msg_format` makes no `write` call (zero
bytes handed to the sink) and returns 0, whatever the sink and the environment. -/
theorem start_msg_format_suppressed (fmt : Audit_json_formatter) (env : Env)
    (hoff : fmt.m_write_start_msg = false) :
    start_msg_format fmt env = (0, []) ∧
    bytes_written (start_msg_format fmt env).2 = 0 ∧
    count_calls Call.is_write (start_msg_format fmt env).2 = 0 := by
  have h : start_msg_format fmt env = (0, []) := by
    unfold start_msg_format
    simp [hoff]
  rw [h]
  exact ⟨rfl, rfl, rfl⟩

theorem start_msg_format_suppressed_witness :
    start_msg_format { fmt0 with m_write_start_msg := false } env0 = (0, []) ∧
    bytes_written (start_msg_format { fmt0 with m_write_start_msg := false } env0).2 = 0 ∧
    count_calls Call.is_write
      (start_msg_format { fmt0 with m_write_start_msg := false } env0).2 = 0 :=
  start_msg_format_suppressed { fmt0 with m_write_start_msg := false } env0 rfl

/-- C20: `close` on a file or socket handler releases the handle exactly when one is held
and leaves the handle null (on a sink that holds none it releases nothing and changes no
field); a second `close` right after releases nothing and changes nothing, so the two
together release at most once and end in the state of a single `close`. -/
theorem close_idempotent (h : Handler) :
    (close h).1.handle = none ∧
    count_calls Call.is_release (close h).2 = (if h.handle.isSome then 1 else 0) ∧
    (∀ x, h.handle = some x → (close h).2 = [Call.close, Call.release x]) ∧
    (h.m_log_file = none → h.m_vio = none → close h = (h, [Call.close])) ∧
    close (close h).1 = ((close h).1, [Call.close]) ∧
    count_calls Call.is_release ((close h).2 ++ (close (close h).1).2) ≤ 1 := by
  rcases h with ⟨k, _, _, _, _, _, _, _, _, lf, _, _, _, v, _⟩
  cases k <;> cases lf <;> cases v <;>
    simp [close, Handler.handle, count_calls, Call.is_release]

theorem close_idempotent_witness :
    (close (set_enable fmt0 env0 true file0).1).2 = [Call.close, Call.release 7] ∧
    close (Handler.fresh HandlerKind.socket 0 0)
      = (Handler.fresh HandlerKind.socket 0 0, [Call.close]) :=
  ⟨(close_idempotent (set_enable fmt0 env0 true file0).1).2.2.1 7 (by decide),
    (close_idempotent (Handler.fresh HandlerKind.socket 0 0)).2.2.2.1 rfl rfl⟩

/-! ## Claims on the sync counter of the file handler -/

theorem event_format_no_sync (fmt : Audit_json_formatter) (env : Env) (d : ThdSesData) :
    Call.sync ∉ (event_format fmt env d).2 := by
  unfold event_format
  cases env.yajl_buf (event_gen fmt env d)
  · simp
  · by_cases hw : env.event_write ≥ 0 <;> simp [hw]

theorem handler_log_audit_sync_step (x : LogInput) (g : Handler)
    (hk : g.kind = HandlerKind.file) :
    (handler_log_audit x.fmt x.env x.ses g).2.1.kind = HandlerKind.file ∧
    (handler_log_audit x.fmt x.env x.ses g).2.1.m_sync_period = g.m_sync_period ∧
    (handler_log_audit x.fmt x.env x.ses g).2.1.m_sync_counter =
      (if x.event_ok = true ∧ g.m_sync_period ≠ 0 then
        (if (g.m_sync_counter + 1) % UINT_MOD ≥ g.m_sync_period then 0
          else (g.m_sync_counter + 1) % UINT_MOD)
      else g.m_sync_counter) ∧
    (Call.sync ∈ (handler_log_audit x.fmt x.env x.ses g).2.2 ↔
      (x.event_ok = true ∧ g.m_sync_period ≠ 0 ∧
        (g.m_sync_counter + 1) % UINT_MOD ≥ g.m_sync_period)) := by
  have hns := event_format_no_sync x.fmt x.env x.ses
  rcases g with ⟨k, _, _, _, _, _, _, _, _, lf, sp, sc, _, v, _⟩
  simp only at hk
  subst hk
  unfold handler_log_audit LogInput.event_ok
  simp only []
  by_cases hok : (event_format x.fmt x.env x.ses).1 ≥ 0
  · by_cases hp : sp = 0
    · simp [hok, hp, hns]
    · by_cases hge : (sc + 1) % UINT_MOD ≥ sp
      · simp [hok, hp, hge, hns]
      · simp [hok, hp, hge, hns]
  · simp [hok, hns]

theorem succ_mod_period (s p : Nat) (hp : 1 ≤ p) :
    (s + 1) % p = (if s % p + 1 ≥ p then 0 else s % p + 1) := by
  have hlt : s % p < p := Nat.mod_lt s (by omega)
  have h1 : (s + 1) % p = (s % p + 1) % p := by
    conv_lhs => rw [← Nat.div_add_mod s p, Nat.add_assoc, Nat.mul_add_mod]
  rw [h1]
  by_cases hge : s % p + 1 ≥ p
  · have : s % p + 1 = p := by omega
    rw [if_pos hge, this, Nat.mod_self]
  · rw [if_neg hge, Nat.mod_eq_of_lt (by omega)]

theorem succ_mod_eq_iff_dvd (s p : Nat) (hp : 1 ≤ p) : s % p + 1 ≥ p ↔ p ∣ s + 1 := by
  rw [Nat.dvd_iff_mod_eq_zero, succ_mod_period s p hp]
  by_cases hge : s % p + 1 ≥ p
  · simp [hge]
  · simp [hge]

theorem log_many_append (ins : List LogInput) (x : LogInput) (h : Handler) :
    log_many (ins ++ [x]) h
      = (handler_log_audit x.fmt x.env x.ses (log_many ins h)).2.1 := by
  induction ins generalizing h with
  | nil => rfl
  | cons y ys ih => exact ih _

theorem successful_writes_append (ins : List LogInput) (x : LogInput) :
    successful_writes (ins ++ [x])
      = successful_writes ins + (if x.event_ok = true then 1 else 0) := by
  unfold successful_writes
  by_cases hx : x.event_ok = true <;> simp [List.filter_append, hx]

theorem log_many_counter (ins : List LogInput) (h : Handler)
    (hk : h.kind = HandlerKind.file) (hc : h.m_sync_counter = 0)
    (hp : h.m_sync_period < UINT_MOD) :
    (log_many ins h).kind = HandlerKind.file ∧
    (log_many ins h).m_sync_period = h.m_sync_period ∧
    (log_many ins h).m_sync_counter
      = (if h.m_sync_period = 0 then 0 else successful_writes ins % h.m_sync_period) := by
  induction ins using List.reverseRecOn with
  | nil =>
    simp [log_many, successful_writes, hk, hc]
  | append_singleton ins x ih =>
    obtain ⟨i1, i2, i3⟩ := ih
    obtain ⟨s1, s2, s3, _⟩ := handler_log_audit_sync_step x (log_many ins h) i1
    rw [log_many_append, successful_writes_append]
    refine ⟨s1, by rw [s2, i2], ?_⟩
    rw [s3, i2, i3]
    by_cases hp0 : h.m_sync_period = 0
    · simp [hp0]
    · have hp1 : 1 ≤ h.m_sync_period := by omega
      have hlt : successful_writes ins % h.m_sync_period < h.m_sync_period :=
        Nat.mod_lt _ (by omega)
      have hsmall : (successful_writes ins % h.m_sync_period + 1) % UINT_MOD
          = successful_writes ins % h.m_sync_period + 1 := Nat.mod_eq_of_lt (by omega)
      by_cases hx : x.event_ok = true
      · simp only [hp0, hx, if_false, ne_eq, not_false_eq_true, and_self, if_true, hsmall]
        rw [succ_mod_period (successful_writes ins) h.m_sync_period hp1]
      · simp [hp0, hx]

/-- C15, as stated, fails: with sync period 0 the counter of a file handler is 0 after a
successful event write, which is not below the period. -/
theorem sync_counter_not_below_zero_period :
    file_open0.m_sync_period = 0 ∧ file_open0.m_sync_counter = 0 ∧
    input0.event_ok = true ∧
    (handler_log_audit input0.fmt input0.env input0.ses file_open0).2.1.m_sync_counter = 0 ∧
    ¬ ((handler_log_audit input0.fmt input0.env input0.ses file_open0).2.1.m_sync_counter
        < file_open0.m_sync_period) := by
  decide

/-- C15, amended: on a file handler whose sync counter starts at 0, with the sync period `p`
(an `unsigned int`) held constant, after any run of calls the next call triggers a
flush-and-sync if and only if its event write succeeds, `p ≥ 1` and `p` divides the number
`k` of successful event writes so far, this one included; a failed event write leaves the
counter as it is and triggers no sync; after every call the counter is below `p` when
`p ≥ 1`, and it is 0 when `p = 0`. -/
theorem sync_counter_period (ins : List LogInput) (x : LogInput) (h : Handler)
    (hk : h.kind = HandlerKind.file) (hc : h.m_sync_counter = 0)
    (hp : h.m_sync_period < UINT_MOD) :
    (Call.sync ∈ (handler_log_audit x.fmt x.env x.ses (log_many ins h)).2.2 ↔
      (x.event_ok = true ∧ 1 ≤ h.m_sync_period ∧
        h.m_sync_period ∣ successful_writes (ins ++ [x]))) ∧
    (x.event_ok = false →
      (log_many (ins ++ [x]) h).m_sync_counter = (log_many ins h).m_sync_counter ∧
      Call.sync ∉ (handler_log_audit x.fmt x.env x.ses (log_many ins h)).2.2) ∧
    (1 ≤ h.m_sync_period → (log_many (ins ++ [x]) h).m_sync_counter < h.m_sync_period) ∧
    (h.m_sync_period = 0 → (log_many (ins ++ [x]) h).m_sync_counter = 0) ∧
    (log_many (ins ++ [x]) h).m_sync_period = h.m_sync_period := by
  obtain ⟨i1, i2, i3⟩ := log_many_counter ins h hk hc hp
  obtain ⟨_, j2, j3⟩ := log_many_counter (ins ++ [x]) h hk hc hp
  obtain ⟨_, _, s3, s4⟩ := handler_log_audit_sync_step x (log_many ins h) i1
  refine ⟨?_, ?_, ?_, ?_, j2⟩
  · rw [s4, i2, i3, successful_writes_append]
    by_cases hp0 : h.m_sync_period = 0
    · simp [hp0]
    · have hp1 : 1 ≤ h.m_sync_period := by omega
      have hlt : successful_writes ins % h.m_sync_period < h.m_sync_period :=
        Nat.mod_lt _ (by omega)
      have hsmall : (successful_writes ins % h.m_sync_period + 1) % UINT_MOD
          = successful_writes ins % h.m_sync_period + 1 := Nat.mod_eq_of_lt (by omega)
      by_cases hx : x.event_ok = true
      · simp only [hp0, hx, if_false, if_true, hsmall, ne_eq, not_false_eq_true, true_and,
          hp1]
        exact succ_mod_eq_iff_dvd _ _ hp1
      · simp [hx]
  · intro hx
    rw [log_many_append, s3, s4]
    simp [hx]
  · intro hp1
    rw [j3, if_neg (by omega)]
    exact Nat.mod_lt _ (by omega)
  · intro hp0
    rw [j3, if_pos hp0]

theorem sync_counter_period_witness :
    Call.sync ∈ (handler_log_audit input0.fmt input0.env input0.ses
      (log_many [input0, input0] file_sync3)).2.2 ∧
    (log_many ([input0, input0] ++ [input0]) file_sync3).m_sync_counter
      < file_sync3.m_sync_period :=
  ⟨(sync_counter_period [input0, input0] input0 file_sync3 rfl rfl (by decide)).1.2
      (by decide),
    (sync_counter_period [input0, input0] input0 file_sync3 rfl rfl (by decide)).2.2.1
      (by decide)⟩

/-! ## Lemmas on the object iterator -/

theorem startGetObjects_query_cache (d : ThdSesData)
    (hq : (is_generic_query d.m_pThd && has_query_cache_hits d.m_pThd) = true) :
    startGetObjects d = some (true,
      { d with m_objIterType := ObjectIterType.OBJ_QUERY_CACHE, m_tables := [],
               m_firstTable := true, m_index := 0, m_tableInf := d.m_pThd.query_cache }) := by
  unfold is_generic_query has_query_cache_hits at hq
  unfold startGetObjects
  cases hqc : d.m_pThd.query_cache with
  | none => simp [hqc] at hq
  | some inf =>
    simp only [hqc, Bool.and_eq_true] at hq
    simp [hqc, hq.1.1, hq.1.2, hq.2]

theorem startGetObjects_null_name (d : ThdSesData) (hn : d.m_CmdName = none)
    (hq : (is_generic_query d.m_pThd && has_query_cache_hits d.m_pThd) = false) :
    startGetObjects d = none := by
  unfold is_generic_query has_query_cache_hits at hq
  unfold startGetObjects
  cases hqc : d.m_pThd.query_cache with
  | none => simp [hn]
  | some inf =>
    simp only [hqc] at hq
    simp only [hqc, hn]
    rw [if_neg]
    simpa using hq

theorem startGetObjects_spec (d : ThdSesData) (cmd : Bytes)
    (hcmd : d.m_CmdName = some cmd) :
    ∃ d1, startGetObjects d
        = some (decide (selected_source cmd d ≠ ObjectIterType.OBJ_NONE), d1) ∧
      d1.m_objIterType = selected_source cmd d ∧
      d1.m_pThd = d.m_pThd ∧
      d1.m_CmdName = d.m_CmdName ∧
      d1.m_UserName = d.m_UserName ∧
      d1.m_isSqlCmd = d.m_isSqlCmd ∧
      d1.m_firstTable = true ∧
      d1.m_index = 0 ∧
      d1.m_tableInf = d.m_pThd.query_cache ∧
      (selected_source cmd d = ObjectIterType.OBJ_TABLE_LIST →
        some d1.m_tables = d.m_pThd.lex) := by
  unfold startGetObjects selected_source is_generic_query has_query_cache_hits
    is_db_command cmd_is
  simp only [hcmd]
  cases hlex : d.m_pThd.lex with
  | none =>
    cases hdbc : (cmd == cstr "Init DB" || cmd == cstr "SHOW TABLES" ||
      cmd == cstr "SHOW TABLE") <;> cases hdb : d.m_pThd.db <;> simp [hdbc]
  | some ts =>
    by_cases hcom : d.m_pThd.command = COM_QUERY
    · cases hqc : d.m_pThd.query_cache with
      | none =>
        cases hdbc : (cmd == cstr "Init DB" || cmd == cstr "SHOW TABLES" ||
          cmd == cstr "SHOW TABLE") <;> cases hdb : d.m_pThd.db <;>
          cases ts <;> simp [hdbc, hcom]
      | some inf =>
        by_cases hn : 0 < inf.num_of_elem
        · simp [hcom, hn]
        · cases hdbc : (cmd == cstr "Init DB" || cmd == cstr "SHOW TABLES" ||
            cmd == cstr "SHOW TABLE") <;> cases hdb : d.m_pThd.db <;>
            cases ts <;> simp [hdbc, hcom, hn]
    · cases hdbc : (cmd == cstr "Init DB" || cmd == cstr "SHOW TABLES" ||
        cmd == cstr "SHOW TABLE") <;> cases hdb : d.m_pThd.db <;>
        cases ts <;> simp [hdbc, hcom]

theorem expected_calls_zero (objs : List ObjOut) : expected_calls objs 0 = [] := by
  simp [expected_calls]

theorem expected_calls_nil (n : Nat) : expected_calls [] n = List.replicate n none := by
  simp [expected_calls]

theorem expected_calls_cons (o : ObjOut) (os : List ObjOut) (n : Nat) :
    expected_calls (o :: os) (n + 1) = some o :: expected_calls os n := by
  simp [expected_calls]

theorem next_calls_none (n : Nat) (d : ThdSesData) (out : ObjOut)
    (ht : d.m_objIterType = ObjectIterType.OBJ_NONE) :
    next_calls n d out = some (expected_calls [] n) := by
  rw [expected_calls_nil]
  induction n generalizing out with
  | zero => rfl
  | succ n ih =>
    have hg : getNextObject d out = some (false, out, d) := by
      unfold getNextObject
      simp [ht]
    simp [next_calls, hg, ih, List.replicate_succ]

theorem next_calls_db_drained (n : Nat) (d : ThdSesData) (out : ObjOut)
    (ht : d.m_objIterType = ObjectIterType.OBJ_DB) (hf : d.m_firstTable = false) :
    next_calls n d out = some (expected_calls [] n) := by
  rw [expected_calls_nil]
  induction n generalizing out with
  | zero => rfl
  | succ n ih =>
    have hg : getNextObject d out = some (false, out, d) := by
      unfold getNextObject
      simp [ht, hf]
    simp [next_calls, hg, ih, List.replicate_succ]

theorem next_calls_db (n : Nat) (d : ThdSesData) (out : ObjOut)
    (ht : d.m_objIterType = ObjectIterType.OBJ_DB) (hf : d.m_firstTable = true) :
    next_calls n d out = some (expected_calls
      [{ db_name := d.m_pThd.db, obj_name := none, obj_type := some (cstr "DATABASE") }]
      n) := by
  cases n with
  | zero => rw [expected_calls_zero]; rfl
  | succ n =>
    have hg : getNextObject d out =
        some (true,
          { db_name := d.m_pThd.db, obj_name := none, obj_type := some (cstr "DATABASE") },
          { d with m_firstTable := false }) := by
      unfold getNextObject
      simp [ht, hf]
    rw [expected_calls_cons]
    simp only [next_calls, hg]
    rw [next_calls_db_drained n { d with m_firstTable := false } _ ht rfl]
    rfl

theorem next_calls_query_cache (inf : QueryTableInf) (k : Nat) :
    ∀ (n i : Nat) (d : ThdSesData) (out : ObjOut),
      d.m_objIterType = ObjectIterType.OBJ_QUERY_CACHE → d.m_tableInf = some inf →
      d.m_index = (i : Int) →
      i + k = max i (min inf.num_of_elem MAX_NUM_QUERY_TABLE_ELEM).toNat →
      next_calls n d out
        = some (expected_calls ((List.range' i k).map (query_cache_object inf)) n) := by
  have hM : MAX_NUM_QUERY_TABLE_ELEM = 100 := rfl
  induction k with
  | zero =>
    intro n i d out ht hi hx hk
    simp only [List.range'_zero, List.map_nil, expected_calls_nil]
    rw [hM] at hk
    induction n generalizing out with
    | zero => rfl
    | succ n ih =>
      have hg : getNextObject d out = some (false, out, d) := by
        unfold getNextObject
        simp only [ht, hi, hx, hM]
        rw [if_neg]
        omega
      simp [next_calls, hg, ih, List.replicate_succ]
  | succ k ih =>
    intro n i d out ht hi hx hk
    cases n with
    | zero => rw [expected_calls_zero]; rfl
    | succ n =>
      have hg : getNextObject d out =
          some (true, query_cache_object inf i, { d with m_index := d.m_index + 1 }) := by
        unfold getNextObject
        simp only [ht, hi, hx, hM]
        rw [hM] at hk
        rw [if_pos]
        · simp [query_cache_object]
        · omega
      have hx2 : ({ d with m_index := d.m_index + 1 } : ThdSesData).m_index
          = ((i + 1 : Nat) : Int) := by
        show d.m_index + 1 = _
        rw [hx]
        simp
      simp only [List.range'_succ, List.map_cons, expected_calls_cons, next_calls, hg]
      rw [ih n (i + 1) { d with m_index := d.m_index + 1 } _ ht hi hx2 (by omega)]
      rfl

theorem next_calls_table_list (cmd : Bytes) (ts : List TABLE_LIST) :
    ∀ (n i : Nat) (d : ThdSesData) (out : ObjOut),
      d.m_CmdName = some cmd →
      d.m_objIterType = ObjectIterType.OBJ_TABLE_LIST → d.m_tables = ts →
      (d.m_firstTable && has_view_token cmd) = (decide (i = 0) && has_view_token cmd) →
      next_calls n d out = some (expected_calls (table_list_objects cmd i ts) n) := by
  induction ts with
  | nil =>
    intro n i d out _ ht hts _
    simp only [table_list_objects, expected_calls_nil]
    induction n generalizing out with
    | zero => rfl
    | succ n ih =>
      have hg : getNextObject d out = some (false, out, d) := by
        unfold getNextObject
        simp [ht, hts]
      simp [next_calls, hg, ih, List.replicate_succ]
  | cons t rest ih =>
    intro n i d out hcmd ht hts hinv
    cases n with
    | zero => rw [expected_calls_zero]; rfl
    | succ n =>
      simp only [table_list_objects, expected_calls_cons]
      have hview : (if d.m_firstTable then d.m_CmdName.map has_view_token else some false)
          = some (d.m_firstTable && has_view_token cmd) := by
        cases d.m_firstTable <;> simp [hcmd]
      by_cases hv : ((d.m_firstTable && has_view_token cmd) || t.view_tables) = true
      · have hg : getNextObject d out =
            some (true, table_object cmd i t,
              { d with m_firstTable := false, m_tables := rest }) := by
          have hv2 := hv
          rw [hinv] at hv2
          have hv3 : (i = 0 ∧ has_view_token cmd = true) ∨ t.view_tables = true := by
            simpa using hv2
          have hv4 : (i = 0 ∧ List.IsInfix (cstr "_view") cmd) ∨ t.view_tables = true := by
            simpa [has_view_token] using hv3
          unfold getNextObject table_object
          simp only [ht, hts, hview, hv, if_true]
          simp [hv4]
        simp only [next_calls, hg]
        rw [ih n (i + 1) { d with m_firstTable := false, m_tables := rest } _ hcmd ht rfl
          (by simp)]
        rfl
      · have hg : getNextObject d out =
            some (true, table_object cmd i t, { d with m_tables := rest }) := by
          have hv2 := hv
          rw [hinv] at hv2
          have hv3 : ¬ ((i = 0 ∧ has_view_token cmd = true) ∨ t.view_tables = true) := by
            simpa using hv2
          have hv4 : ¬ ((i = 0 ∧ List.IsInfix (cstr "_view") cmd) ∨
              t.view_tables = true) := by
            simpa [has_view_token] using hv3
          unfold getNextObject table_object
          simp only [ht, hts, hview, hv, if_false]
          simp [hv4]
        have hnext : (d.m_firstTable && has_view_token cmd)
            = (decide (i + 1 = 0) && has_view_token cmd) := by
          have : (d.m_firstTable && has_view_token cmd) = false := by
            cases hb : (d.m_firstTable && has_view_token cmd)
            · rfl
            · simp [hb] at hv
          rw [this]
          simp
        simp only [next_calls, hg]
        rw [ih n (i + 1) { d with m_tables := rest } _ hcmd ht rfl hnext]
        rfl

theorem selected_source_query_cache (cmd : Bytes) (d : ThdSesData)
    (hsel : selected_source cmd d = ObjectIterType.OBJ_QUERY_CACHE) :
    ∃ inf, d.m_pThd.query_cache = some inf ∧ 0 < inf.num_of_elem := by
  unfold selected_source has_query_cache_hits at hsel
  cases hqc : d.m_pThd.query_cache with
  | none =>
    exfalso
    simp only [hqc, Bool.and_false, Bool.false_eq_true, if_false] at hsel
    split at hsel
    · split at hsel <;> cases hsel
    · split at hsel <;> cases hsel
  | some inf =>
    refine ⟨inf, rfl, ?_⟩
    by_contra hcon
    simp only [hqc, hcon, decide_False, Bool.and_false, Bool.false_eq_true,
      if_false] at hsel
    split at hsel
    · split at hsel <;> cases hsel
    · split at hsel <;> cases hsel

theorem selected_source_db (cmd : Bytes) (d : ThdSesData)
    (hsel : selected_source cmd d = ObjectIterType.OBJ_DB) :
    ∃ db, d.m_pThd.db = some db := by
  unfold selected_source at hsel
  cases hdb : d.m_pThd.db with
  | some db => exact ⟨db, rfl⟩
  | none =>
    exfalso
    simp only [hdb, Option.isSome_none, Bool.false_eq_true, if_false] at hsel
    split at hsel
    · cases hsel
    · split at hsel
      · cases hsel
      · split at hsel <;> cases hsel

theorem selected_source_table_list (cmd : Bytes) (d : ThdSesData)
    (hsel : selected_source cmd d = ObjectIterType.OBJ_TABLE_LIST) :
    ∃ t ts, d.m_pThd.lex = some (t :: ts) := by
  unfold selected_source at hsel
  cases hlex : d.m_pThd.lex with
  | none =>
    exfalso
    simp only [hlex, is_generic_query, Option.isSome_none, Bool.false_and,
      Bool.false_eq_true, if_false] at hsel
    split at hsel
    · split at hsel <;> cases hsel
    · cases hsel
  | some ts =>
    cases ts with
    | nil =>
      exfalso
      simp only [hlex, Bool.and_false, Bool.false_eq_true, if_false] at hsel
      split at hsel
      · cases hsel
      · split at hsel
        · split at hsel <;> cases hsel
        · cases hsel
    | cons t rest => exact ⟨t, rest, rfl⟩

theorem next_calls_after_start (d : ThdSesData) (cmd : Bytes)
    (hcmd : d.m_CmdName = some cmd) (b : Bool) (d1 : ThdSesData)
    (hs : startGetObjects d = some (b, d1)) (n : Nat) (out : ObjOut) :
    next_calls n d1 out = some (expected_calls (source_objects cmd d) n) := by
  obtain ⟨d0, e, s1, s3, s4, _, _, s5, s6, s7, s8⟩ := startGetObjects_spec d cmd hcmd
  rw [hs] at e
  have hd : d1 = d0 := by
    have := Option.some.inj e
    exact (Prod.mk.inj this).2
  subst hd
  unfold source_objects objects_of
  cases hsel : selected_source cmd d with
  | OBJ_NONE =>
    rw [hsel] at s1
    exact next_calls_none n _ out s1
  | OBJ_DB =>
    rw [hsel] at s1
    obtain ⟨db, hdb⟩ := selected_source_db cmd d hsel
    simp only [hdb]
    have := next_calls_db n d1 out s1 s5
    rw [s3, hdb] at this
    exact this
  | OBJ_QUERY_CACHE =>
    rw [hsel] at s1
    obtain ⟨inf, hqc, _⟩ := selected_source_query_cache cmd d hsel
    simp only [hqc]
    rw [hqc] at s7
    unfold query_cache_objects
    rw [List.range_eq_range']
    exact next_calls_query_cache inf _ n 0 _ out s1 s7 (by rw [s6]; rfl) (by simp)
  | OBJ_TABLE_LIST =>
    rw [hsel] at s1
    have hl := s8 hsel
    rw [← hl]
    simp only []
    exact next_calls_table_list cmd _ n 0 _ out (s4.trans hcmd) s1 rfl (by rw [s5]; simp)

theorem yield_objects_of_next_calls (fuel : Nat) :
    ∀ (d : ThdSesData) (out : ObjOut) (l : List (Option ObjOut)),
      next_calls fuel d out = some l →
      yield_objects fuel d out = some ((l.takeWhile Option.isSome).filterMap id) := by
  induction fuel with
  | zero =>
    intro d out l hl
    have : l = [] := by
      have := Option.some.inj hl
      exact this.symm
    subst this
    rfl
  | succ fuel ih =>
    intro d out l hl
    unfold next_calls at hl
    unfold yield_objects
    rcases hg : getNextObject d out with _ | ⟨b, out1, d1⟩
    · rw [hg] at hl
      cases hl
    · rw [hg] at hl
      cases b
      · simp only [] at hl ⊢
        cases hn : next_calls fuel d1 out1 with
        | none => rw [hn] at hl; cases hl
        | some l1 =>
          rw [hn] at hl
          have : l = none :: l1 := (Option.some.inj hl).symm
          subst this
          simp
      · simp only [] at hl ⊢
        cases hn : next_calls fuel d1 out1 with
        | none => rw [hn] at hl; cases hl
        | some l1 =>
          rw [hn] at hl
          have : l = some out1 :: l1 := (Option.some.inj hl).symm
          subst this
          rw [ih d1 out1 l1 hn]
          simp

theorem expected_calls_yielded (objs : List ObjOut) :
    ∀ fuel, objs.length < fuel →
      ((expected_calls objs fuel).takeWhile Option.isSome).filterMap id = objs := by
  induction objs with
  | nil =>
    intro fuel hf
    cases fuel with
    | zero => omega
    | succ fuel => simp [expected_calls_nil, List.replicate_succ]
  | cons o os ih =>
    intro fuel hf
    cases fuel with
    | zero => omega
    | succ fuel =>
      have hlen : os.length < fuel := by simpa using hf
      rw [expected_calls_cons]
      simp [ih fuel hlen]

theorem table_list_objects_length (cmd : Bytes) (ts : List TABLE_LIST) :
    ∀ i, (table_list_objects cmd i ts).length = ts.length := by
  induction ts with
  | nil => intro i; rfl
  | cons t rest ih => intro i; simp [table_list_objects, ih]

theorem source_objects_length_le (d : ThdSesData) (cmd : Bytes)
    (hcmd : d.m_CmdName = some cmd) (b : Bool) (d1 : ThdSesData)
    (hs : startGetObjects d = some (b, d1)) :
    (source_objects cmd d).length ≤ objects_left d1 := by
  obtain ⟨d0, e, s1, _, _, _, _, _, s6, _, s8⟩ := startGetObjects_spec d cmd hcmd
  rw [hs] at e
  have hd : d1 = d0 := (Prod.mk.inj (Option.some.inj e)).2
  subst hd
  unfold objects_left source_objects objects_of
  rw [s1]
  cases hsel : selected_source cmd d with
  | OBJ_NONE => simp
  | OBJ_DB => cases d.m_pThd.db <;> simp
  | OBJ_QUERY_CACHE =>
    simp only [s6]
    cases d.m_pThd.query_cache with
    | none => simp
    | some inf =>
      have hM : MAX_NUM_QUERY_TABLE_ELEM = 100 := rfl
      simp only [query_cache_objects, List.length_map, List.length_range, hM]
      omega
  | OBJ_TABLE_LIST =>
    have hl := s8 hsel
    rw [← hl]
    simp only []
    rw [table_list_objects_length]

/-- The loop of `event_format` over the objects ends because `getNextObject` returns false,
having seen exactly the tuples of the selected source. -/
theorem yield_objects_after_start (d : ThdSesData) (cmd : Bytes)
    (hcmd : d.m_CmdName = some cmd) (b : Bool) (d1 : ThdSesData)
    (hs : startGetObjects d = some (b, d1)) (out : ObjOut) :
    yield_objects (objects_left d1 + 1) d1 out = some (source_objects cmd d) := by
  rw [yield_objects_of_next_calls _ _ _ _ (next_calls_after_start d cmd hcmd b d1 hs _ out)]
  rw [expected_calls_yielded _ _
    (Nat.lt_succ_of_le (source_objects_length_le d cmd hcmd b d1 hs))]

theorem source_objects_ne_nil (cmd : Bytes) (d : ThdSesData) :
    source_objects cmd d ≠ [] ↔ selected_source cmd d ≠ ObjectIterType.OBJ_NONE := by
  unfold source_objects objects_of
  cases hsel : selected_source cmd d with
  | OBJ_NONE => simp
  | OBJ_DB =>
    obtain ⟨db, hdb⟩ := selected_source_db cmd d hsel
    simp [hdb]
  | OBJ_QUERY_CACHE =>
    obtain ⟨inf, hqc, hn⟩ := selected_source_query_cache cmd d hsel
    have hM : MAX_NUM_QUERY_TABLE_ELEM = 100 := rfl
    have hpos : 0 < (min inf.num_of_elem MAX_NUM_QUERY_TABLE_ELEM).toNat := by
      rw [hM]
      omega
    simp only [hqc, query_cache_objects, ne_eq, List.map_eq_nil_iff, List.range_eq_nil,
      reduceCtorEq, not_false_eq_true, iff_true]
    omega
  | OBJ_TABLE_LIST =>
    obtain ⟨t, ts, hlex⟩ := selected_source_table_list cmd d hsel
    simp [hlex, table_list_objects]

theorem getNextObject_frame (d : ThdSesData) (out out1 : ObjOut) (b : Bool)
    (d1 : ThdSesData) (hg : getNextObject d out = some (b, out1, d1)) :
    d1.m_pThd = d.m_pThd ∧ d1.m_CmdName = d.m_CmdName ∧
    d1.m_UserName = d.m_UserName ∧ d1.m_isSqlCmd = d.m_isSqlCmd := by
  unfold getNextObject at hg
  split at hg
  · split at hg <;> simp only [Option.some.injEq, Prod.mk.injEq] at hg <;>
      obtain ⟨_, _, rfl⟩ := hg <;> simp
  · split at hg
    · split at hg <;> simp only [Option.some.injEq, Prod.mk.injEq] at hg <;>
        obtain ⟨_, _, rfl⟩ := hg <;> simp
    · simp only [Option.some.injEq, Prod.mk.injEq] at hg
      obtain ⟨_, _, rfl⟩ := hg
      simp
  · split at hg
    · split at hg
      · cases hg
      · split at hg <;> simp only [Option.some.injEq, Prod.mk.injEq] at hg <;>
          obtain ⟨_, _, rfl⟩ := hg <;> simp
    · simp only [Option.some.injEq, Prod.mk.injEq] at hg
      obtain ⟨_, _, rfl⟩ := hg
      simp
  · simp only [Option.some.injEq, Prod.mk.injEq] at hg
    obtain ⟨_, _, rfl⟩ := hg
    simp

theorem expected_calls_succ (objs : List ObjOut) (k : Nat) :
    expected_calls objs (k + 1) = objs.head? :: expected_calls objs.tail k := by
  cases objs with
  | nil => simp [expected_calls_nil, List.replicate_succ]
  | cons o os => simp [expected_calls_cons]

/-- After `n` calls of `getNextObject` on an iterator that yields the tuples `objs`, the
snapshot is unchanged and the iterator yields the tuples not yet seen. -/
theorem after_calls_of_next_calls (n : Nat) :
    ∀ (d : ThdSesData) (out : ObjOut) (objs : List ObjOut),
      (∀ k, next_calls k d out = some (expected_calls objs k)) →
      ∃ d2 out2, after_calls n d out = some (d2, out2) ∧
        (d2.m_pThd = d.m_pThd ∧ d2.m_CmdName = d.m_CmdName ∧
          d2.m_UserName = d.m_UserName ∧ d2.m_isSqlCmd = d.m_isSqlCmd) ∧
        (∀ m, next_calls m d2 out2 = some (expected_calls (objs.drop n) m)) := by
  induction n with
  | zero =>
    intro d out objs hall
    exact ⟨d, out, rfl, ⟨rfl, rfl, rfl, rfl⟩, by simpa using hall⟩
  | succ n ih =>
    intro d out objs hall
    rcases hg : getNextObject d out with _ | ⟨b, out1, d1⟩
    · have h1 := hall 1
      unfold next_calls at h1
      rw [hg] at h1
      cases h1
    · have hstep : ∀ k, next_calls k d1 out1 = some (expected_calls objs.tail k) := by
        intro k
        have hk := hall (k + 1)
        rw [expected_calls_succ] at hk
        unfold next_calls at hk
        rw [hg] at hk
        cases hn : next_calls k d1 out1 with
        | none => cases b <;> simp [hn] at hk
        | some l =>
          cases b <;> simp [hn] at hk <;> rw [hk.2]
      obtain ⟨d2, out2, ha, hf, hm⟩ := ih d1 out1 objs.tail hstep
      obtain ⟨g1, g2, g3, g4⟩ := getNextObject_frame d out out1 b d1 hg
      refine ⟨d2, out2, ?_, ⟨hf.1.trans g1, hf.2.1.trans g2, hf.2.2.1.trans g3,
        hf.2.2.2.trans g4⟩, ?_⟩
      · unfold after_calls
        rw [hg]
        exact ha
      · intro m
        rw [hm m]
        cases objs <;> simp

theorem startGetObjects_congr (d1 d2 : ThdSesData) (h1 : d1.m_pThd = d2.m_pThd)
    (h2 : d1.m_CmdName = d2.m_CmdName) (h3 : d1.m_UserName = d2.m_UserName)
    (h4 : d1.m_isSqlCmd = d2.m_isSqlCmd) : startGetObjects d1 = startGetObjects d2 := by
  rcases d1 with ⟨_, _, _, _, _, _, _, _, _⟩
  rcases d2 with ⟨_, _, _, _, _, _, _, _, _⟩
  simp only at h1 h2 h3 h4
  subst h1 h2 h3 h4
  rfl

theorem drain_objects_of_yield_objects (fuel : Nat) :
    ∀ (g : ThdSesData) (o : ObjOut) (l : List ObjOut),
      yield_objects fuel g o = some l →
      drain_objects fuel g o = l.flatMap (fun o =>
        [GenCall.map_open] ++ yajl_add_obj o.db_name o.obj_type o.obj_name ++
          [GenCall.map_close]) := by
  induction fuel with
  | zero =>
    intro g o l hl
    have : l = [] := (Option.some.inj hl).symm
    subst this
    rfl
  | succ fuel ih =>
    intro g o l hl
    unfold yield_objects at hl
    unfold drain_objects
    rcases hg : getNextObject g o with _ | ⟨b, out1, d1⟩
    · rw [hg] at hl
      cases hl
    · rw [hg] at hl
      cases b
      · have : l = [] := (Option.some.inj hl).symm
        subst this
        simp
      · simp only [] at hl ⊢
        cases hy : yield_objects fuel d1 out1 with
        | none => rw [hy] at hl; cases hl
        | some l1 =>
          rw [hy] at hl
          have : l = out1 :: l1 := (Option.some.inj hl).symm
          subst this
          rw [ih d1 out1 l1 hy]
          simp

/-- The maps `event_format` adds to the `"objects"` array are those of the tuples of the
selected source, one map per tuple: the fuel of the loop is never exhausted. -/
theorem drain_objects_after_start (d : ThdSesData) (cmd : Bytes)
    (hcmd : d.m_CmdName = some cmd) (b : Bool) (d1 : ThdSesData)
    (hs : startGetObjects d = some (b, d1)) (out : ObjOut) :
    drain_objects (objects_left d1 + 1) d1 out
      = (source_objects cmd d).flatMap (fun o =>
          [GenCall.map_open] ++ yajl_add_obj o.db_name o.obj_type o.obj_name ++
            [GenCall.map_close]) :=
  drain_objects_of_yield_objects _ _ _ _ (yield_objects_after_start d cmd hcmd b d1 hs out)

/-! ## Claims on the object iterator -/

/-- C16, as stated, fails: for the command `Field List` (`COM_FIELD_LIST`, not a database
command) whose statement has the parsed table list `db9.t9`, the stated precedence selects
the table list, with one tuple; `startGetObjects` selects no source and returns false, and
`getNextObject` yields nothing. -/
theorem startGetObjects_skips_table_list_of_other_command :
    ses_field_list.m_CmdName = some (cstr "Field List") ∧
    claimed_source (cstr "Field List") ses_field_list = ObjectIterType.OBJ_TABLE_LIST ∧
    claimed_objects (cstr "Field List") ses_field_list =
      [{ db_name := some (cstr "db9"), obj_name := some (cstr "t9"),
         obj_type := some (cstr "TABLE") }] ∧
    start_source ses_field_list = some ObjectIterType.OBJ_NONE ∧
    start_then_next 2 ses_field_list = some (false, [none, none]) := by
  refine ⟨by decide, by decide, by decide, by decide, by decide⟩

/-- C16, amended: `startGetObjects` selects the source by strict precedence: the
query-cache hit list for a generic query (statement present, command `COM_QUERY`) with a
non-empty list, whatever the command name; otherwise, for a command name that is not
`NULL`: the current database for the commands `Init DB`, `SHOW TABLES` and `SHOW TABLE`
(no source when there is no current database, without falling through to the table list);
otherwise the parsed table list when the snapshot is a generic query and the list is
non-empty, and no source for every other command. Outside the query-cache case a `NULL`
command name is passed to `strcmp`. For a generic query with a non-empty query-cache list
and a non-empty table list, the calls of `getNextObject` yield exactly the query-cache
entries, in order, and then nothing. -/
theorem startGetObjects_precedence (d : ThdSesData) :
    ((is_generic_query d.m_pThd && has_query_cache_hits d.m_pThd) = true →
      ∃ d1, startGetObjects d = some (true, d1) ∧
        d1.m_objIterType = ObjectIterType.OBJ_QUERY_CACHE) ∧
    (∀ cmd, d.m_CmdName = some cmd →
      ∃ d1, startGetObjects d
          = some (decide (selected_source cmd d ≠ ObjectIterType.OBJ_NONE), d1) ∧
        d1.m_objIterType = selected_source cmd d ∧
        (∀ n out, next_calls n d1 out
          = some (expected_calls (source_objects cmd d) n))) ∧
    (d.m_CmdName = none →
      (is_generic_query d.m_pThd && has_query_cache_hits d.m_pThd) = false →
      startGetObjects d = none) ∧
    (∀ (inf : QueryTableInf) (t : TABLE_LIST) (ts : List TABLE_LIST),
      d.m_pThd.command = COM_QUERY → d.m_pThd.lex = some (t :: ts) →
      d.m_pThd.query_cache = some inf → 0 < inf.num_of_elem →
      ∃ d1, startGetObjects d = some (true, d1) ∧
        d1.m_objIterType = ObjectIterType.OBJ_QUERY_CACHE ∧
        (∀ n out, next_calls n d1 out = some (expected_calls (query_cache_objects inf) n)) ∧
        (∀ out, yield_objects (objects_left d1 + 1) d1 out
          = some (query_cache_objects inf))) := by
  refine ⟨?_, ?_, ?_, ?_⟩
  · intro hq
    exact ⟨_, startGetObjects_query_cache d hq, rfl⟩
  · intro cmd hcmd
    obtain ⟨d1, e, s1, _⟩ := startGetObjects_spec d cmd hcmd
    exact ⟨d1, e, s1, fun n out => next_calls_after_start d cmd hcmd _ d1 e n out⟩
  · intro hn hq
    exact startGetObjects_null_name d hn hq
  · intro inf t ts hcom hlex hqc hn
    have hq : (is_generic_query d.m_pThd && has_query_cache_hits d.m_pThd) = true := by
      simp [is_generic_query, has_query_cache_hits, hcom, hlex, hqc, hn]
    have hM : MAX_NUM_QUERY_TABLE_ELEM = 100 := rfl
    have hnext : ∀ n out, next_calls n
        { d with m_objIterType := ObjectIterType.OBJ_QUERY_CACHE, m_tables := [],
                 m_firstTable := true, m_index := 0,
                 m_tableInf := d.m_pThd.query_cache } out
        = some (expected_calls (query_cache_objects inf) n) := by
      intro n out
      unfold query_cache_objects
      rw [List.range_eq_range']
      exact next_calls_query_cache inf _ n 0 _ out rfl hqc rfl (by simp)
    refine ⟨_, startGetObjects_query_cache d hq, rfl, hnext, ?_⟩
    intro out
    rw [yield_objects_of_next_calls _ _ _ _ (hnext _ out)]
    rw [expected_calls_yielded]
    have hlen : (query_cache_objects inf).length ≤ 100 := by
      simp only [query_cache_objects, List.length_map, List.length_range, hM]
      omega
    show (query_cache_objects inf).length < (MAX_NUM_QUERY_TABLE_ELEM - 0).toNat + 1
    rw [hM]
    omega

theorem startGetObjects_precedence_witness :
    (∃ d1, startGetObjects ses_cache = some (true, d1) ∧
      d1.m_objIterType = ObjectIterType.OBJ_QUERY_CACHE ∧
      (∀ n out, next_calls n d1 out = some (expected_calls (query_cache_objects cache2) n)) ∧
      (∀ out, yield_objects (objects_left d1 + 1) d1 out
        = some (query_cache_objects cache2))) ∧
    startGetObjects ses_no_name = none :=
  ⟨(startGetObjects_precedence ses_cache).2.2.2 cache2
      { db := some (cstr "db9"), table_name := some (cstr "t9"), view_tables := false } []
      rfl rfl rfl (by decide),
    (startGetObjects_precedence ses_no_name).2.2.1 rfl (by decide)⟩

/-- C17, as stated, fails: for the command `Prepare` (`COM_STMT_PREPARE`) whose statement
has a parsed table list of two nodes, the source the stated precedence selects is the
table list, with two tuples, but `startGetObjects` returns false and the `getNextObject`
calls yield nothing. -/
theorem startGetObjects_false_with_table_list :
    ses_prepare.m_CmdName = some (cstr "Prepare") ∧
    claimed_objects (cstr "Prepare") ses_prepare =
      [{ db_name := some (cstr "db1"), obj_name := some (cstr "t1"),
         obj_type := some (cstr "TABLE") },
       { db_name := some (cstr "db1"), obj_name := some (cstr "t2"),
         obj_type := some (cstr "TABLE") }] ∧
    start_then_next 3 ses_prepare = some (false, [none, none, none]) := by
  refine ⟨by decide, by decide, by decide⟩

/-- C17, amended: for a snapshot whose command name is not `NULL`, with the source selected
as the code does (the table list only for a generic query, no source for a database
command without a current database): `startGetObjects` returns true exactly when the
selected source has at least one object; after it, successive `getNextObject` calls yield
the tuples of the source one per call in source order (the query-cache entries up to the
cap of 100, the nodes of the table list, or the one `(db, no name, "DATABASE")` tuple) and
return false on every later call; when `startGetObjects` returns false, every
`getNextObject` call returns false. -/
theorem object_iteration (d : ThdSesData) (cmd : Bytes) (hcmd : d.m_CmdName = some cmd) :
    ∃ d1, startGetObjects d = some (decide (source_objects cmd d ≠ []), d1) ∧
      (∀ n out, next_calls n d1 out = some (expected_calls (source_objects cmd d) n)) ∧
      (source_objects cmd d = [] →
        ∀ n out, next_calls n d1 out = some (List.replicate n none)) := by
  obtain ⟨d1, e, _⟩ := startGetObjects_spec d cmd hcmd
  have hne := source_objects_ne_nil cmd d
  have hb : decide (selected_source cmd d ≠ ObjectIterType.OBJ_NONE)
      = decide (source_objects cmd d ≠ []) := by
    by_cases h : selected_source cmd d ≠ ObjectIterType.OBJ_NONE
    · rw [decide_eq_true h, decide_eq_true (hne.2 h)]
    · rw [decide_eq_false h, decide_eq_false (fun hc => h (hne.1 hc))]
  rw [hb] at e
  refine ⟨d1, e, fun n out => next_calls_after_start d cmd hcmd _ d1 e n out, ?_⟩
  intro hnil n out
  rw [next_calls_after_start d cmd hcmd _ d1 e n out, hnil, expected_calls_nil]

theorem object_iteration_witness :
    ∃ d1, startGetObjects ses_cache
        = some (decide (source_objects (cstr "select") ses_cache ≠ []), d1) ∧
      (∀ n out, next_calls n d1 out
        = some (expected_calls (source_objects (cstr "select") ses_cache) n)) ∧
      (source_objects (cstr "select") ses_cache = [] →
        ∀ n out, next_calls n d1 out = some (List.replicate n none)) :=
  object_iteration ses_cache (cstr "select") rfl

/-- C18, as stated, fails: on a session of `Init DB` with the database `test`, after
`startGetObjects` and three `getNextObject` calls (the tuple, then false twice), a second
`startGetObjects` returns true and the next `getNextObject` call yields the tuple again. -/
theorem startGetObjects_again_yields_again :
    start_then_next 3 ses_db
      = some (true, [some { db_name := some (cstr "test"), obj_name := none,
                            obj_type := some (cstr "DATABASE") }, none, none]) ∧
    (start_then_after 3 ses_db).bind (start_then_next 2)
      = some (true, [some { db_name := some (cstr "test"), obj_name := none,
                            obj_type := some (cstr "DATABASE") }, none]) := by
  refine ⟨by decide, by decide⟩

/-- C18, amended: for a snapshot whose command name is not `NULL`, the object iterator is
single pass between two calls of `startGetObjects`: once `startGetObjects` has been called
and the objects drained, every further `getNextObject` call returns false; a later
`startGetObjects` on the same snapshot resets the iterator (it returns what the first call
returned, with the same state), and `getNextObject` then yields the objects of the source
again. -/
theorem startGetObjects_restarts (d : ThdSesData) (cmd : Bytes)
    (hcmd : d.m_CmdName = some cmd) (n : Nat) (out : ObjOut) :
    ∃ b d1 d2 out2, startGetObjects d = some (b, d1) ∧
      after_calls n d1 out = some (d2, out2) ∧
      ((source_objects cmd d).length ≤ n →
        ∀ m, next_calls m d2 out2 = some (List.replicate m none)) ∧
      startGetObjects d2 = some (b, d1) ∧
      (∀ m out3, next_calls m d1 out3
        = some (expected_calls (source_objects cmd d) m)) := by
  obtain ⟨d1, e, _, f1, f2, f3, f4, _⟩ := startGetObjects_spec d cmd hcmd
  have hall := fun k => next_calls_after_start d cmd hcmd _ d1 e k out
  obtain ⟨d2, out2, ha, ⟨a1, a2, a3, a4⟩, hm⟩ :=
    after_calls_of_next_calls n d1 out (source_objects cmd d) hall
  refine ⟨_, d1, d2, out2, e, ha, ?_, ?_,
    fun m out3 => next_calls_after_start d cmd hcmd _ d1 e m out3⟩
  · intro hlen m
    rw [hm m, List.drop_of_length_le hlen, expected_calls_nil]
  · rw [← e]
    exact startGetObjects_congr _ _ (a1.trans f1) (a2.trans f2) (a3.trans f3) (a4.trans f4)

theorem startGetObjects_restarts_witness :
    (source_objects (cstr "Init DB") ses_db).length ≤ 3 ∧
    ∃ b d1 d2 out2, startGetObjects ses_db = some (b, d1) ∧
      after_calls 3 d1 out_null = some (d2, out2) ∧
      ((source_objects (cstr "Init DB") ses_db).length ≤ 3 →
        ∀ m, next_calls m d2 out2 = some (List.replicate m none)) ∧
      startGetObjects d2 = some (b, d1) ∧
      (∀ m out3, next_calls m d1 out3
        = some (expected_calls (source_objects (cstr "Init DB") ses_db) m)) :=
  ⟨by decide, startGetObjects_restarts ses_db (cstr "Init DB") rfl 3 out_null⟩

/-! ## Claims on the lock order, the sink invariant and the match vector -/

theorem lock_run_calls (cs : List Call) (s : LockState) (rest : List Step) :
    lock_run s (cs.map Step.call ++ rest) = lock_run s rest := by
  induction cs with
  | nil => rfl
  | cons c cs ih => simpa [lock_run, lock_step] using ih

theorem calls_under_mutex_calls (cs : List Call) (s : LockState) (rest : List Step)
    (hs : s.io_held = true) :
    calls_under_mutex s (cs.map Step.call ++ rest) = calls_under_mutex s rest := by
  induction cs with
  | nil => rfl
  | cons c cs ih => simpa [calls_under_mutex, lock_step, hs] using ih

theorem steps_calls_map (cs : List Call) (rest : List Step) :
    steps_calls (cs.map Step.call ++ rest) = cs ++ steps_calls rest := by
  induction cs with
  | nil => rfl
  | cons c cs ih => simpa [steps_calls] using ih

theorem handler_start_steps_run (fmt : Audit_json_formatter) (env : Env) (h : Handler)
    (rest : List Step) :
    lock_run { rw_held := true, io_held := false } (handler_start_steps fmt env h ++ rest)
      = lock_run { rw_held := true, io_held := false } rest ∧
    calls_under_mutex { rw_held := true, io_held := false }
        (handler_start_steps fmt env h ++ rest)
      = calls_under_mutex { rw_held := true, io_held := false } rest ∧
    steps_calls (handler_start_steps fmt env h ++ rest)
      = (handler_start fmt env h).2 ++ steps_calls rest := by
  have e : handler_start_steps fmt env h ++ rest = Step.lock LockCall.mutex_lock ::
      ((handler_start fmt env h).2.map Step.call ++ (Step.lock LockCall.mutex_unlock :: rest)) := by
    simp [handler_start_steps]
  rw [e]
  refine ⟨?_, ?_, ?_⟩
  · show lock_run { rw_held := true, io_held := true }
      ((handler_start fmt env h).2.map Step.call ++ (Step.lock LockCall.mutex_unlock :: rest)) = _
    rw [lock_run_calls]
    rfl
  · show calls_under_mutex { rw_held := true, io_held := true }
      ((handler_start fmt env h).2.map Step.call ++ (Step.lock LockCall.mutex_unlock :: rest)) = _
    rw [calls_under_mutex_calls _ _ _ rfl]
    rfl
  · show steps_calls
      ((handler_start fmt env h).2.map Step.call ++ (Step.lock LockCall.mutex_unlock :: rest)) = _
    rw [steps_calls_map]
    rfl

theorem handler_stop_steps_run (fmt : Audit_json_formatter) (h : Handler)
    (rest : List Step) :
    lock_run { rw_held := true, io_held := false } (handler_stop_steps fmt h ++ rest)
      = lock_run { rw_held := true, io_held := false } rest ∧
    calls_under_mutex { rw_held := true, io_held := false }
        (handler_stop_steps fmt h ++ rest)
      = calls_under_mutex { rw_held := true, io_held := false } rest ∧
    steps_calls (handler_stop_steps fmt h ++ rest)
      = (handler_stop fmt h).2 ++ steps_calls rest := by
  have e : handler_stop_steps fmt h ++ rest = Step.lock LockCall.mutex_lock ::
      ((handler_stop fmt h).2.map Step.call ++ (Step.lock LockCall.mutex_unlock :: rest)) := by
    simp [handler_stop_steps]
  rw [e]
  refine ⟨?_, ?_, ?_⟩
  · show lock_run { rw_held := true, io_held := true }
      ((handler_stop fmt h).2.map Step.call ++ (Step.lock LockCall.mutex_unlock :: rest)) = _
    rw [lock_run_calls]
    rfl
  · show calls_under_mutex { rw_held := true, io_held := true }
      ((handler_stop fmt h).2.map Step.call ++ (Step.lock LockCall.mutex_unlock :: rest)) = _
    rw [calls_under_mutex_calls _ _ _ rfl]
    rfl
  · show steps_calls
      ((handler_stop fmt h).2.map Step.call ++ (Step.lock LockCall.mutex_unlock :: rest)) = _
    rw [steps_calls_map]
    rfl

/-- The discipline is a real test: the IO mutex taken without the reader-writer lock, the
reader-writer lock taken under the IO mutex, the reader-writer lock released before the IO
mutex, and a lock left held at the end are all rejected, as is a call outside the mutex. -/
theorem lock_discipline_rejects :
    keeps_lock_discipline [Step.lock LockCall.mutex_lock, Step.lock LockCall.mutex_unlock]
      = false ∧
    lock_run { rw_held := false, io_held := true } [Step.lock LockCall.rw_rdlock] = none ∧
    keeps_lock_discipline [Step.lock LockCall.rw_wrlock, Step.lock LockCall.mutex_lock,
      Step.lock LockCall.rw_unlock, Step.lock LockCall.mutex_unlock] = false ∧
    keeps_lock_discipline [Step.lock LockCall.rw_rdlock, Step.lock LockCall.mutex_lock,
      Step.lock LockCall.mutex_unlock] = false ∧
    calls_under_mutex { rw_held := false, io_held := false }
      [Step.lock LockCall.rw_rdlock, Step.call Call.close, Step.lock LockCall.rw_unlock]
      = false := by
  refine ⟨by decide, by decide, by decide, by decide, by decide⟩

theorem set_enable_steps_spec (fmt : Audit_json_formatter) (env : Env) (val : Bool)
    (h : Handler) :
    keeps_lock_discipline (set_enable_steps fmt env val h) = true ∧
    calls_under_mutex { rw_held := false, io_held := false }
      (set_enable_steps fmt env val h) = true ∧
    steps_calls (set_enable_steps fmt env val h) = (set_enable fmt env val h).2 := by
  by_cases hv : h.m_enabled = val
  · have e : set_enable_steps fmt env val h
        = [Step.lock LockCall.rw_wrlock, Step.lock LockCall.rw_unlock] := by
      simp [set_enable_steps, hv]
    rw [e, set_enable_noop fmt env val h hv]
    exact ⟨rfl, rfl, rfl⟩
  · cases val with
    | true =>
      have hd : h.m_enabled = false := by simpa using hv
      obtain ⟨r1, r2, r3⟩ := handler_start_steps_run fmt env { h with m_enabled := true }
        [Step.lock LockCall.rw_unlock]
      have e : set_enable_steps fmt env true h = Step.lock LockCall.rw_wrlock ::
          (handler_start_steps fmt env { h with m_enabled := true } ++
            [Step.lock LockCall.rw_unlock]) := by
        simp [set_enable_steps, hd]
      rw [e, set_enable_true_eq fmt env h hd]
      refine ⟨?_, ?_, ?_⟩
      · show (lock_run { rw_held := true, io_held := false } _ == _) = true
        rw [r1]
        rfl
      · show calls_under_mutex { rw_held := true, io_held := false } _ = true
        rw [r2]
        rfl
      · show steps_calls (handler_start_steps fmt env { h with m_enabled := true } ++
          [Step.lock LockCall.rw_unlock]) = _
        rw [r3]
        simp [steps_calls]
    | false =>
      have hd : h.m_enabled = true := by simpa using hv
      obtain ⟨r1, r2, r3⟩ := handler_stop_steps_run fmt { h with m_enabled := false }
        [Step.lock LockCall.rw_unlock]
      have e : set_enable_steps fmt env false h = Step.lock LockCall.rw_wrlock ::
          (handler_stop_steps fmt { h with m_enabled := false } ++
            [Step.lock LockCall.rw_unlock]) := by
        simp [set_enable_steps, hd]
      rw [e, set_enable_false_eq fmt env h hd]
      refine ⟨?_, ?_, ?_⟩
      · show (lock_run { rw_held := true, io_held := false } _ == _) = true
        rw [r1]
        rfl
      · show calls_under_mutex { rw_held := true, io_held := false } _ = true
        rw [r2]
        rfl
      · show steps_calls (handler_stop_steps fmt { h with m_enabled := false } ++
          [Step.lock LockCall.rw_unlock]) = _
        rw [r3]
        simp [steps_calls, handler_stop]

theorem flush_steps_spec (fmt : Audit_json_formatter) (env : Env) (h : Handler) :
    keeps_lock_discipline (flush_steps fmt env h) = true ∧
    calls_under_mutex { rw_held := false, io_held := false } (flush_steps fmt env h) = true ∧
    steps_calls (flush_steps fmt env h) = (flush fmt env h).2 := by
  cases hen : h.m_enabled with
  | false =>
    have e : flush_steps fmt env h
        = [Step.lock LockCall.rw_wrlock, Step.lock LockCall.rw_unlock] := by
      simp [flush_steps, hen]
    have e2 : flush fmt env h = (h, []) := by simp [flush, hen]
    rw [e, e2]
    exact ⟨rfl, rfl, rfl⟩
  | true =>
    obtain ⟨p1, p2, p3⟩ := handler_stop_steps_run fmt h
      (handler_start_steps fmt env (handler_stop fmt h).1 ++ [Step.lock LockCall.rw_unlock])
    obtain ⟨r1, r2, r3⟩ := handler_start_steps_run fmt env (handler_stop fmt h).1
      [Step.lock LockCall.rw_unlock]
    have e : flush_steps fmt env h = Step.lock LockCall.rw_wrlock ::
        (handler_stop_steps fmt h ++ (handler_start_steps fmt env (handler_stop fmt h).1 ++
          [Step.lock LockCall.rw_unlock])) := by
      simp [flush_steps, hen]
    have e2 : (flush fmt env h).2
        = (handler_stop fmt h).2 ++ (handler_start fmt env (handler_stop fmt h).1).2 := by
      simp [flush, hen]
    rw [e, e2]
    refine ⟨?_, ?_, ?_⟩
    · show (lock_run { rw_held := true, io_held := false } _ == _) = true
      rw [p1, r1]
      rfl
    · show calls_under_mutex { rw_held := true, io_held := false } _ = true
      rw [p2, r2]
      rfl
    · show steps_calls (handler_stop_steps fmt h ++
        (handler_start_steps fmt env (handler_stop fmt h).1 ++
          [Step.lock LockCall.rw_unlock])) = _
      rw [p3, r3]
      simp [steps_calls]

theorem log_audit_steps_spec (fmt : Audit_json_formatter) (env : Env) (d : ThdSesData)
    (h : Handler) :
    keeps_lock_discipline (log_audit_steps fmt env d h) = true ∧
    calls_under_mutex { rw_held := false, io_held := false }
      (log_audit_steps fmt env d h) = true ∧
    steps_calls (log_audit_steps fmt env d h) = (log_audit fmt env d h).2 := by
  by_cases hgo : h.m_enabled = true ∧ d.m_pThd.inst_thread_id = d.m_pThd.thread_id
  · obtain ⟨hen, hid⟩ := hgo
    have e : log_audit_steps fmt env d h = Step.lock LockCall.rw_rdlock ::
        Step.lock LockCall.mutex_lock :: ((log_audit fmt env d h).2.map Step.call ++
          [Step.lock LockCall.mutex_unlock, Step.lock LockCall.rw_unlock]) := by
      simp [log_audit_steps, hen, hid]
    rw [e]
    refine ⟨?_, ?_, ?_⟩
    · show (lock_run { rw_held := true, io_held := true } _ == _) = true
      rw [lock_run_calls]
      rfl
    · show calls_under_mutex { rw_held := true, io_held := true } _ = true
      rw [calls_under_mutex_calls _ _ _ rfl]
      rfl
    · show steps_calls ((log_audit fmt env d h).2.map Step.call ++
        [Step.lock LockCall.mutex_unlock, Step.lock LockCall.rw_unlock]) = _
      rw [steps_calls_map]
      simp [steps_calls]
  · have e : log_audit_steps fmt env d h
        = [Step.lock LockCall.rw_rdlock, Step.lock LockCall.rw_unlock] := by
      unfold log_audit_steps
      by_cases hen : h.m_enabled = true
      · have hid : ¬ d.m_pThd.inst_thread_id = d.m_pThd.thread_id := fun hc => hgo ⟨hen, hc⟩
        simp [hen, hid]
      · simp [hen]
    have e2 : (log_audit fmt env d h).2 = [] := by
      unfold log_audit
      by_cases hen : h.m_enabled = true
      · have hid : ¬ d.m_pThd.inst_thread_id = d.m_pThd.thread_id := fun hc => hgo ⟨hen, hc⟩
        by_cases hp : h.m_print_offset_err = true <;> simp [hen, hid, hp]
      · simp [hen]
    rw [e, e2]
    exact ⟨rfl, rfl, rfl⟩

/-- C21: on every execution path of `set_enable`, `flush` and `log_audit` the lock calls
keep the discipline: the IO mutex is acquired only while the reader-writer lock is held,
the reader-writer lock is never acquired while the IO mutex is held, and every lock
acquired is released before the operation returns, the IO mutex before the reader-writer
lock. The steps carry exactly the calls of the operation, each made under the IO mutex. -/
theorem operations_keep_lock_discipline (fmt : Audit_json_formatter) (env : Env)
    (val : Bool) (d : ThdSesData) (h : Handler) :
    (keeps_lock_discipline (set_enable_steps fmt env val h) = true ∧
      keeps_lock_discipline (flush_steps fmt env h) = true ∧
      keeps_lock_discipline (log_audit_steps fmt env d h) = true) ∧
    (calls_under_mutex { rw_held := false, io_held := false }
        (set_enable_steps fmt env val h) = true ∧
      calls_under_mutex { rw_held := false, io_held := false }
        (flush_steps fmt env h) = true ∧
      calls_under_mutex { rw_held := false, io_held := false }
        (log_audit_steps fmt env d h) = true) ∧
    (steps_calls (set_enable_steps fmt env val h) = (set_enable fmt env val h).2 ∧
      steps_calls (flush_steps fmt env h) = (flush fmt env h).2 ∧
      steps_calls (log_audit_steps fmt env d h) = (log_audit fmt env d h).2) :=
  ⟨⟨(set_enable_steps_spec fmt env val h).1, (flush_steps_spec fmt env h).1,
      (log_audit_steps_spec fmt env d h).1⟩,
    ⟨(set_enable_steps_spec fmt env val h).2.1, (flush_steps_spec fmt env h).2.1,
      (log_audit_steps_spec fmt env d h).2.1⟩,
    ⟨(set_enable_steps_spec fmt env val h).2.2, (flush_steps_spec fmt env h).2.2,
      (log_audit_steps_spec fmt env d h).2.2⟩⟩


theorem operations_keep_lock_discipline_witness :
    log_audit_steps fmt0 env0 ses0 file_open0 =
      [Step.lock LockCall.rw_rdlock, Step.lock LockCall.mutex_lock,
        Step.call Call.event_format, Step.call (Call.write [123, 125]),
        Step.call (Call.write [10]),
        Step.lock LockCall.mutex_unlock, Step.lock LockCall.rw_unlock] ∧
    keeps_lock_discipline (log_audit_steps fmt0 env0 ses0 file_open0) = true :=
  ⟨by decide, (operations_keep_lock_discipline fmt0 env0 true ses0 file_open0).1.2.2⟩

/-! ### The sink invariant over sequences of operations -/

theorem op_apply_reachable (op : Op) (h : Handler) (hr : Reachable h) :
    Reachable (op.apply h) := by
  cases op with
  | set_enable fmt env val => exact Reachable.set_enable fmt env val h hr
  | flush fmt env => exact Reachable.flush fmt env h hr
  | log_audit fmt env d => exact Reachable.log_audit fmt env d h hr
  | config dest retry period bufsize timeout =>
    exact Reachable.config h dest retry period bufsize timeout hr
  | init => exact Reachable.init h hr

theorem run_ops_reachable (ops : List Op) (h : Handler) (hr : Reachable h) :
    Reachable (run_ops ops h) := by
  induction ops generalizing h with
  | nil => exact hr
  | cons op rest ih => exact ih (op.apply h) (op_apply_reachable op h hr)

theorem inv_open_iff (h : Handler) (hi : Inv h) :
    (h.handle.isSome = true ↔ (h.m_enabled = true ∧ h.m_failed = false)) ∧
    (h.m_failed = true ∨ h.m_enabled = false → h.handle = none) := by
  unfold Inv at hi
  cases he : h.m_enabled <;> cases hf : h.m_failed <;> cases hh : h.handle <;>
    simp [he, hf, hh] at hi ⊢

/-- C22: a freshly constructed handler is disabled, not failed and its sink is closed; and
after every sequence of completed `set_enable`, `flush` and `log_audit` calls from it (with
any outcomes of the external calls, and any assignments to the tunables in between) the
sink is open if and only if the handler is enabled and not failed, so that a failed or
disabled handler holds no open sink. -/
theorem sink_open_iff_enabled_and_not_failed (kind : HandlerKind) (ts : Int) (retry : Nat)
    (ops : List Op) :
    ((Handler.fresh kind ts retry).m_enabled = false ∧
      (Handler.fresh kind ts retry).m_failed = false ∧
      (Handler.fresh kind ts retry).handle = none) ∧
    ((run_ops ops (Handler.fresh kind ts retry)).handle.isSome = true ↔
      ((run_ops ops (Handler.fresh kind ts retry)).m_enabled = true ∧
        (run_ops ops (Handler.fresh kind ts retry)).m_failed = false)) ∧
    ((run_ops ops (Handler.fresh kind ts retry)).m_failed = true ∨
        (run_ops ops (Handler.fresh kind ts retry)).m_enabled = false →
      (run_ops ops (Handler.fresh kind ts retry)).handle = none) := by
  refine ⟨⟨rfl, rfl, ?_⟩, ?_⟩
  · cases kind <;> rfl
  · exact inv_open_iff _
      (reachable_inv _ (run_ops_reachable ops _ (Reachable.fresh kind ts retry)))

theorem sink_open_iff_enabled_and_not_failed_witness :
    ((run_ops [Op.config (some (cstr "a")) 10 0 0 1, Op.set_enable fmt0 env0 true]
        (Handler.fresh HandlerKind.file 0 10)).handle = some 7 ∧
      (run_ops [Op.config (some (cstr "a")) 10 0 0 1, Op.set_enable fmt0 env0 true]
        (Handler.fresh HandlerKind.file 0 10)).m_enabled = true ∧
      (run_ops [Op.config (some (cstr "a")) 10 0 0 1, Op.set_enable fmt0 env0 true]
        (Handler.fresh HandlerKind.file 0 10)).m_failed = false) ∧
    ((run_ops [Op.set_enable fmt0 env0 true]
        (Handler.fresh HandlerKind.file 0 10)).m_failed = true ∧
      (run_ops [Op.set_enable fmt0 env0 true]
        (Handler.fresh HandlerKind.file 0 10)).handle = none) :=
  ⟨⟨by decide,
      (sink_open_iff_enabled_and_not_failed HandlerKind.file 0 10
        [Op.config (some (cstr "a")) 10 0 0 1, Op.set_enable fmt0 env0 true]).2.1.mp
        (by decide)⟩,
    by decide,
    (sink_open_iff_enabled_and_not_failed HandlerKind.file 0 10
      [Op.set_enable fmt0 env0 true]).2.2 (Or.inl (by decide))⟩

/-! ### The indexes read in the match vector -/

theorem psw_reads_in_range_iff (n : Nat) :
    (∀ i ∈ psw_reads n, i < matches_elements) ↔ n < 45 := by
  simp only [psw_reads, matches_elements, List.mem_cons, List.mem_singleton,
    List.not_mem_nil, or_false]
  constructor
  · intro hall
    have := hall (n * 2 + 1) (Or.inr rfl)
    omega
  · intro hn i hi
    rcases hi with rfl | rfl <;> omega

theorem first_psw_match_bound (matchv : Nat → Int) (entries : List Nat) (n : Nat)
    (hn : first_psw_match matchv entries = some n) :
    0 < n ∧ n < matches_elements ∧ n ∈ entries := by
  induction entries with
  | nil => simp [first_psw_match] at hn
  | cons e rest ih =>
    unfold first_psw_match at hn
    split at hn
    · rename_i hg
      have e1 : e = n := by simpa using hn
      subst e1
      exact ⟨hg.1, hg.2.1, List.mem_cons_self _ _⟩
    · obtain ⟨a, b, c⟩ := ih hn
      exact ⟨a, b, List.mem_cons_of_mem _ c⟩

theorem first_psw_match_reads_mem (matchv : Nat → Int) (entries : List Nat) (i : Nat)
    (hi : i ∈ first_psw_match_reads matchv entries) :
    ∃ n ∈ entries, 0 < n ∧ n < matches_elements ∧ i = n * 2 := by
  induction entries with
  | nil => simp [first_psw_match_reads] at hi
  | cons e rest ih =>
    unfold first_psw_match_reads at hi
    split at hi
    · rename_i hg
      split at hi
      · have e1 : i = e * 2 := by simpa using hi
        exact ⟨e, List.mem_cons_self _ _, hg.1, hg.2, e1⟩
      · rcases List.mem_cons.mp hi with h1 | h1
        · exact ⟨e, List.mem_cons_self _ _, hg.1, hg.2, h1⟩
        · obtain ⟨n, hm, r⟩ := ih h1
          exact ⟨n, List.mem_cons_of_mem _ hm, r⟩
    · obtain ⟨n, hm, r⟩ := ih hi
      exact ⟨n, List.mem_cons_of_mem _ hm, r⟩

/-- Every index that the masking block reads belongs to a group number of the name table
within the bound of the guard: it is below twice the element count of the vector, and it
is within the vector when every group number of the name table is below 45. -/
theorem mask_query_reads_bound (preg : Pcre) (query_text : Bytes) (query_len : Nat)
    (i : Nat) (hi : i ∈ mask_query_reads preg query_text query_len) :
    i < 2 * matches_elements ∧
    ((∀ n ∈ (preg.stringtable_entries (cstr "psw")).2, n < 45) → i < matches_elements) := by
  have key : ∃ n ∈ (preg.stringtable_entries (cstr "psw")).2,
      0 < n ∧ n < matches_elements ∧ (i = n * 2 ∨ i = n * 2 + 1) := by
    unfold mask_query_reads at hi
    simp only at hi
    split at hi
    · split at hi
      · rcases List.mem_append.mp hi with h1 | h1
        · obtain ⟨n, hm, a, b, c⟩ := first_psw_match_reads_mem _ _ _ h1
          exact ⟨n, hm, a, b, Or.inl c⟩
        · split at h1
          · rename_i n hn
            obtain ⟨a, b, c⟩ := first_psw_match_bound _ _ _ hn
            refine ⟨n, c, a, b, ?_⟩
            simpa [psw_reads] using h1
          · simp at h1
      · simp at hi
    · simp at hi
  obtain ⟨n, hm, a, b, c⟩ := key
  unfold matches_elements at *
  refine ⟨by omega, fun hall => ?_⟩
  have := hall n hm
  omega

theorem mask_query_reads_bound_witness :
    90 ∈ mask_query_reads preg45 (cstr "select 1") 8 ∧ 90 < 2 * matches_elements :=
  ⟨by decide, (mask_query_reads_bound preg45 (cstr "select 1") 8 90 (by decide)).1⟩

/-- C23, refuted: the group number 45 passes the bound test of the guard
(`0 < 45 < 90`, the element count of `matches`), and the loop then reads `matches[90]` in
the guard and `matches[90]`, `matches[91]` in the call of `replace_in_string`: none of these
indexes is within the 90 elements; the query is then masked at the offsets found there. -/
theorem redaction_reads_past_match_vector :
    (0 < 45 ∧ 45 < matches_elements) ∧
    first_psw_match (preg45.exec (cstr "select 1")).2
      (preg45.stringtable_entries (cstr "psw")).2 = some 45 ∧
    psw_reads 45 = [90, 91] ∧
    mask_query_reads preg45 (cstr "select 1") 8 = [90, 90, 91] ∧
    (∀ i ∈ mask_query_reads preg45 (cstr "select 1") 8, ¬ i < matches_elements) ∧
    ses0.m_pThd.query = some (cstr "select 1") ∧
    event_query fmt45 env0 ses0 = (cstr "sel***t 1" ++ [0, 0, 0], 9) := by
  refine ⟨by decide, by decide, by decide, by decide, by decide, by decide, by decide⟩
end MysqlAudit
